import Mathlib

/-!
Task API (`api-rest-completa.js`): list, search, sort, pagination, partial update

A shallow embedding of the request handlers of `src/api-rest-completa.js`.
The module-level collections (`tareas`, `usuarios`, `categorias` and the two id counters)
become one explicit `Store` value that every handler receives and, when it mutates,
returns.  A handler that throws becomes `Except.error`; the error value records which
`throw new ...(...)` statement was reached, and `evaluarNew` gives what that statement
raises, from the functions of `src/errores.js`.
-/

namespace ApiRest

/-! ## JavaScript built-ins used by the handlers -/

/-- ECMAScript white space and line terminators: what `String.prototype.trim` removes,
what `parseInt` skips in front of the number, and what `\s` matches in a regular expression. -/
def esEspacio (c : Char) : Bool :=
  let n := c.toNat
  n = 0x09 || n = 0x0A || n = 0x0B || n = 0x0C || n = 0x0D || n = 0x20 || n = 0xA0 ||
  n = 0x1680 || (0x2000 ≤ n && n ≤ 0x200A) || n = 0x2028 || n = 0x2029 || n = 0x202F ||
  n = 0x205F || n = 0x3000 || n = 0xFEFF

/-- The characters of `s.trim()`. -/
def trimChars (cs : List Char) : List Char :=
  ((cs.dropWhile esEspacio).reverse.dropWhile esEspacio).reverse

/-- The call `s.trim()`. -/
def jsTrim (s : String) : String := String.mk (trimChars s.data)

/-- The value `s.length`: the number of UTF-16 code units of `s`. -/
def jsLength (s : String) : Nat :=
  (s.data.map fun c => if c.toNat < 0x10000 then 1 else 2).sum

/-- The call `texto.includes(termino)` on character lists: `termino` starts at some position
of `texto`. -/
def includesChars (termino : List Char) : List Char → Bool
  | [] => termino.isEmpty
  | c :: cs => termino.isPrefixOf (c :: cs) || includesChars termino cs

/-- The call `texto.includes(termino)`. -/
def includes (texto termino : String) : Bool := includesChars termino.data texto.data

/-- Value of a decimal digit character. -/
def valorDigito (c : Char) : Nat := c.toNat - 48

/-- The characters `0`..`9`. -/
def esDigito (c : Char) : Bool := 48 ≤ c.toNat && c.toNat ≤ 57

/-- Value of a string of decimal digits, most significant first. -/
def valorDecimal (ds : List Char) : Nat := ds.foldl (fun a c => 10 * a + valorDigito c) 0

/-- The characters `0`..`9`, `a`..`f`, `A`..`F`. -/
def esDigitoHex (c : Char) : Bool :=
  esDigito c || (97 ≤ c.toNat && c.toNat ≤ 102) || (65 ≤ c.toNat && c.toNat ≤ 70)

/-- Value of a hexadecimal digit character. -/
def valorDigitoHex (c : Char) : Nat :=
  if esDigito c then c.toNat - 48 else if 97 ≤ c.toNat then c.toNat - 87 else c.toNat - 55

/-- Value of a string of hexadecimal digits, most significant first. -/
def valorHex (ds : List Char) : Nat := ds.foldl (fun a c => 16 * a + valorDigitoHex c) 0

/-- The digits part of `parseInt`, after white space and sign have been removed: a `0x`/`0X`
prefix selects radix 16, otherwise radix 10; the longest prefix of digits is the number and
no digit at all is `NaN` (`none`). -/
def parseIntSinSigno (cs : List Char) : Option Nat :=
  match cs with
  | c0 :: cx :: resto =>
    if c0.toNat = 48 && (cx.toNat = 120 || cx.toNat = 88) then
      (if (resto.takeWhile esDigitoHex).isEmpty then none
       else some (valorHex (resto.takeWhile esDigitoHex)))
    else
      (if (cs.takeWhile esDigito).isEmpty then none
       else some (valorDecimal (cs.takeWhile esDigito)))
  | _ =>
    if (cs.takeWhile esDigito).isEmpty then none
    else some (valorDecimal (cs.takeWhile esDigito))

/-- The call `parseInt(s)` for a string, radix omitted; `none` is `NaN`.  The value is the
exact integer the digits denote.  A Number holds every integer up to 2^53 exactly; for more
digits `parseInt` returns the nearest double, a rounding this definition does not perform. -/
def parseIntChars (cs : List Char) : Option Int :=
  match cs.dropWhile esEspacio with
  | c :: resto =>
    if c.toNat = 45 then (parseIntSinSigno resto).map fun n => -(n : Int)
    else if c.toNat = 43 then (parseIntSinSigno resto).map fun n => (n : Int)
    else (parseIntSinSigno (c :: resto)).map fun n => (n : Int)
  | [] => none

/-- A value of a parsed JSON body or of a route/query parameter.  `num` holds an integer
Number; `objeto` stands for an array or object and carries the text `String(v)` gives for it,
which is all the handlers can observe of it besides its type. -/
inductive JVal where
  | null
  | bool (b : Bool)
  | num (n : Int)
  | str (s : String)
  | objeto (texto : String)
  deriving DecidableEq, Repr

/-- The call `parseInt(v)`: the argument is converted to a string first, so `null` and
booleans give `NaN`, an integer Number gives itself.  That holds for a Number below 10^21;
from there on its string is in exponent form and `parseInt` reads the leading digit only, a
case this definition does not distinguish. -/
def parseInt : JVal → Option Int
  | .null => none
  | .bool _ => none
  | .num n => some n
  | .str s => parseIntChars s.data
  | .objeto texto => parseIntChars texto.data

/-- Truthiness of an optional string parameter, as in `if (q)`: supplied and not empty. -/
def esVerdadero : Option String → Bool
  | none => false
  | some v => v ≠ ""

/-- Built-ins of the JavaScript runtime that depend on Unicode tables and on the locale.
They are not part of the repository, so the handlers take them as given. -/
structure Entorno where
  /-- The method `String.prototype.toLowerCase`. -/
  toLowerCase : String → String
  /-- The method `String.prototype.localeCompare`. -/
  localeCompare : String → String → Int

/-- A runtime that lower-cases the letters `A`..`Z` only and compares strings code point by
code point; it agrees with the built-ins on lower-casing ASCII text. -/
def entornoAscii : Entorno where
  toLowerCase := fun s => String.mk (s.data.map Char.toLower)
  localeCompare := fun a b => if a < b then -1 else if a = b then 0 else 1

/-! ## Data model -/

/-- An element of `tareas`.  `completada` and `categoriaId` keep the JSON value that was
assigned (`req.body.completada`, `req.body.categoriaId` are stored as received); the two
timestamps are absent (`undefined`) on the seed tasks. -/
structure Tarea where
  id : Int
  titulo : String
  descripcion : String
  completada : JVal
  prioridad : String
  usuarioId : Int
  categoriaId : JVal
  fechaCreacion : Option String := none
  fechaActualizacion : Option String := none
  deriving DecidableEq, Repr

/-- An element of `usuarios`. -/
structure Usuario where
  id : Int
  nombre : String
  email : String
  deriving DecidableEq, Repr

/-- An element of `categorias`. -/
structure Categoria where
  id : Int
  nombre : String
  deriving DecidableEq, Repr

/-- The module-level state: the three collections and the two id counters. -/
structure Store where
  tareas : List Tarea
  usuarios : List Usuario
  categorias : List Categoria
  siguienteIdTarea : Int
  siguienteIdCategoria : Int
  deriving DecidableEq, Repr

/-- The state the module starts with. -/
def almacenInicial : Store where
  tareas :=
    [ { id := 1, titulo := "Aprender Express", descripcion := "Completar tutorial",
        completada := .bool false, prioridad := "alta", usuarioId := 1, categoriaId := .num 1 },
      { id := 2, titulo := "Crear API", descripcion := "Implementar endpoints",
        completada := .bool true, prioridad := "media", usuarioId := 1, categoriaId := .num 2 },
      { id := 3, titulo := "Testing", descripcion := "Probar con Postman",
        completada := .bool false, prioridad := "baja", usuarioId := 2, categoriaId := .num 1 } ]
  usuarios :=
    [ { id := 1, nombre := "Admin", email := "admin@example.com" },
      { id := 2, nombre := "Usuario", email := "user@example.com" } ]
  categorias :=
    [ { id := 1, nombre := "Desarrollo" }, { id := 2, nombre := "Personal" },
      { id := 3, nombre := "Hogar" } ]
  siguienteIdTarea := 4
  siguienteIdCategoria := 4

/-- The throw statement at which a handler stops.  Each constructor is one of the three
names written after `throw new` in `api-rest-completa.js`, with the arguments written there;
nothing after the statement runs.  A value of this type says where the handler stopped, not
what was raised: the value the statement raises is given by `evaluarNew`, and it is a
`TypeError` or a `ReferenceError` of the runtime in every case. -/
inductive Err where
  /-- The statement `throw new NotFoundError(recurso)`. -/
  | notFound (recurso : String)
  /-- The statement `throw new AppError(mensaje, statusCode)`. -/
  | app (mensaje : String) (statusCode : Nat)
  /-- The statement `throw new ValidationError(mensaje, detalles)`; `detalles` is empty when
  the second argument is omitted. -/
  | validation (mensaje : String) (detalles : List String)
  deriving DecidableEq, Repr

deriving instance DecidableEq for Except

/-! ## The functions of `errores.js` and what the throw statements raise -/

/-- An exception object of the JavaScript runtime, with its `name` and `message`. -/
structure Excepcion where
  name : String
  message : String
  deriving DecidableEq, Repr

/-- The exception of reading `res.status` when `res` is `undefined`. -/
def errorSinRes : Excepcion :=
  { name := "TypeError", message := "Cannot read properties of undefined (reading 'status')" }

/-- The exception of evaluating the name `ValidationError`, which `api-rest-completa.js`
neither imports (line 4 imports `AppError` and `NotFoundError` only) nor declares. -/
def errorSinValidationError : Excepcion :=
  { name := "ReferenceError", message := "ValidationError is not defined" }

/-- The status and the fields `error` and `detalles` of the JSON body of an error response;
`detalles` is `none` when the body has no such field.  The other fields (`timestamp`, `stack`,
and `metodo`, `ruta`, `sugerencias` of the 404 body) are left out. -/
structure RespuestaError where
  status : Nat
  error : String
  detalles : Option (List String) := none
  deriving DecidableEq, Repr

/-- The function `NotFoundError(req, res)` of `errores.js`, a middleware that writes the 404
response on `res`.  The flag `res` is false when the second argument is `undefined`: then the
first thing the body does, reading `res.status`, raises. -/
def NotFoundError (res : Bool) : Except Excepcion RespuestaError :=
  if res then .ok { status := 404, error := "Ruta no encontrada" } else .error errorSinRes

/-- The first argument of `AppError` as the calls of the program supply it: a string (the
message written in `new AppError(mensaje, statusCode)`) or an exception of the runtime (the
thrown value Express hands to the error middleware). -/
inductive ArgumentoError where
  | texto (mensaje : String)
  | excepcion (x : Excepcion)
  deriving DecidableEq, Repr

/-- The function `AppError(error, req, res, next)` of `errores.js`, the error middleware.
The test `error instanceof AppError` is false for a string and for an exception of the
runtime, so its branch is never taken; `error.name` is `undefined` for a string; an exception
of the runtime has no `errors` field, so the 400 body has no `detalles`.  The flag `res` is
false when the third argument is `undefined`: then reading `res.status` raises. -/
def AppError (error : ArgumentoError) (res : Bool) : Except Excepcion RespuestaError :=
  let name : Option String :=
    match error with
    | .texto _ => none
    | .excepcion x => some x.name
  if name = some "ValidationError" then
    if res then .ok { status := 400, error := "Datos inválidos" } else .error errorSinRes
  else
    if res then .ok { status := 500, error := "Error interno del servidor" }
    else .error errorSinRes

/-- The expression `new X(...)` of a throw statement, evaluated: `X` is called with the
arguments written in the statement, so `res` is `undefined` in `new NotFoundError(recurso)`
(one argument) and in `new AppError(mensaje, statusCode)` (two arguments), and the name
`ValidationError` cannot be evaluated at all.  The result `.error x` means that the expression
raises `x`, which is then what the statement throws. -/
def evaluarNew : Err → Except Excepcion RespuestaError
  | .notFound _ => NotFoundError false
  | .app mensaje _ => AppError (.texto mensaje) false
  | .validation _ _ => .error errorSinValidationError

/-- The response to a request whose handler throws `x`: Express passes `x` to the error
middleware registered with `app.use(AppError)`. -/
def responderError (x : Excepcion) : Except Excepcion RespuestaError :=
  AppError (.excepcion x) true

/-! ## Lookup helpers -/

/-- The function `encontrarTarea(id, usuarioId = null)`: first task whose id is `parseInt(id)`;
it stops at `throw new NotFoundError("Tarea")` when there is none and at
`throw new AppError(..., 403)` when `usuarioId` is truthy and differs from the task's owner. -/
def encontrarTarea (tareas : List Tarea) (id : JVal) (usuarioId : Option Int) :
    Except Err Tarea :=
  match tareas.find? (fun t => some t.id = parseInt id) with
  | none => .error (.notFound "Tarea")
  | some tarea =>
    match usuarioId with
    | some u =>
      if u ≠ 0 ∧ tarea.usuarioId ≠ u then
        .error (.app "No tienes permisos para acceder a esta tarea" 403)
      else .ok tarea
    | none => .ok tarea

/-- The function `encontrarCategoria(id)`: first category whose id is `parseInt(id)`; it stops
at `throw new NotFoundError("Categoría")` when there is none. -/
def encontrarCategoria (categorias : List Categoria) (id : JVal) : Except Err Categoria :=
  match categorias.find? (fun c => some c.id = parseInt id) with
  | none => .error (.notFound "Categoría")
  | some categoria => .ok categoria

/-! ## `GET /tareas`: filters, search, sort and pagination -/

/-- The query string of `GET /tareas` (`req.query`); `none` is `undefined`.  Each parameter
is given at most once, so its value is a string. -/
structure Consulta where
  completada : Option String := none
  prioridad : Option String := none
  usuario_id : Option String := none
  categoria_id : Option String := none
  pagina : Option String := none
  limite : Option String := none
  ordenar : Option String := none
  q : Option String := none
  deriving DecidableEq, Repr

/-- Modelled from the spec: the express-validator check `isIn(opciones)`, a dependency that
is not part of the repository: the value is one of the listed strings. -/
def isIn (opciones : List String) (v : String) : Bool := opciones.contains v

/-- Modelled from the spec: the pattern behind express-validator `isInt`, a dependency that
is not part of the repository: an optional sign followed by one or more decimal digits. -/
def esTextoEntero (cs : List Char) : Bool :=
  match cs with
  | [] => false
  | c :: resto =>
    if c.toNat = 45 || c.toNat = 43 then !resto.isEmpty && resto.all esDigito
    else (c :: resto).all esDigito

/-- Modelled from the spec: the number an integer text denotes, as `isInt` compares it with
its bounds. -/
def valorTextoEntero (cs : List Char) : Int :=
  match cs with
  | [] => 0
  | c :: resto =>
    if c.toNat = 45 then -(valorDecimal resto : Int)
    else if c.toNat = 43 then (valorDecimal resto : Int)
    else (valorDecimal (c :: resto) : Int)

/-- Modelled from the spec: the express-validator check `isInt` with a `min` bound and an optional
`max` bound, a dependency that is not part of the repository: an integer text whose value lies
within the bounds. -/
def isInt (min : Int) (max : Option Int) (v : String) : Bool :=
  esTextoEntero v.data && decide (min ≤ valorTextoEntero v.data) &&
    (match max with
     | some m => decide (valorTextoEntero v.data ≤ m)
     | none => true)

/-- One validator of a chain: `.optional()` skips an absent parameter, otherwise the check
must hold or the message of `.withMessage` is recorded. -/
def comprobar (valor : Option String) (valido : String → Bool) (mensaje : String) :
    List String :=
  match valor with
  | none => []
  | some v => if valido v then [] else [mensaje]

/-- The validator array of `GET /tareas`, in its order; the result is what `validationResult`
collects. -/
def validarConsulta (c : Consulta) : List String :=
  comprobar c.completada (isIn ["true", "false"]) "completada debe ser true o false" ++
  comprobar c.prioridad (isIn ["baja", "media", "alta"]) "prioridad inválida" ++
  comprobar c.usuario_id (isInt 1 none) "usuario_id debe ser un número positivo" ++
  comprobar c.pagina (isInt 1 none) "pagina debe ser un número positivo" ++
  comprobar c.limite (isInt 1 (some 100)) "limite debe estar entre 1 y 100" ++
  comprobar c.ordenar (isIn ["titulo", "prioridad", "fecha"]) "ordenar inválido"

/-- The filter steps of the handler (`// Filtrar por usuario autenticado` and
`// Filtros adicionales`): the value of `resultados` when the search step is reached. -/
def filtrarTareas (tareas : List Tarea) (userId : Int) (c : Consulta) : List Tarea :=
  let resultados := tareas.filter fun t => t.usuarioId = userId
  let resultados :=
    match c.completada with
    | some completada => resultados.filter fun t => t.completada = .bool (completada = "true")
    | none => resultados
  let resultados :=
    if esVerdadero c.prioridad then resultados.filter fun t => some t.prioridad = c.prioridad
    else resultados
  let resultados :=
    if esVerdadero c.usuario_id then
      resultados.filter fun t => some t.usuarioId = (c.usuario_id.bind fun v => parseInt (.str v))
    else resultados
  if esVerdadero c.categoria_id then
    resultados.filter fun t =>
      match c.categoria_id.bind fun v => parseInt (.str v) with
      | some catId => t.categoriaId = .num catId
      | none => false
  else resultados

/-- Length of the match of `/\s+OR\s+/i` that starts at the head of `cs`, if there is one:
a maximal run of white space, the letters `O` and `R` in either case, and the maximal run
of white space after them. -/
def coincideSeparador (cs : List Char) : Option Nat :=
  match cs.dropWhile esEspacio with
  | o :: r :: resto =>
    if !(cs.takeWhile esEspacio).isEmpty && (o.toNat = 79 || o.toNat = 111) &&
        (r.toNat = 82 || r.toNat = 114) && !(resto.takeWhile esEspacio).isEmpty then
      some ((cs.takeWhile esEspacio).length + 2 + (resto.takeWhile esEspacio).length)
    else none
  | _ => none

/-- The loop of `String.prototype.split` with the separator `/\s+OR\s+/i`: `saltar` counts the
characters of the current match still to pass, `actual` holds the piece being read, reversed. -/
def separarAux : List Char → Nat → List Char → List (List Char)
  | [], _, actual => [actual.reverse]
  | _ :: cs, saltar + 1, actual => separarAux cs saltar actual
  | c :: cs, 0, actual =>
    match coincideSeparador (c :: cs) with
    | some n => actual.reverse :: separarAux cs (n - 1) []
    | none => separarAux cs 0 (c :: actual)

/-- The call `q.split(/\s+OR\s+/i)`. -/
def separarOR (q : String) : List String := (separarAux q.data 0 []).map String.mk

/-- The array `terminos`: the pieces of `q`, trimmed, lower-cased, the empty ones dropped. -/
def terminos (env : Entorno) (q : String) : List String :=
  ((separarOR q).map fun t => env.toLowerCase (jsTrim t)).filter fun t => decide (jsLength t > 0)

/-- The test applied to one task for one term: the term occurs in the lower-cased title or
in the lower-cased description. -/
def coincideTermino (env : Entorno) (termino : String) (t : Tarea) : Bool :=
  includes (env.toLowerCase t.titulo) termino || includes (env.toLowerCase t.descripcion) termino

/-- The search step (`// Búsqueda`) applied to `resultados`. -/
def buscar (env : Entorno) (q : Option String) (resultados : List Tarea) : List Tarea :=
  match q with
  | none => resultados
  | some q =>
    if q = "" then resultados
    else if (terminos env q).length > 1 then
      resultados.filter fun t => (terminos env q).any fun termino => coincideTermino env termino t
    else
      match terminos env q with
      | [termino] => resultados.filter fun t => coincideTermino env termino t
      | _ => resultados

/-- The table `prioridades`; `none` is a lookup that does not give a number. -/
def prioridades (p : String) : Option Int :=
  if p = "baja" then some 1 else if p = "media" then some 2 else if p = "alta" then some 3
  else none

/-- The comparator `(a, b) => prioridades[b.prioridad] - prioridades[a.prioridad]`; a `NaN`
result counts as 0 for `sort`. -/
def compararPrioridad (a b : Tarea) : Int :=
  match prioridades b.prioridad, prioridades a.prioridad with
  | some x, some y => x - y
  | _, _ => 0

/-- The severity rank of a task in the table `prioridades`, 0 when the table has no entry. -/
def rango (t : Tarea) : Int := (prioridades t.prioridad).getD 0

/-- The method `Array.prototype.sort(comparar)`: a stable sort, so under a consistent comparator an
element stays in front of a later one unless the comparator puts it strictly after. -/
def ordenarCon (comparar : Tarea → Tarea → Int) (xs : List Tarea) : List Tarea :=
  xs.insertionSort fun a b => comparar a b ≤ 0

/-- The sort step (`// Ordenamiento`): `"titulo"` and `"prioridad"` sort, any other value
(`"fecha"` included) leaves the order as it is. -/
def ordenarResultados (env : Entorno) (ordenar : Option String) (resultados : List Tarea) :
    List Tarea :=
  if esVerdadero ordenar then
    if ordenar = some "titulo" then
      ordenarCon (fun a b => env.localeCompare a.titulo b.titulo) resultados
    else if ordenar = some "prioridad" then ordenarCon compararPrioridad resultados
    else resultados
  else resultados

/-- The value of `resultados` when the pagination step is reached: filtered, searched and
sorted. -/
def resultadosDe (env : Entorno) (tareas : List Tarea) (userId : Int) (c : Consulta) :
    List Tarea :=
  ordenarResultados env c.ordenar (buscar env c.q (filtrarTareas tareas userId c))

/-- The call `xs.slice(inicio, fin)`: a negative bound counts from the end, both bounds are
clamped to the array. -/
def slice {α : Type} (xs : List α) (inicio fin : Int) : List α :=
  let len : Int := xs.length
  let k := if inicio < 0 then max (len + inicio) 0 else min inicio len
  let f := if fin < 0 then max (len + fin) 0 else min fin len
  (xs.drop k.toNat).take (f - k).toNat

/-- The call `parseInt(pagina)` with the default of the destructuring (`pagina = 1`, `limite = 10`);
`none` is `NaN`. -/
def parseIntConDefecto (valor : Option String) (defecto : Int) : Option Int :=
  match valor with
  | none => some defecto
  | some v => parseInt (.str v)

/-- The page `resultados.slice(inicio, inicio + limiteNum)` with
`inicio = (paginaNum - 1) * limiteNum`; a `NaN` bound is read as 0 by `slice`. -/
def paginar (resultados : List Tarea) (paginaNum limiteNum : Option Int) : List Tarea :=
  let inicio : Option Int := do
    let p ← paginaNum
    let l ← limiteNum
    pure ((p - 1) * l)
  let fin : Option Int := do
    let i ← inicio
    let l ← limiteNum
    pure (i + l)
  slice resultados (inicio.getD 0) (fin.getD 0)

/-- The value `Math.ceil(total / limiteNum)`; `none` is a result that is not a finite number
(`limiteNum` is `NaN` or 0), which `res.json` writes as `null`. -/
def techoDivision (total : Nat) (limiteNum : Option Int) : Option Int :=
  match limiteNum with
  | none => none
  | some l => if l = 0 then none else some (-((-(total : Int)) / l))

/-- The body of `res.json` in `GET /tareas`; in the three numbers `none` is `NaN`. -/
structure Respuesta where
  tareas : List Tarea
  total : Nat
  pagina : Option Int
  limite : Option Int
  paginasTotal : Option Int
  deriving DecidableEq, Repr

/-- The handler of `GET /tareas`, after the validators have passed. -/
def manejarListado (env : Entorno) (s : Store) (userId : Int) (c : Consulta) : Respuesta :=
  let resultados := resultadosDe env s.tareas userId c
  let paginaNum := parseIntConDefecto c.pagina 1
  let limiteNum := parseIntConDefecto c.limite 10
  { tareas := paginar resultados paginaNum limiteNum
    total := resultados.length
    pagina := paginaNum
    limite := limiteNum
    paginasTotal := techoDivision resultados.length limiteNum }

/-- The route `GET /tareas` for the authenticated user `userId`: the validators, then
`validarErrores`, then the handler. -/
def listarTareas (env : Entorno) (s : Store) (userId : Int) (c : Consulta) :
    Except Err Respuesta :=
  if validarConsulta c ≠ [] then .error (.validation "Datos inválidos" (validarConsulta c))
  else .ok (manejarListado env s userId c)

/-- The conjunction of the specification for `GET /tareas` without `q`: the task belongs to
the owner and agrees with every supplied filter; a `categoria_id` given as the empty string
counts as not supplied. -/
def cumpleFiltros (userId : Int) (c : Consulta) (t : Tarea) : Bool :=
  decide (t.usuarioId = userId) &&
  (match c.completada with
   | some v => decide (t.completada = .bool (v = "true"))
   | none => true) &&
  (match c.prioridad with
   | some p => decide (t.prioridad = p)
   | none => true) &&
  (match c.usuario_id with
   | some v => decide (some t.usuarioId = parseInt (.str v))
   | none => true) &&
  (match c.categoria_id with
   | some v => v = "" || decide (some t.categoriaId = (parseInt (.str v)).map JVal.num)
   | none => true)

/-! ## `PATCH /tareas/:id` and `DELETE /categorias/:id` -/

/-- The array `camposPermitidos`. -/
def camposPermitidos : List String :=
  ["titulo", "descripcion", "prioridad", "completada", "categoriaId"]

/-- One turn of the validation loop of `PATCH /tareas/:id` for the supplied key `campo` with
value `req.body[campo]`: the messages it pushes onto `errors`, or the error thrown inside it
(`encontrarCategoria` throws when the category does not exist). -/
def validarCampo (categorias : List Categoria) (campo : String) (valor : JVal) :
    Except Err (List String) :=
  if !camposPermitidos.contains campo then .ok [campo ++ ": campo no permitido"]
  else if campo = "titulo" then
    match valor with
    | .str texto =>
      if jsLength (jsTrim texto) < 3 then .ok ["titulo: debe tener al menos 3 caracteres"]
      else .ok []
    | _ => .ok ["titulo: debe tener al menos 3 caracteres"]
  else if campo = "descripcion" then
    match valor with
    | .str texto =>
      if jsLength texto > 500 then .ok ["descripcion: no puede exceder 500 caracteres"]
      else .ok []
    | _ => .ok ["descripcion: no puede exceder 500 caracteres"]
  else if campo = "prioridad" then
    if valor = .str "baja" ∨ valor = .str "media" ∨ valor = .str "alta" then .ok []
    else .ok ["prioridad: debe ser baja, media o alta"]
  else if campo = "completada" then
    match valor with
    | .bool _ => .ok []
    | _ => .ok ["completada: debe ser un booleano"]
  else if campo = "categoriaId" then
    match parseInt valor with
    | none => .ok ["categoriaId: debe ser un ID de categoría válido"]
    | some catId =>
      if catId ≤ 0 then .ok ["categoriaId: debe ser un ID de categoría válido"]
      else
        match encontrarCategoria categorias (.num catId) with
        | .error e => .error e
        | .ok _ => .ok []
  else .ok []

/-- The validation loop `for (const campo of camposActualizados)`: `errors` grows in payload
order; a throw inside a turn ends the loop and the handler. -/
def validarCampos (categorias : List Categoria) :
    List (String × JVal) → List String → Except Err (List String)
  | [], errors => .ok errors
  | (campo, valor) :: resto, errors =>
    match validarCampo categorias campo valor with
    | .error e => .error e
    | .ok nuevos => validarCampos categorias resto (errors ++ nuevos)

/-- One assignment `tarea[campo] = ...` of the update loop: `titulo` and `descripcion` are
stored trimmed, the other fields as received.  The loop runs only after validation, so the
text fields receive strings. -/
def asignarCampo (tarea : Tarea) (campo : String) (valor : JVal) : Tarea :=
  if campo = "titulo" then
    match valor with
    | .str texto => { tarea with titulo := jsTrim texto }
    | _ => tarea
  else if campo = "descripcion" then
    match valor with
    | .str texto => { tarea with descripcion := jsTrim texto }
    | _ => tarea
  else if campo = "prioridad" then
    match valor with
    | .str texto => { tarea with prioridad := texto }
    | _ => tarea
  else if campo = "completada" then { tarea with completada := valor }
  else if campo = "categoriaId" then { tarea with categoriaId := valor }
  else tarea

/-- In-place mutation of the object `find` returned: the first element that satisfies `p` is
replaced by its image under `f`, every other element stays. -/
def modificarPrimero (p : Tarea → Bool) (f : Tarea → Tarea) : List Tarea → List Tarea
  | [] => []
  | t :: resto => if p t then f t :: resto else t :: modificarPrimero p f resto

/-- The route `PATCH /tareas/:id` for the authenticated user `userId`; `body` lists the
entries of `req.body` in the order of `Object.keys`, `ahora` is `new Date().toISOString()`.
The result is the new state and the task sent back. -/
def actualizarParcial (s : Store) (ahora : String) (userId : Int) (id : String)
    (body : List (String × JVal)) : Except Err (Store × Tarea) :=
  if !isInt 1 none id then
    .error (.validation "Datos inválidos" ["ID debe ser un número positivo"])
  else
    match encontrarTarea s.tareas (.str id) (some userId) with
    | .error e => .error e
    | .ok tarea =>
      if body.length = 0 then
        .error (.validation "Debe proporcionar al menos un campo para actualizar" [])
      else
        match validarCampos s.categorias body [] with
        | .error e => .error e
        | .ok errors =>
          if errors.length > 0 then .error (.validation "Errores de validación" errors)
          else
            let actualizada :=
              { body.foldl (fun t entrada => asignarCampo t entrada.1 entrada.2) tarea with
                fechaActualizacion := some ahora }
            .ok ({ s with
                    tareas := modificarPrimero (fun t => some t.id = parseInt (.str id))
                      (fun _ => actualizada) s.tareas },
                 actualizada)

/-- The route `DELETE /categorias/:id`: it stops at `throw new NotFoundError("Categoría")`
when no category has the id and at `throw new AppError(..., 409)` when a task has
`categoriaId === catId`; otherwise the category at the found index is removed and sent back. -/
def eliminarCategoria (s : Store) (id : String) : Except Err (Store × Categoria) :=
  if !isInt 1 none id then
    .error (.validation "Datos inválidos" ["ID debe ser un número positivo"])
  else
    match s.categorias.find? (fun c => some c.id = parseInt (.str id)) with
    | none => .error (.notFound "Categoría")
    | some categoria =>
      if (s.tareas.filter fun t =>
            some t.categoriaId = (parseInt (.str id)).map JVal.num).length > 0 then
        .error (.app "No se puede eliminar la categoría porque tiene tareas asociadas" 409)
      else
        .ok ({ s with
                categorias := s.categorias.eraseP fun c => some c.id = parseInt (.str id) },
             categoria)


/-- The field error the specification attaches to one supplied key of a partial update, if
any: the key is not permitted, or its value breaks the rule of the field (title of at least 3
characters after trimming, description of at most 500, priority in the enumeration, boolean
`completada`, `categoriaId` a positive integer of an existing category). -/
def errorDeCampo (categorias : List Categoria) (entrada : String × JVal) : Option String :=
  if !camposPermitidos.contains entrada.1 then some (entrada.1 ++ ": campo no permitido")
  else if entrada.1 = "titulo" then
    match entrada.2 with
    | .str texto =>
      if jsLength (jsTrim texto) < 3 then some "titulo: debe tener al menos 3 caracteres"
      else none
    | _ => some "titulo: debe tener al menos 3 caracteres"
  else if entrada.1 = "descripcion" then
    match entrada.2 with
    | .str texto =>
      if jsLength texto > 500 then some "descripcion: no puede exceder 500 caracteres"
      else none
    | _ => some "descripcion: no puede exceder 500 caracteres"
  else if entrada.1 = "prioridad" then
    if entrada.2 = .str "baja" ∨ entrada.2 = .str "media" ∨ entrada.2 = .str "alta" then none
    else some "prioridad: debe ser baja, media o alta"
  else if entrada.1 = "completada" then
    match entrada.2 with
    | .bool _ => none
    | _ => some "completada: debe ser un booleano"
  else if entrada.1 = "categoriaId" then
    match parseInt entrada.2 with
    | none => some "categoriaId: debe ser un ID de categoría válido"
    | some catId =>
      if 0 < catId ∧ (categorias.any fun c => c.id = catId) then none
      else some "categoriaId: debe ser un ID de categoría válido"
  else none

/-- The supplied `categoriaId` is a positive integer that no category has: the case in which
`encontrarCategoria` throws inside the validation loop. -/
def categoriaInexistente (categorias : List Categoria) (entrada : String × JVal) : Bool :=
  entrada.1 = "categoriaId" &&
    match parseInt entrada.2 with
    | none => false
    | some catId => decide (0 < catId) && !(categorias.any fun c => c.id = catId)

/-- The timestamp used in the evaluated requests. -/
def ahoraEjemplo : String := "2026-01-01T00:00:00.000Z"

/-- A title of 101 characters. -/
def tituloLargo : String := String.mk (List.replicate 101 'a')

/-- The state reached from the seed by `PATCH /tareas/1` with body `{"categoriaId": "3"}`
sent by user 1, followed by `DELETE /categorias/3`. -/
def almacenSinCategoria3 : Store :=
  { almacenInicial with
    tareas :=
      [ { id := 1, titulo := "Aprender Express", descripcion := "Completar tutorial",
          completada := .bool false, prioridad := "alta", usuarioId := 1,
          categoriaId := .str "3", fechaActualizacion := some ahoraEjemplo },
        { id := 2, titulo := "Crear API", descripcion := "Implementar endpoints",
          completada := .bool true, prioridad := "media", usuarioId := 1,
          categoriaId := .num 2 },
        { id := 3, titulo := "Testing", descripcion := "Probar con Postman",
          completada := .bool false, prioridad := "baja", usuarioId := 2,
          categoriaId := .num 1 } ]
    categorias := [ { id := 1, nombre := "Desarrollo" }, { id := 2, nombre := "Personal" } ] }

/-! ## The other mutation routes -/

/-- Truthiness of a JSON value, as `||` and `filter((t) => t.completada)` test it. -/
def esVerdaderoJ : JVal → Bool
  | .null => false
  | .bool b => b
  | .num n => n ≠ 0
  | .str s => s ≠ ""
  | .objeto _ => true

/-- The fields of `req.body` that `POST /tareas` and `PUT /tareas/:id` read; `none` is
`undefined`. -/
structure CuerpoTarea where
  titulo : Option JVal := none
  descripcion : Option JVal := none
  prioridad : Option JVal := none
  completada : Option JVal := none
  categoriaId : Option JVal := none
  deriving DecidableEq, Repr

/-- Modelled from the spec: the chain `body("titulo").trim().isLength({ min: 3, max: 100 })`
of express-validator, a dependency that is not part of the repository: the title is a string
of 3 to 100 characters after trimming. -/
def tituloValido : Option JVal → Bool
  | some (.str texto) => 3 ≤ (jsTrim texto).length && (jsTrim texto).length ≤ 100
  | _ => false

/-- Modelled from the spec: the chain
`body("descripcion").optional().trim().isLength({ max: 500 })` of express-validator: the
description is absent or a string of at most 500 characters after trimming. -/
def descripcionValida : Option JVal → Bool
  | none => true
  | some (.str texto) => (jsTrim texto).length ≤ 500
  | _ => false

/-- Modelled from the spec: the chain `body("prioridad").isIn(["baja", "media", "alta"])` of
express-validator, with `.optional()` when `opcional` is set: the priority is one of the three
names. -/
def prioridadValida (opcional : Bool) : Option JVal → Bool
  | none => opcional
  | some v => v = .str "baja" ∨ v = .str "media" ∨ v = .str "alta"

/-- Modelled from the spec: the chain `body("completada").isBoolean()` of express-validator,
with `.optional()` when `opcional` is set: the value is a boolean. -/
def completadaValida (opcional : Bool) : Option JVal → Bool
  | none => opcional
  | some (.bool _) => true
  | _ => false

/-- Modelled from the spec: the check `body("categoriaId").isInt({ min: 1 })` of
express-validator: the value is a positive integer. -/
def esEnteroPositivo : Option JVal → Bool
  | some (.num n) => 1 ≤ n
  | _ => false

/-- The custom validator of `categoriaId`: it passes when `encontrarCategoria(value)` returns
and fails when it throws.  The helper never returns a falsy value, so the validator's own
`throw new Error("La categoría especificada no existe")` is not reached, and the message
recorded for the failure is that of the exception the helper raises. -/
def categoriaExiste (categorias : List Categoria) : Option JVal → Bool
  | some v =>
    match encontrarCategoria categorias v with
    | .ok _ => true
    | .error _ => false
  | none => false

/-- One entry of a validator array: nothing when the check holds, its message otherwise. -/
def exigir (valido : Bool) (mensaje : String) : List String :=
  if valido then [] else [mensaje]

/-- A text field of the body as the handler reads it after the `.trim()` sanitizer; the
validators admit strings only. -/
def textoRecortado : Option JVal → String
  | some (.str texto) => jsTrim texto
  | _ => ""

/-- A text field of the body that no sanitizer touches. -/
def textoDe : Option JVal → String
  | some (.str texto) => texto
  | _ => ""

/-- The validator array of `POST /tareas`, in its order. -/
def validarCrearTarea (categorias : List Categoria) (body : CuerpoTarea) : List String :=
  exigir (tituloValido body.titulo) "Título debe tener entre 3 y 100 caracteres" ++
  exigir (descripcionValida body.descripcion) "Descripción no puede exceder 500 caracteres" ++
  exigir (prioridadValida true body.prioridad) "Prioridad inválida" ++
  exigir (completadaValida true body.completada) "completada debe ser un booleano" ++
  exigir (esEnteroPositivo body.categoriaId)
    "ID de categoría requerido y debe ser un número positivo" ++
  exigir (categoriaExiste categorias body.categoriaId) errorSinRes.message

/-- The route `POST /tareas` for the authenticated user `userId`: the validators, then the
handler, which builds `nuevaTarea` with `id: siguienteIdTarea++`, pushes it and sends it
back.  `ahora` is `new Date().toISOString()`. -/
def crearTarea (s : Store) (ahora : String) (userId : Int) (body : CuerpoTarea) :
    Except Err (Store × Tarea) :=
  if validarCrearTarea s.categorias body ≠ [] then
    .error (.validation "Datos inválidos" (validarCrearTarea s.categorias body))
  else
    let nuevaTarea : Tarea :=
      { id := s.siguienteIdTarea
        titulo := textoRecortado body.titulo
        descripcion := textoRecortado body.descripcion
        completada :=
          match body.completada with
          | some v => if esVerdaderoJ v then v else .bool false
          | none => .bool false
        prioridad := if textoDe body.prioridad ≠ "" then textoDe body.prioridad else "media"
        usuarioId := userId
        categoriaId := body.categoriaId.getD .null
        fechaCreacion := some ahora }
    .ok ({ s with
            tareas := s.tareas ++ [nuevaTarea]
            siguienteIdTarea := s.siguienteIdTarea + 1 },
         nuevaTarea)

/-- The validator array of `PUT /tareas/:id`, in its order. -/
def validarReemplazarTarea (categorias : List Categoria) (id : String) (body : CuerpoTarea) :
    List String :=
  exigir (isInt 1 none id) "ID debe ser un número positivo" ++
  exigir (tituloValido body.titulo) "Título requerido" ++
  exigir (descripcionValida body.descripcion) "Descripción muy larga" ++
  exigir (prioridadValida false body.prioridad) "Prioridad inválida" ++
  exigir (completadaValida false body.completada) "completada debe ser booleano" ++
  exigir (esEnteroPositivo body.categoriaId)
    "ID de categoría requerido y debe ser un número positivo" ++
  exigir (categoriaExiste categorias body.categoriaId) errorSinRes.message

/-- The route `PUT /tareas/:id` for the authenticated user `userId`: the validators, then
the handler, which looks the task up with the ownership check and overwrites `titulo`,
`descripcion`, `prioridad`, `completada`, `categoriaId` and `fechaActualizacion`. -/
def reemplazarTarea (s : Store) (ahora : String) (userId : Int) (id : String)
    (body : CuerpoTarea) : Except Err (Store × Tarea) :=
  if validarReemplazarTarea s.categorias id body ≠ [] then
    .error (.validation "Datos inválidos" (validarReemplazarTarea s.categorias id body))
  else
    match encontrarTarea s.tareas (.str id) (some userId) with
    | .error e => .error e
    | .ok tarea =>
      let actualizada : Tarea :=
        { tarea with
          titulo := textoRecortado body.titulo
          descripcion := textoRecortado body.descripcion
          prioridad := textoDe body.prioridad
          completada := body.completada.getD .null
          categoriaId := body.categoriaId.getD .null
          fechaActualizacion := some ahora }
      .ok ({ s with
              tareas := modificarPrimero (fun t => some t.id = parseInt (.str id))
                (fun _ => actualizada) s.tareas },
           actualizada)

/-- The route `DELETE /tareas/:id` for the authenticated user `userId`: `findIndex` looks for
a task with the id that the caller owns; the handler stops at
`throw new NotFoundError("Tarea")` when there is none, otherwise `splice` removes the task at
that index and it is sent back. -/
def eliminarTarea (s : Store) (userId : Int) (id : String) : Except Err (Store × Tarea) :=
  if !isInt 1 none id then
    .error (.validation "Datos inválidos" ["ID debe ser un número positivo"])
  else
    match s.tareas.find? (fun t => some t.id = parseInt (.str id) && t.usuarioId = userId) with
    | none => .error (.notFound "Tarea")
    | some tareaEliminada =>
      .ok ({ s with
              tareas := s.tareas.eraseP fun t =>
                some t.id = parseInt (.str id) && t.usuarioId = userId },
           tareaEliminada)

/-- Modelled from the spec: the chain `body("nombre").trim().isLength({ min: 2, max: 50 })`
of express-validator: the name is a string of 2 to 50 characters after trimming. -/
def nombreValido : Option JVal → Bool
  | some (.str texto) => 2 ≤ (jsTrim texto).length && (jsTrim texto).length ≤ 50
  | _ => false

/-- The route `POST /categorias`: the validator, then the handler, which builds
`nuevaCategoria` with `id: siguienteIdCategoria++`, pushes it and sends it back. -/
def crearCategoria (s : Store) (nombre : Option JVal) : Except Err (Store × Categoria) :=
  if !nombreValido nombre then
    .error (.validation "Datos inválidos" ["Nombre debe tener entre 2 y 50 caracteres"])
  else
    let nuevaCategoria : Categoria :=
      { id := s.siguienteIdCategoria, nombre := textoRecortado nombre }
    .ok ({ s with
            categorias := s.categorias ++ [nuevaCategoria]
            siguienteIdCategoria := s.siguienteIdCategoria + 1 },
         nuevaCategoria)

/-- A request that can change the state. -/
inductive Operacion where
  | crearTarea (ahora : String) (userId : Int) (body : CuerpoTarea)
  | reemplazarTarea (ahora : String) (userId : Int) (id : String) (body : CuerpoTarea)
  | actualizarParcial (ahora : String) (userId : Int) (id : String)
      (body : List (String × JVal))
  | eliminarTarea (userId : Int) (id : String)
  | crearCategoria (nombre : Option JVal)
  | eliminarCategoria (id : String)

/-- The state a route leaves behind: the new state when it answers, the old one when it
throws. -/
def estadoTras {α : Type} (s : Store) (r : Except Err (Store × α)) : Store :=
  match r with
  | .ok (s2, _) => s2
  | .error _ => s

/-- The state after one request. -/
def aplicar (s : Store) : Operacion → Store
  | .crearTarea ahora userId body => estadoTras s (crearTarea s ahora userId body)
  | .reemplazarTarea ahora userId id body =>
    estadoTras s (reemplazarTarea s ahora userId id body)
  | .actualizarParcial ahora userId id body =>
    estadoTras s (actualizarParcial s ahora userId id body)
  | .eliminarTarea userId id => estadoTras s (eliminarTarea s userId id)
  | .crearCategoria nombre => estadoTras s (crearCategoria s nombre)
  | .eliminarCategoria id => estadoTras s (eliminarCategoria s id)

/-- The state after a sequence of requests, served one after the other. -/
def ejecutar (s : Store) (ops : List Operacion) : Store := ops.foldl aplicar s

/-- The id discipline of the state: task ids are pairwise distinct and below
`siguienteIdTarea`, category ids are pairwise distinct and below `siguienteIdCategoria`. -/
def IdsEnOrden (s : Store) : Prop :=
  (s.tareas.map fun t => t.id).Nodup ∧ (∀ t ∈ s.tareas, t.id < s.siguienteIdTarea) ∧
  (s.categorias.map fun c => c.id).Nodup ∧
  (∀ c ∈ s.categorias, c.id < s.siguienteIdCategoria)

/-! ## Statistics -/

/-- Rounding of the quotient `a / b` of two naturals (`b > 0`) to the nearest integer, a tie
going to the even one: the rounding of IEEE 754 double arithmetic. -/
def redondearPar (a b : Nat) : Nat :=
  if 2 * (a % b) < b then a / b
  else if b < 2 * (a % b) then a / b + 1
  else if (a / b) % 2 = 0 then a / b
  else a / b + 1

/-- The least `d` with `t ≤ c * 2 ^ d`, searched by doubling `c` at most `n` times. -/
def desplazamiento : Nat → Nat → Nat → Nat
  | 0, _, _ => 0
  | n + 1, c, t => if t ≤ c then 0 else desplazamiento n (2 * c) t + 1

/-- The number written by `((c / t) * 100).toFixed(2)`, in hundredths, for counts
`0 ≤ c ≤ t`, `t > 0`, computed as the runtime does in double arithmetic.  The quotient `c / t`
is the double `m / 2 ^ k`, where `t ≤ c * 2 ^ d < 2 * t`, `k = 52 + d` and `m` is
`c * 2 ^ k / t` rounded to the nearest integer, ties to even (a significand of 53 bits).  The
product with 100 is `100 * m / 2 ^ k` rounded again to 53 bits, which drops `e = 6` or
`e = 7` bits: the double `m2 * 2 ^ e / 2 ^ k`.  And `toFixed(2)` takes the integer nearest to
100 times that double, the larger one on a tie. -/
def centesimas (c t : Nat) : Nat :=
  if c = 0 then 0
  else
    let k := 52 + desplazamiento t c t
    let m := redondearPar (c * 2 ^ k) t
    let e := if 100 * m < 2 ^ 59 then 6 else 7
    let m2 := redondearPar (100 * m) (2 ^ e)
    (200 * m2 * 2 ^ e + 2 ^ k) / 2 ^ (k + 1)

/-- The value of `porcentajeCompletadas` in both statistics routes:
`parseFloat(x.toFixed(2))` with `x = (completadas / total) * 100` when `total > 0` and
`x = 0` otherwise; the number the response carries is the decimal with two places. -/
def porcentajeRedondeado (completadas total : Nat) : ℚ :=
  ((if 0 < total then centesimas completadas total else 0 : Nat) : ℚ) / 100

/-- The body of `res.json` in `GET /estadisticas/tareas-completadas`. -/
structure EstadisticasUsuario where
  usuarioId : Int
  totalTareas : Nat
  completadas : Nat
  pendientes : Nat
  porcentajeCompletadas : ℚ
  deriving DecidableEq, Repr

/-- The handler of `GET /estadisticas/tareas-completadas` for the authenticated user. -/
def tareasCompletadas (s : Store) (userId : Int) : EstadisticasUsuario :=
  let tareasDelUsuario := s.tareas.filter fun t => t.usuarioId = userId
  let totalTareas := tareasDelUsuario.length
  let tareasCompletadas := (tareasDelUsuario.filter fun t => esVerdaderoJ t.completada).length
  { usuarioId := userId
    totalTareas := totalTareas
    completadas := tareasCompletadas
    pendientes := totalTareas - tareasCompletadas
    porcentajeCompletadas := porcentajeRedondeado tareasCompletadas totalTareas }

/-- One value of the object `productividad`. -/
structure Productividad where
  nombre : String
  totalTareas : Nat
  completadas : Nat
  pendientes : Nat
  porcentajeCompletadas : ℚ
  deriving DecidableEq, Repr

/-- The keys a JavaScript object lists first, in ascending order: the array indices,
`0 ≤ k < 2^32 - 1`. -/
def esIndice (k : Int) : Bool := decide (0 ≤ k) && decide (k < 4294967295)

/-- A new key enters the property order of an object: an array index goes before the first
key that is a larger index or no index, any other key goes to the end. -/
def insertarClave {α : Type} (k : Int) (v : α) : List (Int × α) → List (Int × α)
  | [] => [(k, v)]
  | e :: resto =>
    if esIndice k && (!esIndice e.1 || decide (k < e.1)) then (k, v) :: e :: resto
    else e :: insertarClave k v resto

/-- The assignment `objeto[k] = v` on an object whose keys are numbers, the object being the
list of its entries in the order of `Object.values`: an existing key keeps its place. -/
def ponerClave {α : Type} (k : Int) (v : α) (objeto : List (Int × α)) : List (Int × α) :=
  if objeto.any fun e => e.1 = k then objeto.map fun e => if e.1 = k then (k, v) else e
  else insertarClave k v objeto

/-- The first loop of the productivity handler, `usuarios.forEach`: every user id gets an
entry with the user's name and zero counts. -/
def productividadInicial (usuarios : List Usuario) : List (Int × Productividad) :=
  usuarios.foldl
    (fun productividad u =>
      ponerClave u.id
        { nombre := u.nombre, totalTareas := 0, completadas := 0, pendientes := 0,
          porcentajeCompletadas := 0 }
        productividad)
    []

/-- One turn of the second loop, `tareas.forEach`: when `productividad[tarea.usuarioId]`
exists, its `totalTareas` grows by one and so does `completadas` or `pendientes`. -/
def contarTarea (productividad : List (Int × Productividad)) (tarea : Tarea) :
    List (Int × Productividad) :=
  productividad.map fun e =>
    if e.1 = tarea.usuarioId then
      (e.1,
        if esVerdaderoJ tarea.completada then
          { e.2 with totalTareas := e.2.totalTareas + 1, completadas := e.2.completadas + 1 }
        else
          { e.2 with totalTareas := e.2.totalTareas + 1, pendientes := e.2.pendientes + 1 })
    else e

/-- The third loop, over `Object.values(productividad)`: the percentage is set when
`totalTareas > 0` and stays 0 otherwise. -/
def ponerPorcentaje (stats : Productividad) : Productividad :=
  if 0 < stats.totalTareas then
    { stats with
      porcentajeCompletadas := porcentajeRedondeado stats.completadas stats.totalTareas }
  else stats

/-- The object `productividad` when the handler answers, as the list of its entries. -/
def tablaProductividad (s : Store) : List (Int × Productividad) :=
  ((s.tareas.foldl contarTarea (productividadInicial s.usuarios)).map fun e =>
    (e.1, ponerPorcentaje e.2))

/-- The route `GET /estadisticas/productividad-por-usuario`: it stops at
`throw new AppError(..., 403)` unless the caller is user 1, otherwise it sends
`Object.values(productividad)`. -/
def productividadPorUsuario (s : Store) (userId : Int) : Except Err (List Productividad) :=
  if userId ≠ 1 then
    .error (.app
      "Acceso denegado. Solo administradores pueden ver la productividad global." 403)
  else .ok ((tablaProductividad s).map fun e => e.2)

/-! ## Lemmas on the list pipeline -/

theorem mem_slice {α : Type} (xs : List α) (inicio fin : Int) (x : α)
    (h : x ∈ slice xs inicio fin) : x ∈ xs := by
  unfold slice at h
  exact List.mem_of_mem_drop (List.mem_of_mem_take h)

theorem perm_ordenarCon (comparar : Tarea → Tarea → Int) (xs : List Tarea) :
    (ordenarCon comparar xs).Perm xs :=
  List.perm_insertionSort _ xs

theorem perm_ordenarResultados (env : Entorno) (ordenar : Option String) (xs : List Tarea) :
    (ordenarResultados env ordenar xs).Perm xs := by
  unfold ordenarResultados
  split
  · split
    · exact perm_ordenarCon _ xs
    · split
      · exact perm_ordenarCon _ xs
      · exact List.Perm.refl xs
  · exact List.Perm.refl xs

theorem buscar_sublist (env : Entorno) (q : Option String) (xs : List Tarea) :
    List.Sublist (buscar env q xs) xs := by
  unfold buscar
  split
  · exact List.Sublist.refl xs
  · split
    · exact List.Sublist.refl xs
    · split
      · exact List.filter_sublist xs
      · split
        · exact List.filter_sublist xs
        · exact List.Sublist.refl xs

theorem filtrarTareas_sublist (tareas : List Tarea) (userId : Int) (c : Consulta) :
    List.Sublist (filtrarTareas tareas userId c)
      (tareas.filter fun t => decide (t.usuarioId = userId)) := by
  unfold filtrarTareas
  have h1 : ∀ (p : Tarea → Bool) (l m : List Tarea), List.Sublist l m →
      List.Sublist (l.filter p) m := fun p l m h => (List.filter_sublist l).trans h
  have h2 : ∀ (b : Bool) (p : Tarea → Bool) (l m : List Tarea), List.Sublist l m →
      List.Sublist (if b = true then l.filter p else l) m := by
    intro b p l m h
    split
    · exact h1 p l m h
    · exact h
  apply h2
  apply h2
  apply h2
  cases c.completada with
  | none => exact List.Sublist.refl _
  | some v => exact h1 _ _ _ (List.Sublist.refl _)

theorem mem_resultadosDe (env : Entorno) (tareas : List Tarea) (userId : Int) (c : Consulta)
    (t : Tarea) (h : t ∈ resultadosDe env tareas userId c) :
    t ∈ tareas ∧ t.usuarioId = userId := by
  unfold resultadosDe at h
  have h1 := (perm_ordenarResultados env c.ordenar _).mem_iff.mp h
  have h2 := (buscar_sublist env c.q _).subset h1
  have h3 := (filtrarTareas_sublist tareas userId c).subset h2
  rw [List.mem_filter] at h3
  exact ⟨h3.1, by simpa using h3.2⟩

theorem listarTareas_ok (env : Entorno) (s : Store) (userId : Int) (c : Consulta)
    (r : Respuesta) (h : listarTareas env s userId c = .ok r) :
    validarConsulta c = [] ∧ r = manejarListado env s userId c := by
  unfold listarTareas at h
  split at h
  · cases h
  · rename_i hv
    injection h with h
    exact ⟨by simpa using hv, h.symm⟩

/-! ## Ownership isolation (C1) -/

/-- C1. Ownership isolation of `GET /tareas`: whatever the store, the authenticated user and
the query parameters, every task of the returned page is a task of the store whose
`usuarioId` is the authenticated user. -/
theorem listado_solo_tareas_propias (env : Entorno) (s : Store) (userId : Int)
    (c : Consulta) (r : Respuesta) (h : listarTareas env s userId c = .ok r) :
    ∀ t ∈ r.tareas, t ∈ s.tareas ∧ t.usuarioId = userId := by
  intro t ht
  obtain ⟨_, hr⟩ := listarTareas_ok env s userId c r h
  subst hr
  exact mem_resultadosDe env s.tareas userId c t (mem_slice _ _ _ t ht)

/-- Witness of C1 on the seed store: user 2 searching for `express or testing`, sorted by
priority, gets only the task with id 3. -/
theorem listado_solo_tareas_propias_witness :
    listarTareas entornoAscii almacenInicial 2
        { q := some "express or testing", ordenar := some "prioridad" }
      = .ok { tareas := almacenInicial.tareas.drop 2, total := 1, pagina := some 1,
              limite := some 10, paginasTotal := some 1 } ∧
    ∀ t ∈ almacenInicial.tareas.drop 2, t ∈ almacenInicial.tareas ∧ t.usuarioId = 2 :=
  ⟨by decide,
   listado_solo_tareas_propias entornoAscii almacenInicial 2
     { q := some "express or testing", ordenar := some "prioridad" }
     { tareas := almacenInicial.tareas.drop 2, total := 1, pagina := some 1,
       limite := some 10, paginasTotal := some 1 } (by decide)⟩

/-! ## Filter exactness (C2) -/

theorem comprobar_nil (valor : Option String) (valido : String → Bool) (m : String)
    (h : comprobar valor valido m = []) : ∀ v, valor = some v → valido v = true := by
  intro v hv
  subst hv
  unfold comprobar at h
  by_contra hc
  simp [hc] at h

theorem isIn_ne_empty (ops : List String) (v : String) (h0 : "" ∉ ops) (h : isIn ops v = true) :
    v ≠ "" := by
  intro hv
  subst hv
  unfold isIn at h
  simp at h
  exact h0 h

theorem isInt_ne_empty (a : Int) (b : Option Int) (v : String) (h : isInt a b v = true) :
    v ≠ "" := by
  intro hv
  subst hv
  simp [isInt, esTextoEntero] at h



theorem coincide_categoria (o : Option Int) (x : JVal) :
    (match o with
      | some catId => decide (x = .num catId)
      | none => false) = decide (some x = o.map JVal.num) := by
  cases o <;> simp

theorem esVerdadero_isSome (o : Option String) (h : ∀ v, o = some v → v ≠ "") :
    esVerdadero o = o.isSome := by
  cases o with
  | none => rfl
  | some v => simpa [esVerdadero] using h v rfl

theorem filtrarTareas_eq (tareas : List Tarea) (userId : Int) (c : Consulta)
    (hv : validarConsulta c = []) :
    filtrarTareas tareas userId c = tareas.filter (cumpleFiltros userId c) := by
  unfold validarConsulta at hv
  simp only [List.append_eq_nil] at hv
  obtain ⟨⟨⟨⟨⟨hc, hp⟩, hu⟩, hpag⟩, hlim⟩, hord⟩ := hv
  have hp2 := esVerdadero_isSome _
    fun v h => isIn_ne_empty _ v (by decide) (comprobar_nil _ _ _ hp v h)
  have hu2 := esVerdadero_isSome _
    fun v h => isInt_ne_empty _ _ v (comprobar_nil _ _ _ hu v h)
  unfold filtrarTareas
  simp only [hp2, hu2]
  rcases c with ⟨comp, prio, uid, cat, pag, lim, ord, q⟩
  cases comp <;> cases prio <;> cases uid <;> cases cat <;>
    simp [esVerdadero, List.filter_filter]
  all_goals (try split)
  all_goals
    apply List.filter_congr
    intro t _
    rw [Bool.eq_iff_iff]
    simp [cumpleFiltros, coincide_categoria, *]
    try tauto

theorem cumple_categoria_iff (cat : Option String) (x : JVal) :
    (match cat with
      | some v => v = "" || decide (some x = (parseInt (.str v)).map JVal.num)
      | none => true) = true ↔
    ∀ v, cat = some v → v ≠ "" → ∃ n, parseInt (.str v) = some n ∧ x = .num n := by
  cases cat with
  | none => simp
  | some v =>
    by_cases hv : v = ""
    · simp [hv]
    · cases hp : parseInt (.str v) with
      | none => simp [hv, hp]
      | some n => simp [hv, hp]

theorem cumpleFiltros_iff (userId : Int) (c : Consulta) (t : Tarea) :
    cumpleFiltros userId c t = true ↔
      (t.usuarioId = userId ∧
       (∀ v, c.completada = some v → t.completada = .bool (v = "true")) ∧
       (∀ p, c.prioridad = some p → t.prioridad = p) ∧
       (∀ v, c.usuario_id = some v → some t.usuarioId = parseInt (.str v)) ∧
       (∀ v, c.categoria_id = some v → v ≠ "" →
          ∃ n, parseInt (.str v) = some n ∧ t.categoriaId = .num n)) := by
  unfold cumpleFiltros
  simp only [Bool.and_eq_true, cumple_categoria_iff, and_assoc]
  rcases c with ⟨comp, prio, uid, cat, pag, lim, ord, q⟩
  cases comp <;> cases prio <;> cases uid <;> simp

/-- C2. Filter exactness of `GET /tareas` without `q`: the list reached before pagination
holds exactly the tasks of the store that belong to the owner and agree with every supplied
filter (`completada`, `prioridad`, `usuario_id`, `categoria_id`, compared by equality with the
parsed parameter), in store order before sorting and as a permutation of them after it, and
`total` is their number. -/
theorem filtros_exactos (env : Entorno) (s : Store) (userId : Int) (c : Consulta)
    (r : Respuesta) (h : listarTareas env s userId c = .ok r) (hq : c.q = none) :
    filtrarTareas s.tareas userId c = s.tareas.filter (cumpleFiltros userId c) ∧
    (resultadosDe env s.tareas userId c).Perm (s.tareas.filter (cumpleFiltros userId c)) ∧
    r.total = (s.tareas.filter (cumpleFiltros userId c)).length ∧
    ∀ t, cumpleFiltros userId c t = true ↔
      (t.usuarioId = userId ∧
       (∀ v, c.completada = some v → t.completada = .bool (v = "true")) ∧
       (∀ p, c.prioridad = some p → t.prioridad = p) ∧
       (∀ v, c.usuario_id = some v → some t.usuarioId = parseInt (.str v)) ∧
       (∀ v, c.categoria_id = some v → v ≠ "" →
          ∃ n, parseInt (.str v) = some n ∧ t.categoriaId = .num n)) := by
  obtain ⟨hv, hr⟩ := listarTareas_ok env s userId c r h
  have hf := filtrarTareas_eq s.tareas userId c hv
  have hp : (resultadosDe env s.tareas userId c).Perm
      (s.tareas.filter (cumpleFiltros userId c)) := by
    unfold resultadosDe
    rw [hq, ← hf]
    exact perm_ordenarResultados env c.ordenar _
  refine ⟨hf, hp, ?_, cumpleFiltros_iff userId c⟩
  subst hr
  exact hp.length_eq

/-- Witness of C2 on the seed store: user 1 asking for the pending tasks of category 1. -/
theorem filtros_exactos_witness :
    filtrarTareas almacenInicial.tareas 1
        { completada := some "false", categoria_id := some "1" } =
      almacenInicial.tareas.filter
        (cumpleFiltros 1 { completada := some "false", categoria_id := some "1" }) ∧
    (resultadosDe entornoAscii almacenInicial.tareas 1
        { completada := some "false", categoria_id := some "1" }).Perm
      (almacenInicial.tareas.filter
        (cumpleFiltros 1 { completada := some "false", categoria_id := some "1" })) ∧
    (1 : Nat) = (almacenInicial.tareas.filter
        (cumpleFiltros 1 { completada := some "false", categoria_id := some "1" })).length :=
  have h := filtros_exactos entornoAscii almacenInicial 1
    { completada := some "false", categoria_id := some "1" }
    { tareas := almacenInicial.tareas.take 1, total := 1, pagina := some 1,
      limite := some 10, paginasTotal := some 1 } (by decide) rfl
  ⟨h.1, h.2.1, h.2.2.1⟩

/-! ## Search (C3) -/

theorem includesChars_iff (termino texto : List Char) :
    includesChars termino texto = true ↔ termino <:+: texto := by
  induction texto with
  | nil => simp [includesChars, List.infix_nil]
  | cons c cs ih =>
    simp only [includesChars, Bool.or_eq_true, ih, List.infix_cons_iff,
      List.isPrefixOf_iff_prefix]

theorem coincideTermino_iff (env : Entorno) (termino : String) (t : Tarea) :
    coincideTermino env termino t = true ↔
      (termino.data <:+: (env.toLowerCase t.titulo).data ∨
       termino.data <:+: (env.toLowerCase t.descripcion).data) := by
  simp only [coincideTermino, includes, Bool.or_eq_true, includesChars_iff]

theorem buscar_eq (env : Entorno) (q : String) (xs : List Tarea) (hq : q ≠ "")
    (h : terminos env q ≠ []) :
    buscar env (some q) xs =
      xs.filter fun t => (terminos env q).any fun termino => coincideTermino env termino t := by
  unfold buscar
  simp only [hq, if_false]
  split
  · rfl
  · rename_i hlen
    split
    · rename_i termino ht
      simp [ht]
    · rename_i hne
      exfalso
      match hts : terminos env q with
      | [] => exact h hts
      | [a] => exact hne a hts
      | a :: b :: l => simp [hts] at hlen

theorem mem_buscar_iff (env : Entorno) (q : String) (xs : List Tarea) (hq : q ≠ "")
    (h : terminos env q ≠ []) (t : Tarea) :
    t ∈ buscar env (some q) xs ↔
      t ∈ xs ∧ ∃ termino ∈ terminos env q,
        termino.data <:+: (env.toLowerCase t.titulo).data ∨
        termino.data <:+: (env.toLowerCase t.descripcion).data := by
  rw [buscar_eq env q xs hq h, List.mem_filter, List.any_eq_true]
  simp only [coincideTermino_iff]

theorem ordenarResultados_nil (env : Entorno) (ordenar : Option String) :
    ordenarResultados env ordenar [] = [] :=
  List.Perm.eq_nil (perm_ordenarResultados env ordenar [])

theorem paginar_nil (paginaNum limiteNum : Option Int) : paginar [] paginaNum limiteNum = [] := by
  simp [paginar, slice]

/-- C3. Search with `OR`: when `q` leaves at least one non-empty term after splitting on
`OR` between white space (either case), trimming and lower-casing, the search step keeps, in
order, exactly the tasks for which some term occurs in the lower-cased title or description.
With `q = "alpha OR beta"` a task whose title contains `alpha` or contains `beta` is kept, and
a search that matches no task answers with an empty page and total 0, not with an error. -/
theorem busqueda_or (env : Entorno) (q : String) (xs : List Tarea) (hq : q ≠ "")
    (h : terminos env q ≠ []) :
    (buscar env (some q) xs =
      xs.filter fun t => (terminos env q).any fun termino => coincideTermino env termino t) ∧
    (∀ t, t ∈ buscar env (some q) xs ↔
      t ∈ xs ∧ ∃ termino ∈ terminos env q,
        termino.data <:+: (env.toLowerCase t.titulo).data ∨
        termino.data <:+: (env.toLowerCase t.descripcion).data) ∧
    (env.toLowerCase "alpha" = "alpha" → env.toLowerCase "beta" = "beta" →
      ∀ t ∈ xs, ("alpha".data <:+: (env.toLowerCase t.titulo).data ∨
          "beta".data <:+: (env.toLowerCase t.titulo).data) →
        t ∈ buscar env (some "alpha OR beta") xs) ∧
    (∀ (s : Store) (userId : Int) (c : Consulta), c.q = some q → validarConsulta c = [] →
      (∀ t ∈ filtrarTareas s.tareas userId c, ∀ termino ∈ terminos env q,
        coincideTermino env termino t = false) →
      ∃ r, listarTareas env s userId c = .ok r ∧ r.tareas = [] ∧ r.total = 0) := by
  refine ⟨buscar_eq env q xs hq h, mem_buscar_iff env q xs hq h, ?_, ?_⟩
  · intro ha hb t ht hm
    have hts : terminos env "alpha OR beta" = ["alpha", "beta"] := by
      have hs : separarOR "alpha OR beta" = ["alpha", "beta"] := by decide
      have h1 : jsTrim "alpha" = "alpha" := by decide
      have h2 : jsTrim "beta" = "beta" := by decide
      have h3 : jsLength "alpha" > 0 := by decide
      have h4 : jsLength "beta" > 0 := by decide
      simp [terminos, hs, h1, h2, ha, hb, h3, h4]
    rw [mem_buscar_iff env "alpha OR beta" xs (by decide) (by simp [hts]), hts]
    refine ⟨ht, ?_⟩
    rcases hm with hm | hm
    · exact ⟨"alpha", by simp, Or.inl hm⟩
    · exact ⟨"beta", by simp, Or.inl hm⟩
  · intro s userId c hcq hv hno
    have hb : buscar env c.q (filtrarTareas s.tareas userId c) = [] := by
      rw [hcq, buscar_eq env q _ hq h, List.filter_eq_nil_iff]
      intro t ht
      simp only [List.any_eq_true, not_exists, not_and, Bool.not_eq_true]
      exact hno t ht
    refine ⟨manejarListado env s userId c, ?_, ?_, ?_⟩
    · simp [listarTareas, hv]
    · simp [manejarListado, resultadosDe, hb, ordenarResultados_nil, paginar_nil]
    · simp [manejarListado, resultadosDe, hb, ordenarResultados_nil]

/-- Witness of C3 on the seed store: for `express OR postman`, user 1 keeps the task titled
`Aprender Express` and loses `Crear API`; the search step applied to all three seed tasks
keeps the first and the third. -/
theorem busqueda_or_witness :
    buscar entornoAscii (some "express OR postman") almacenInicial.tareas =
      almacenInicial.tareas.filter fun t =>
        (terminos entornoAscii "express OR postman").any fun termino =>
          coincideTermino entornoAscii termino t :=
  (busqueda_or entornoAscii "express OR postman" almacenInicial.tareas
    (by decide) (by decide)).1

/-! ## Pagination (C4) -/

theorem slice_nonneg {α : Type} (xs : List α) (a b : Int) (ha : 0 ≤ a) (hab : a ≤ b) :
    slice xs a b = (xs.drop a.toNat).take (b - a).toNat := by
  unfold slice
  have hb : 0 ≤ b := le_trans ha hab
  simp only [not_lt.mpr ha, not_lt.mpr hb, if_false]
  by_cases hal : a ≤ (xs.length : Int)
  · rw [min_eq_left hal, List.take_eq_take]
    simp only [List.length_drop]
    omega
  · have h1 : xs.length ≤ a.toNat := by omega
    have h2 : xs.length ≤ (min a (xs.length : Int)).toNat := by
      rw [min_eq_right (by omega)]; simp
    rw [List.drop_of_length_le h1, List.drop_of_length_le h2]
    simp

theorem paginar_eq (xs : List Tarea) (k P : Int) (hk : 1 ≤ k) (hP : 1 ≤ P) :
    paginar xs (some k) (some P) = (xs.drop ((k - 1) * P).toNat).take P.toNat := by
  have h0 : 0 ≤ (k - 1) * P := mul_nonneg (by omega) (by omega)
  have : paginar xs (some k) (some P) = slice xs ((k - 1) * P) ((k - 1) * P + P) := by
    simp [paginar]
  rw [this, slice_nonneg xs _ _ h0 (by omega)]
  congr 2
  omega

theorem flatten_paginas (xs : List Tarea) (p n : Nat) :
    ((List.range n).map fun i => (xs.drop (i * p)).take p).flatten = xs.take (n * p) := by
  induction n with
  | zero => simp
  | succ n ih =>
    rw [List.range_succ, List.map_append, List.flatten_append, ih]
    simp [Nat.succ_mul, List.take_add]

theorem techo_cotas (T : Nat) (P : Int) (hP : 1 ≤ P) :
    (T : Int) ≤ (-((-(T : Int)) / P)) * P ∧ (-((-(T : Int)) / P) - 1) * P < T := by
  have h1 := Int.ediv_mul_le (-(T : Int)) (show P ≠ 0 by omega)
  have h2 := Int.lt_ediv_add_one_mul_self (-(T : Int)) (show 0 < P by omega)
  constructor
  · nlinarith
  · nlinarith

theorem techoDivision_eq_ceil (T : Nat) (P : Int) (hP : 1 ≤ P) :
    techoDivision T (some P) = some ⌈(T : ℚ) / (P : ℚ)⌉ := by
  have hP0 : P ≠ 0 := by omega
  have hPq : (0 : ℚ) < (P : ℚ) := by exact_mod_cast (show 0 < P by omega)
  obtain ⟨h1, h2⟩ := techo_cotas T P hP
  simp only [techoDivision, hP0, if_false, Option.some.injEq]
  symm
  rw [Int.ceil_eq_iff]
  constructor
  · rw [lt_div_iff₀ hPq]
    exact_mod_cast h2
  · rw [div_le_iff₀ hPq]
    exact_mod_cast h1

theorem techo_eq (T : Nat) (P : Int) (hP : 1 ≤ P) :
    ⌈(T : ℚ) / (P : ℚ)⌉ = -((-(T : Int)) / P) := by
  have h := techoDivision_eq_ceil T P hP
  simp only [techoDivision, show P ≠ 0 by omega, if_false, Option.some.injEq] at h
  exact h.symm

/-- C4. Pagination covers the matching list exactly once: for a page size `P ≥ 1` (so in
particular for `1 ≤ P ≤ 100`), page `k` is the slice `[(k-1)*P, (k-1)*P + P)` of the matching
list, the pages `1..ceil(T/P)` concatenated in order are the whole list, their lengths add up
to `T`, no page has more than `P` items, and every page after `ceil(T/P)` is empty. -/
theorem paginacion_cubre_una_vez (xs : List Tarea) (P : Int) (hP : 1 ≤ P) :
    (∀ k : Int, 1 ≤ k →
      paginar xs (some k) (some P) = (xs.drop ((k - 1) * P).toNat).take P.toNat) ∧
    ((List.range ⌈(xs.length : ℚ) / (P : ℚ)⌉.toNat).map fun (i : Nat) =>
      paginar xs (some ((i : Int) + 1)) (some P)).flatten = xs ∧
    ((List.range ⌈(xs.length : ℚ) / (P : ℚ)⌉.toNat).map fun (i : Nat) =>
      (paginar xs (some ((i : Int) + 1)) (some P)).length).sum = xs.length ∧
    (∀ k : Int, 1 ≤ k → (paginar xs (some k) (some P)).length ≤ P.toNat) ∧
    (∀ k : Int, ⌈(xs.length : ℚ) / (P : ℚ)⌉ < k →
      paginar xs (some k) (some P) = []) := by
  obtain ⟨h1, h2⟩ := techo_cotas xs.length P hP
  rw [techo_eq xs.length P hP]
  have hn0 : 0 ≤ -((-(xs.length : Int)) / P) := by
    by_contra hneg
    have : (-((-(xs.length : Int)) / P)) * P ≤ -1 * P :=
      mul_le_mul_of_nonneg_right (by omega) (by omega)
    omega
  have hcat : ((List.range (-((-(xs.length : Int)) / P)).toNat).map fun (i : Nat) =>
      paginar xs (some ((i : Int) + 1)) (some P)).flatten = xs := by
    have hm : ((List.range (-((-(xs.length : Int)) / P)).toNat).map fun (i : Nat) =>
        paginar xs (some ((i : Int) + 1)) (some P)) =
        (List.range (-((-(xs.length : Int)) / P)).toNat).map fun i =>
          (xs.drop (i * P.toNat)).take P.toNat := by
      apply List.map_congr_left
      intro i _
      rw [paginar_eq xs _ P (by omega) hP]
      congr 2
      have : ((i : Int) + 1 - 1) * P = ((i * P.toNat : Nat) : Int) := by
        push_cast
        rw [Int.toNat_of_nonneg (by omega)]
        ring
      rw [this, Int.toNat_natCast]
    rw [hm, flatten_paginas]
    apply List.take_of_length_le
    have : ((xs.length : Nat) : Int) ≤
        (((-((-(xs.length : Int)) / P)).toNat * P.toNat : Nat) : Int) := by
      push_cast
      rw [Int.toNat_of_nonneg hn0, Int.toNat_of_nonneg (by omega)]
      exact h1
    exact_mod_cast this
  refine ⟨fun k hk => paginar_eq xs k P hk hP, hcat, ?_, ?_, ?_⟩
  · have := congrArg List.length hcat
    rw [List.length_flatten, List.map_map] at this
    exact this
  · intro k hk
    rw [paginar_eq xs k P hk hP]
    exact List.length_take_le _ _
  · intro k hk
    have hk1 : 1 ≤ k := by omega
    rw [paginar_eq xs k P hk1 hP]
    have : xs.length ≤ ((k - 1) * P).toNat := by
      have h3 : (-((-(xs.length : Int)) / P)) * P ≤ (k - 1) * P :=
        mul_le_mul_of_nonneg_right (by omega) (by omega)
      omega
    rw [List.drop_of_length_le this]
    simp

/-- Witness of C4 on the seed tasks with page size 2: page 2 is the slice `[2, 4)`. -/
theorem paginacion_cubre_una_vez_witness :
    (1 : Int) ≤ 2 ∧
    paginar almacenInicial.tareas (some 2) (some 2) =
      (almacenInicial.tareas.drop (((2 : Int) - 1) * 2).toNat).take (2 : Int).toNat :=
  ⟨by decide, (paginacion_cubre_una_vez almacenInicial.tareas 2 (by decide)).1 2 (by decide)⟩

/-! ## Totals of the list answer (C5) -/

theorem esEspacio_de_entero (c : Char)
    (h : c.toNat = 45 ∨ c.toNat = 43 ∨ esDigito c = true) : esEspacio c = false := by
  simp only [esEspacio, esDigito, Bool.and_eq_true, decide_eq_true_eq, Bool.or_eq_false_iff,
    Bool.and_eq_false_imp, decide_eq_false_iff_not] at *
  omega

theorem parseIntSinSigno_digitos (ds : List Char) (hne : ds ≠ [])
    (hd : ds.all esDigito = true) : parseIntSinSigno ds = some (valorDecimal ds) := by
  have ht : ds.takeWhile esDigito = ds := by
    rw [List.takeWhile_eq_self_iff]
    exact fun x hx => List.all_eq_true.mp hd x hx
  have hfin : (if (ds.takeWhile esDigito).isEmpty = true then none
      else some (valorDecimal (ds.takeWhile esDigito))) = some (valorDecimal ds) := by
    rw [ht]
    cases ds with
    | nil => exact absurd rfl hne
    | cons _ _ => rfl
  unfold parseIntSinSigno
  split
  · rename_i c0 cx resto
    have hx : esDigito cx = true := List.all_eq_true.mp hd cx (by simp)
    have hnx : ¬ (cx.toNat = 120 ∨ cx.toNat = 88) := by
      simp only [esDigito, Bool.and_eq_true, decide_eq_true_eq] at hx
      omega
    simp only [Bool.and_eq_true, Bool.or_eq_true, decide_eq_true_eq, hnx, and_false, if_false]
    exact hfin
  · exact hfin

theorem parseIntChars_entero (cs : List Char) (h : esTextoEntero cs = true) :
    parseIntChars cs = some (valorTextoEntero cs) := by
  cases cs with
  | nil => simp [esTextoEntero] at h
  | cons c resto =>
    unfold esTextoEntero at h
    simp only at h
    unfold parseIntChars valorTextoEntero
    by_cases hs : c.toNat = 45 ∨ c.toNat = 43
    · have hsp := esEspacio_de_entero c (by tauto)
      simp only [Bool.or_eq_true, decide_eq_true_eq, hs, if_true, Bool.and_eq_true,
        Bool.not_eq_true', List.isEmpty_eq_false] at h
      have hp := parseIntSinSigno_digitos resto (by simpa using h.1) h.2
      simp only [List.dropWhile_cons, hsp, Bool.false_eq_true, if_false]
      rcases hs with hs | hs
      · simp [hs, hp]
      · simp [hs, hp]
    · simp only [Bool.or_eq_true, decide_eq_true_eq, hs, if_false] at h
      have hc : esDigito c = true := List.all_eq_true.mp h c (by simp)
      have hsp := esEspacio_de_entero c (by tauto)
      have hp := parseIntSinSigno_digitos (c :: resto) (by simp) h
      have h45 : ¬ c.toNat = 45 := fun h' => hs (Or.inl h')
      have h43 : ¬ c.toNat = 43 := fun h' => hs (Or.inr h')
      simp [List.dropWhile_cons, hsp, h45, h43, hp]

theorem parseInt_isInt (min : Int) (max : Option Int) (v : String) (h : isInt min max v = true) :
    parseInt (.str v) = some (valorTextoEntero v.data) ∧ min ≤ valorTextoEntero v.data ∧
      ∀ m, max = some m → valorTextoEntero v.data ≤ m := by
  unfold isInt at h
  simp only [Bool.and_eq_true, decide_eq_true_eq] at h
  refine ⟨parseIntChars_entero v.data h.1.1, h.1.2, ?_⟩
  intro m hm
  subst hm
  simpa using h.2

theorem parseIntConDefecto_valido (valor : Option String) (defecto min : Int)
    (max : Option Int) (mensaje : String) (hd : min ≤ defecto)
    (hmax : ∀ m, max = some m → defecto ≤ m)
    (h : comprobar valor (isInt min max) mensaje = []) :
    ∃ n : Int, parseIntConDefecto valor defecto = some n ∧ min ≤ n ∧
      (∀ m, max = some m → n ≤ m) ∧ (valor = none → n = defecto) ∧
      (∀ v, valor = some v → n = valorTextoEntero v.data) := by
  cases valor with
  | none => exact ⟨defecto, rfl, hd, hmax, fun _ => rfl, fun v hv => by cases hv⟩
  | some v =>
    obtain ⟨h1, h2, h3⟩ := parseInt_isInt min max v (comprobar_nil _ _ _ h v rfl)
    refine ⟨valorTextoEntero v.data, h1, h2, h3, (fun hn => by cases hn), ?_⟩
    intro w hw
    cases hw
    rfl

/-- C5. Totals of `GET /tareas`: a valid request is answered; `total` is the length of the
matching list before pagination and is the same for every other valid `pagina` and `limite`;
the echoed `pagina` is 1 when the parameter is absent and otherwise the integer the parameter
denotes, which is at least 1, for every integer up to 2^53, the range in which a Number holds
each integer exactly; the echoed `limite` is the integer its parameter denotes (10 when
absent) with `1 ≤ limite ≤ 100`; `paginasTotal` is the finite number `ceil(total / limite)`,
which is 0 exactly when `total` is 0. -/
theorem totales_del_listado (env : Entorno) (s : Store) (userId : Int) (c : Consulta)
    (hv : validarConsulta c = []) :
    ∃ (r : Respuesta) (l : Int),
      listarTareas env s userId c = .ok r ∧
      r.total = (resultadosDe env s.tareas userId c).length ∧
      (∀ (pagina limite : Option String) (r2 : Respuesta),
        listarTareas env s userId { c with pagina := pagina, limite := limite } = .ok r2 →
        r2.total = r.total) ∧
      (c.pagina = none → r.pagina = some 1) ∧
      (∀ v, c.pagina = some v → valorTextoEntero v.data ≤ 2 ^ 53 →
        r.pagina = some (valorTextoEntero v.data) ∧ 1 ≤ valorTextoEntero v.data) ∧
      r.limite = some l ∧ 1 ≤ l ∧ l ≤ 100 ∧
      (c.limite = none → l = 10) ∧
      (∀ v, c.limite = some v → l = valorTextoEntero v.data) ∧
      r.paginasTotal = some ⌈(r.total : ℚ) / (l : ℚ)⌉ ∧
      (⌈(r.total : ℚ) / (l : ℚ)⌉ = 0 ↔ r.total = 0) := by
  have hv2 := hv
  unfold validarConsulta at hv2
  simp only [List.append_eq_nil] at hv2
  obtain ⟨⟨⟨⟨⟨_, _⟩, _⟩, hpag⟩, hlim⟩, _⟩ := hv2
  obtain ⟨p, hp, hp1, -, hpd, hpv⟩ :=
    parseIntConDefecto_valido c.pagina 1 1 none _ (le_refl _) (fun m hm => by cases hm) hpag
  obtain ⟨l, hl, hl1, hl100, hld, hlv⟩ :=
    parseIntConDefecto_valido c.limite 10 1 (some 100) _ (by decide)
      (fun m hm => by cases hm; decide) hlim
  have hrp : (manejarListado env s userId c).pagina = some p := hp
  refine ⟨manejarListado env s userId c, l, by simp [listarTareas, hv], rfl, ?_, ?_, ?_, hl,
    hl1, hl100 100 rfl, hld, hlv, ?_, ?_⟩
  · intro pagina limite r2 h2
    obtain ⟨_, hr2⟩ := listarTareas_ok _ _ _ _ _ h2
    subst hr2
    rfl
  · intro hn
    rw [hrp, hpd hn]
  · intro v hcv _
    rw [hrp, ← hpv v hcv]
    exact ⟨rfl, hp1⟩
  · show techoDivision _ (parseIntConDefecto c.limite 10) = _
    rw [hl]
    exact techoDivision_eq_ceil _ l hl1
  · obtain ⟨h1, h2⟩ := techo_cotas (manejarListado env s userId c).total l hl1
    rw [techo_eq _ l hl1]
    constructor
    · intro h0
      rw [h0] at h1
      omega
    · intro h0
      rw [h0]
      simp

/-- Witness of C5 on the seed store: user 1 asking for page 2 with page size 1 gets
`total = 2`, the echoed numbers 2 and 1, and `paginasTotal = 2`. -/
theorem totales_del_listado_witness :
    validarConsulta { pagina := some "2", limite := some "1" } = [] ∧
    ∃ (r : Respuesta) (l : Int),
      listarTareas entornoAscii almacenInicial 1 { pagina := some "2", limite := some "1" }
        = .ok r ∧
      r.total = (resultadosDe entornoAscii almacenInicial.tareas 1
        { pagina := some "2", limite := some "1" }).length ∧
      r.pagina = some 2 ∧ r.limite = some l ∧ l = 1 ∧
      r.paginasTotal = some ⌈(r.total : ℚ) / (l : ℚ)⌉ :=
  ⟨by decide, by
    obtain ⟨r, l, h1, h2, _, _, h5, h6, _, _, _, h10, h11, _⟩ :=
      totales_del_listado entornoAscii almacenInicial 1
        { pagina := some "2", limite := some "1" } (by decide)
    exact ⟨r, l, h1, h2, (h5 "2" rfl (by decide)).1, h6, h10 "1" rfl, h11⟩⟩

/-! ## Priority sort (C6) -/

theorem prioridades_valida (p : String)
    (h : p = "baja" ∨ p = "media" ∨ p = "alta") :
    ∃ n, prioridades p = some n ∧ 1 ≤ n ∧ n ≤ 3 := by
  rcases h with h | h | h <;> subst h
  · exact ⟨1, by decide, by decide, by decide⟩
  · exact ⟨2, by decide, by decide, by decide⟩
  · exact ⟨3, by decide, by decide, by decide⟩

theorem compararPrioridad_valida (a b : Tarea)
    (ha : a.prioridad = "baja" ∨ a.prioridad = "media" ∨ a.prioridad = "alta")
    (hb : b.prioridad = "baja" ∨ b.prioridad = "media" ∨ b.prioridad = "alta") :
    compararPrioridad a b = rango b - rango a := by
  obtain ⟨x, hx, _⟩ := prioridades_valida _ ha
  obtain ⟨y, hy, _⟩ := prioridades_valida _ hb
  simp [compararPrioridad, rango, hx, hy]

theorem compararPrioridad_pos (a b : Tarea) (h : ¬ compararPrioridad a b ≤ 0) :
    a.prioridad ≠ b.prioridad := by
  intro hab
  apply h
  unfold compararPrioridad
  rw [hab]
  cases prioridades b.prioridad <;> simp

theorem filter_orderedInsert (p : String) (a : Tarea) (l : List Tarea) :
    (l.orderedInsert (fun a b => compararPrioridad a b ≤ 0) a).filter
        (fun t => decide (t.prioridad = p)) =
      (a :: l).filter fun t => decide (t.prioridad = p) := by
  induction l with
  | nil => rfl
  | cons b l ih =>
    rw [List.orderedInsert]
    split
    · rfl
    · rename_i hab
      have hne := compararPrioridad_pos a b hab
      rw [List.filter_cons, ih]
      by_cases hap : a.prioridad = p
      · have hbp : ¬ b.prioridad = p := fun h => hne (hap.trans h.symm)
        simp [List.filter_cons, hap, hbp]
      · simp [List.filter_cons, hap]

theorem filter_ordenarCon (p : String) (xs : List Tarea) :
    (ordenarCon compararPrioridad xs).filter (fun t => decide (t.prioridad = p)) =
      xs.filter fun t => decide (t.prioridad = p) := by
  unfold ordenarCon
  induction xs with
  | nil => rfl
  | cons a l ih =>
    rw [List.insertionSort, filter_orderedInsert, List.filter_cons, ih, List.filter_cons]

theorem pairwise_orderedInsert (a : Tarea) (l : List Tarea)
    (ha : a.prioridad = "baja" ∨ a.prioridad = "media" ∨ a.prioridad = "alta")
    (hl : ∀ t ∈ l, t.prioridad = "baja" ∨ t.prioridad = "media" ∨ t.prioridad = "alta")
    (hs : l.Pairwise fun x y => rango y ≤ rango x) :
    (l.orderedInsert (fun a b => compararPrioridad a b ≤ 0) a).Pairwise
      fun x y => rango y ≤ rango x := by
  induction l with
  | nil => simp
  | cons b l ih =>
    have hb := hl b (by simp)
    have hcmp := compararPrioridad_valida a b ha hb
    rw [List.pairwise_cons] at hs
    rw [List.orderedInsert]
    split
    · rename_i hab
      rw [List.pairwise_cons]
      refine ⟨?_, List.pairwise_cons.mpr hs⟩
      intro y hy
      rcases List.mem_cons.mp hy with rfl | hy
      · omega
      · have := hs.1 y hy
        omega
    · rename_i hab
      rw [List.pairwise_cons]
      refine ⟨?_, ih (fun t ht => hl t (List.mem_cons_of_mem _ ht)) hs.2⟩
      intro y hy
      rcases (List.mem_orderedInsert _).mp hy with rfl | hy
      · omega
      · exact hs.1 y hy

theorem ordenarResultados_prioridad (env : Entorno) (xs : List Tarea) :
    ordenarResultados env (some "prioridad") xs = ordenarCon compararPrioridad xs := by
  have h1 : esVerdadero (some "prioridad") = true := by decide
  have h2 : (some "prioridad" : Option String) ≠ some "titulo" := by decide
  simp [ordenarResultados, h1, h2]

theorem pairwise_ordenarCon (xs : List Tarea)
    (hv : ∀ t ∈ xs, t.prioridad = "baja" ∨ t.prioridad = "media" ∨ t.prioridad = "alta") :
    (ordenarCon compararPrioridad xs).Pairwise fun x y => rango y ≤ rango x := by
  unfold ordenarCon
  induction xs with
  | nil => simp
  | cons a l ih =>
    rw [List.insertionSort]
    apply pairwise_orderedInsert a _ (hv a (by simp))
    · intro t ht
      exact hv t (List.mem_cons_of_mem _ ((List.perm_insertionSort _ l).mem_iff.mp ht))
    · exact ih fun t ht => hv t (List.mem_cons_of_mem _ ht)

/-- C6. Priority sort: with `ordenar = "prioridad"` the sorted list is a permutation of the
filtered list, the ranks (`baja` 1, `media` 2, `alta` 3) never increase along it, and for
every priority the tasks of that priority stand in the same relative order as before the
sort.  The tasks carry one of the three priorities, as every stored task does. -/
theorem orden_prioridad_estable (env : Entorno) (xs : List Tarea)
    (hv : ∀ t ∈ xs, t.prioridad = "baja" ∨ t.prioridad = "media" ∨ t.prioridad = "alta") :
    (ordenarResultados env (some "prioridad") xs).Perm xs ∧
    (ordenarResultados env (some "prioridad") xs).Pairwise (fun a b => rango b ≤ rango a) ∧
    (∀ t : Tarea, (t.prioridad = "baja" → rango t = 1) ∧
      (t.prioridad = "media" → rango t = 2) ∧ (t.prioridad = "alta" → rango t = 3)) ∧
    ∀ p : String,
      (ordenarResultados env (some "prioridad") xs).filter (fun t => decide (t.prioridad = p)) =
        xs.filter fun t => decide (t.prioridad = p) := by
  rw [ordenarResultados_prioridad]
  refine ⟨perm_ordenarCon _ xs, pairwise_ordenarCon xs hv, ?_, fun p => filter_ordenarCon p xs⟩
  intro t
  refine ⟨fun h => ?_, fun h => ?_, fun h => ?_⟩ <;> simp [rango, prioridades, h]

/-- Witness of C6 on the three seed tasks taken in reverse order (`baja`, `media`, `alta`):
the sort puts them back in the order `alta`, `media`, `baja`. -/
theorem orden_prioridad_estable_witness :
    ordenarResultados entornoAscii (some "prioridad") almacenInicial.tareas.reverse =
      almacenInicial.tareas ∧
    (ordenarResultados entornoAscii (some "prioridad") almacenInicial.tareas.reverse).Pairwise
      (fun a b => rango b ≤ rango a) :=
  ⟨by decide,
   (orden_prioridad_estable entornoAscii almacenInicial.tareas.reverse (by decide)).2.1⟩

/-! ## Partial update: validation (C7, C8) -/

theorem encontrarCategoria_num (categorias : List Categoria) (n : Int) :
    (categorias.any (fun c => decide (c.id = n)) = true →
      ∃ c, encontrarCategoria categorias (.num n) = .ok c) ∧
    (categorias.any (fun c => decide (c.id = n)) = false →
      encontrarCategoria categorias (.num n) = .error (.notFound "Categoría")) := by
  unfold encontrarCategoria
  simp only [parseInt, Option.some.injEq]
  constructor
  · intro h
    cases hf : categorias.find? (fun c => decide (c.id = n)) with
    | none =>
      rw [List.find?_eq_none] at hf
      rw [List.any_eq_true] at h
      obtain ⟨c, hc, hcn⟩ := h
      exact absurd hcn (hf c hc)
    | some c => exact ⟨c, rfl⟩
  · intro h
    cases hf : categorias.find? (fun c => decide (c.id = n)) with
    | none => rfl
    | some c =>
      have := List.find?_some hf
      have hm := List.mem_of_find?_eq_some hf
      rw [List.any_eq_false] at h
      exact absurd this (h c hm)

theorem validarCampo_inexistente (categorias : List Categoria) (entrada : String × JVal)
    (h : categoriaInexistente categorias entrada = true) :
    validarCampo categorias entrada.1 entrada.2 = .error (.notFound "Categoría") := by
  unfold categoriaInexistente at h
  simp only [Bool.and_eq_true, decide_eq_true_eq] at h
  obtain ⟨hc, h⟩ := h
  unfold validarCampo
  rw [hc]
  cases hp : parseInt entrada.2 with
  | none => simp [hp] at h
  | some n =>
    simp only [hp, Bool.and_eq_true, decide_eq_true_eq, Bool.not_eq_true'] at h
    have hno := (encontrarCategoria_num categorias n).2 h.2
    have h1 : "categoriaId" ∈ camposPermitidos := by decide
    have h2 : ¬ ("categoriaId" = "titulo") := by decide
    have h3 : ¬ ("categoriaId" = "descripcion") := by decide
    have h4 : ¬ ("categoriaId" = "prioridad") := by decide
    have h5 : ¬ ("categoriaId" = "completada") := by decide
    simp [h1, h2, h3, h4, h5, hno, not_le.mpr h.1]

theorem validarCampo_existente (categorias : List Categoria) (entrada : String × JVal)
    (h : categoriaInexistente categorias entrada = false) :
    validarCampo categorias entrada.1 entrada.2 =
      .ok (errorDeCampo categorias entrada).toList := by
  unfold validarCampo errorDeCampo
  split
  · rfl
  · split
    · split
      · split <;> rfl
      · rfl
    · split
      · split
        · split <;> rfl
        · rfl
      · split
        · split <;> rfl
        · split
          · split <;> rfl
          · split
            · rename_i hc
              unfold categoriaInexistente at h
              cases hp : parseInt entrada.2 with
              | none => rfl
              | some n =>
                simp only [hc, hp, decide_True, Bool.true_and, Bool.and_eq_false_imp,
                  decide_eq_true_eq, Bool.not_eq_false'] at h
                by_cases hn : n ≤ 0
                · simp [hn, not_lt.mpr hn]
                · have hany := h (not_le.mp hn)
                  obtain ⟨c, hok⟩ := (encontrarCategoria_num categorias n).1 hany
                  simp [hn, not_le.mp hn, hok, hany]
            · rfl

theorem validarCampos_sin_inexistente (categorias : List Categoria)
    (body : List (String × JVal)) (errors : List String)
    (h : ∀ e ∈ body, categoriaInexistente categorias e = false) :
    validarCampos categorias body errors =
      .ok (errors ++ body.filterMap (errorDeCampo categorias)) := by
  induction body generalizing errors with
  | nil => simp [validarCampos]
  | cons e resto ih =>
    obtain ⟨campo, valor⟩ := e
    have he := validarCampo_existente categorias (campo, valor) (h _ (by simp))
    simp only at he
    rw [validarCampos, he]
    simp only
    rw [ih _ (fun e' he' => h e' (List.mem_cons_of_mem _ he'))]
    cases hed : errorDeCampo categorias (campo, valor) <;>
      simp [List.filterMap_cons, hed]

theorem validarCampos_con_inexistente (categorias : List Categoria)
    (body : List (String × JVal)) (errors : List String)
    (h : ∃ e ∈ body, categoriaInexistente categorias e = true) :
    validarCampos categorias body errors = .error (.notFound "Categoría") := by
  induction body generalizing errors with
  | nil => simp at h
  | cons e resto ih =>
    obtain ⟨campo, valor⟩ := e
    cases hc : categoriaInexistente categorias (campo, valor) with
    | true =>
      have he := validarCampo_inexistente categorias (campo, valor) hc
      simp only at he
      rw [validarCampos, he]
    | false =>
      have he := validarCampo_existente categorias (campo, valor) hc
      simp only at he
      rw [validarCampos, he]
      simp only
      apply ih
      obtain ⟨e', he', hi⟩ := h
      rcases List.mem_cons.mp he' with rfl | hm
      · rw [hc] at hi
        cases hi
      · exact ⟨e', hm, hi⟩

theorem actualizarParcial_agrega (s : Store) (ahora : String) (userId : Int) (id : String)
    (body : List (String × JVal)) (tarea : Tarea) (hid : isInt 1 none id = true)
    (ht : encontrarTarea s.tareas (.str id) (some userId) = .ok tarea) (hne : body ≠ [])
    (hcat : ∀ e ∈ body, categoriaInexistente s.categorias e = false) :
    (body.filterMap (errorDeCampo s.categorias) ≠ [] →
      actualizarParcial s ahora userId id body =
        .error (.validation "Errores de validación"
          (body.filterMap (errorDeCampo s.categorias)))) ∧
    (body.filterMap (errorDeCampo s.categorias) = [] →
      ∃ r, actualizarParcial s ahora userId id body = .ok r) := by
  have hlen : ¬ body.length = 0 := fun h => hne (List.length_eq_zero.mp h)
  have hval := validarCampos_sin_inexistente s.categorias body [] hcat
  rw [List.nil_append] at hval
  constructor
  · intro herr
    have hpos : (body.filterMap (errorDeCampo s.categorias)).length > 0 :=
      List.length_pos.mpr herr
    simp [actualizarParcial, hid, ht, hlen, hval, hpos]
  · intro herr
    simp [actualizarParcial, hid, ht, hlen, hval, herr]

/-- C7. Evaluated on the seed store for user 1 and task 1: the payload
`{titulo: "ab", prioridad: "urgent"}` fails with the two field errors, in payload order.  The
payload `{categoriaId: 99}` has one offending key (no category 99 exists) and yet the handler
does not fail with a validation failure carrying that field error: `encontrarCategoria`
throws `NotFoundError` from inside the validation loop. -/
theorem parcial_errores_en_semilla :
    actualizarParcial almacenInicial ahoraEjemplo 1 "1"
        [("titulo", .str "ab"), ("prioridad", .str "urgent")] =
      .error (.validation "Errores de validación"
        ["titulo: debe tener al menos 3 caracteres", "prioridad: debe ser baja, media o alta"]) ∧
    errorDeCampo almacenInicial.categorias ("categoriaId", .num 99) =
      some "categoriaId: debe ser un ID de categoría válido" ∧
    actualizarParcial almacenInicial ahoraEjemplo 1 "1" [("categoriaId", .num 99)] =
      .error (.notFound "Categoría") := by
  decide

/-- C8. As the code behaves: when the payload of a partial update on a task the caller owns
contains a `categoriaId` that parses to a positive integer no category has, the handler ends
with `NotFoundError("Categoría")`; no validation failure is produced and no field error of
any key, before or after `categoriaId`, is reported. -/
theorem parcial_corta_en_categoria_inexistente (s : Store) (ahora : String) (userId : Int)
    (id : String) (body : List (String × JVal)) (tarea : Tarea) (valor : JVal) (n : Int)
    (hid : isInt 1 none id = true)
    (ht : encontrarTarea s.tareas (.str id) (some userId) = .ok tarea)
    (hmem : ("categoriaId", valor) ∈ body) (hn : parseInt valor = some n) (hpos : 0 < n)
    (hno : ∀ c ∈ s.categorias, c.id ≠ n) :
    actualizarParcial s ahora userId id body = .error (.notFound "Categoría") := by
  have hlen : ¬ body.length = 0 := by
    intro h
    rw [List.length_eq_zero.mp h] at hmem
    cases hmem
  have hin : categoriaInexistente s.categorias ("categoriaId", valor) = true := by
    have hany : (s.categorias.any fun c => decide (c.id = n)) = false := by
      rw [List.any_eq_false]
      intro c hc
      simpa using hno c hc
    simp [categoriaInexistente, hn, hpos, hany]
  have hval := validarCampos_con_inexistente s.categorias body [] ⟨_, hmem, hin⟩
  simp [actualizarParcial, hid, ht, hlen, hval]

/-- Witness of C8 on the seed store: `{categoriaId: 99, titulo: "ab"}` sent by user 1 for
task 1 ends with `NotFoundError`, although `titulo` is invalid as well. -/
theorem parcial_corta_en_categoria_inexistente_witness :
    errorDeCampo almacenInicial.categorias ("titulo", .str "ab") =
      some "titulo: debe tener al menos 3 caracteres" ∧
    actualizarParcial almacenInicial ahoraEjemplo 1 "1"
        [("categoriaId", .num 99), ("titulo", .str "ab")] = .error (.notFound "Categoría") :=
  ⟨by decide,
   parcial_corta_en_categoria_inexistente almacenInicial ahoraEjemplo 1 "1"
     [("categoriaId", .num 99), ("titulo", .str "ab")]
     (almacenInicial.tareas.get ⟨0, by decide⟩)
     (.num 99) 99 (by decide) (by decide) (by decide) (by decide) (by decide) (by decide)⟩

/-! ## Partial update: title length (C9) -/

/-- C9. As the code behaves: a partial update that supplies only `titulo`, on a task the
caller owns, succeeds as soon as the trimmed title has at least 3 characters, whatever its
length, and the stored title is the trimmed input; no upper bound of 100 is applied. -/
theorem parcial_titulo_sin_maximo (s : Store) (ahora : String) (userId : Int) (id : String)
    (tarea : Tarea) (texto : String) (hid : isInt 1 none id = true)
    (ht : encontrarTarea s.tareas (.str id) (some userId) = .ok tarea)
    (h3 : 3 ≤ jsLength (jsTrim texto)) :
    ∃ r, actualizarParcial s ahora userId id [("titulo", .str texto)] = .ok r ∧
      r.2.titulo = jsTrim texto := by
  have hp : "titulo" ∈ camposPermitidos := by decide
  have hval : validarCampos s.categorias [("titulo", .str texto)] [] = .ok [] := by
    simp [validarCampos, validarCampo, hp, not_lt.mpr h3]
  simp [actualizarParcial, hid, ht, hval, asignarCampo]

/-- Witness of C9 on the seed store: user 1 sets the title of task 1 to 101 letters; the
update succeeds and the stored title has 101 characters. -/
theorem parcial_titulo_sin_maximo_witness :
    jsLength (jsTrim tituloLargo) = 101 ∧
    ∃ r, actualizarParcial almacenInicial ahoraEjemplo 1 "1" [("titulo", .str tituloLargo)]
        = .ok r ∧ r.2.titulo = jsTrim tituloLargo :=
  ⟨by decide,
   parcial_titulo_sin_maximo almacenInicial ahoraEjemplo 1 "1"
     (almacenInicial.tareas.get ⟨0, by decide⟩)
     tituloLargo (by decide) (by decide) (by decide)⟩

/-! ## Referential integrity (C10) -/

/-- C10. Evaluated from the seed store: user 1 sends `PATCH /tareas/1` with body
`{"categoriaId": "3"}` (accepted, since `parseInt("3")` is an existing category, and stored
as the string), then `DELETE /categorias/3` succeeds because no task has `categoriaId === 3`.
In the resulting state task 1 has a `categoriaId` that is the id of no category, neither as
stored nor after `parseInt`. -/
theorem integridad_referencial_rota :
    ((actualizarParcial almacenInicial ahoraEjemplo 1 "1" [("categoriaId", .str "3")]).bind
        fun r => (eliminarCategoria r.1 "3").map fun r2 => r2.1) = .ok almacenSinCategoria3 ∧
    ∃ t ∈ almacenSinCategoria3.tareas, ∀ c ∈ almacenSinCategoria3.categorias,
      t.categoriaId ≠ .num c.id ∧ parseInt t.categoriaId ≠ some c.id := by
  decide

/-! ## Category deletion (C11), task lookup (C12), task deletion (C13) -/

theorem find_descomponer {α : Type} (p : α → Bool) (l : List α) (a : α)
    (h : l.find? p = some a) :
    ∃ l1 l2, l = l1 ++ a :: l2 ∧ (∀ x ∈ l1, p x = false) ∧ p a = true ∧
      l.eraseP p = l1 ++ l2 := by
  induction l with
  | nil => simp at h
  | cons b l ih =>
    by_cases hb : p b = true
    · have hab : b = a := by simpa [List.find?_cons, hb] using h
      subst hab
      exact ⟨[], l, rfl, by simp, hb, by simp [List.eraseP_cons, hb]⟩
    · have hbf : p b = false := by simpa using hb
      have h2 : l.find? p = some a := by simpa [List.find?_cons, hbf] using h
      obtain ⟨l1, l2, hl, h1, ha, he⟩ := ih h2
      refine ⟨b :: l1, l2, by simp [hl], ?_, ha, by simp [List.eraseP_cons, hbf, he]⟩
      intro x hx
      rcases List.mem_cons.mp hx with rfl | hx
      · exact hbf
      · exact h1 x hx

theorem find_none_iff {α : Type} (p : α → Bool) (l : List α) :
    l.find? p = none ↔ ∀ x ∈ l, p x = false := by
  simp [List.find?_eq_none]

theorem parseInt_de_id (id : String) (hid : isInt 1 none id = true) :
    parseInt (.str id) = some (valorTextoEntero id.data) ∧ 1 ≤ valorTextoEntero id.data :=
  ⟨(parseInt_isInt 1 none id hid).1, (parseInt_isInt 1 none id hid).2.1⟩

theorem crearTarea_ok (s : Store) (ahora : String) (userId : Int) (body : CuerpoTarea)
    (r : Store × Tarea) (h : crearTarea s ahora userId body = .ok r) :
    validarCrearTarea s.categorias body = [] ∧
    r.1 = { s with tareas := s.tareas ++ [r.2], siguienteIdTarea := s.siguienteIdTarea + 1 } ∧
    r.2.id = s.siguienteIdTarea ∧ r.2.usuarioId = userId ∧
    r.2.categoriaId = body.categoriaId.getD .null ∧
    r.2.titulo = textoRecortado body.titulo ∧
    r.2.descripcion = textoRecortado body.descripcion ∧
    r.2.fechaCreacion = some ahora := by
  unfold crearTarea at h
  split at h
  · cases h
  · rename_i hv
    injection h with h
    subst h
    exact ⟨by simpa using hv, rfl, rfl, rfl, rfl, rfl, rfl, rfl⟩

/-- Every throw statement of the handlers raises an exception of the runtime, and the error
middleware answers each of them with status 500 and no details. -/
theorem evaluarNew_excepcion (e : Err) :
    ∃ x, evaluarNew e = .error x ∧ (x = errorSinRes ∨ x = errorSinValidationError) ∧
      responderError x = .ok { status := 500, error := "Error interno del servidor" } := by
  cases e with
  | notFound recurso => exact ⟨errorSinRes, rfl, Or.inl rfl, by decide⟩
  | app mensaje statusCode => exact ⟨errorSinRes, rfl, Or.inl rfl, by decide⟩
  | validation mensaje detalles => exact ⟨errorSinValidationError, rfl, Or.inr rfl, by decide⟩

/-- C11. Failures of `DELETE /categorias/:id` carry no kind.  For an id that denotes the
integer `c`, the handler stops at `throw new NotFoundError("Categoría")` exactly when no
category has id `c`; when one has, it stops at `throw new AppError(..., 409)` exactly when
some task has `categoriaId === c`; otherwise it removes the first category with id `c`,
leaves the other categories, the tasks, the users and the counters as they were, and sends
the removed category back.  A failure leaves the state as it was, and whichever of the two
statements is reached, what it raises is the same `TypeError` of reading `res.status` of
`undefined`, which the error middleware answers with status 500 and no details: the client
gets neither NotFound nor Conflict and cannot tell the two failures apart. -/
theorem eliminarCategoria_resultados (s : Store) (id : String) (c : Int)
    (hid : isInt 1 none id = true) (hc : parseInt (.str id) = some c) :
    (eliminarCategoria s id = .error (.notFound "Categoría") ↔
      ∀ k ∈ s.categorias, k.id ≠ c) ∧
    ((∃ k ∈ s.categorias, k.id = c) →
      (eliminarCategoria s id =
          .error (.app "No se puede eliminar la categoría porque tiene tareas asociadas" 409) ↔
        ∃ t ∈ s.tareas, t.categoriaId = .num c)) ∧
    ((∃ k ∈ s.categorias, k.id = c) → (∀ t ∈ s.tareas, t.categoriaId ≠ .num c) →
      ∃ l1 k l2, s.categorias = l1 ++ k :: l2 ∧ (∀ x ∈ l1, x.id ≠ c) ∧ k.id = c ∧
        eliminarCategoria s id = .ok ({ s with categorias := l1 ++ l2 }, k)) ∧
    (∀ e, eliminarCategoria s id = .error e →
      estadoTras s (eliminarCategoria s id) = s ∧ evaluarNew e = .error errorSinRes) ∧
    responderError errorSinRes =
      .ok { status := 500, error := "Error interno del servidor" } := by
  have hid2 : (!isInt 1 none id) = false := by simp [hid]
  have general : ∀ s2 : Store,
      (eliminarCategoria s2 id = .error (.notFound "Categoría") ↔
        ∀ k ∈ s2.categorias, k.id ≠ c) ∧
      ((∃ k ∈ s2.categorias, k.id = c) →
        (eliminarCategoria s2 id =
            .error (.app "No se puede eliminar la categoría porque tiene tareas asociadas" 409) ↔
          ∃ t ∈ s2.tareas, t.categoriaId = .num c)) ∧
      ((∃ k ∈ s2.categorias, k.id = c) → (∀ t ∈ s2.tareas, t.categoriaId ≠ .num c) →
        ∃ l1 k l2, s2.categorias = l1 ++ k :: l2 ∧ (∀ x ∈ l1, x.id ≠ c) ∧ k.id = c ∧
          eliminarCategoria s2 id = .ok ({ s2 with categorias := l1 ++ l2 }, k)) := by
    intro s2
    have hlen : ((s2.tareas.filter fun t =>
        decide (some t.categoriaId = (parseInt (.str id)).map JVal.num)).length > 0) ↔
        ∃ t ∈ s2.tareas, t.categoriaId = .num c := by
      rw [hc, gt_iff_lt, List.length_pos, Ne, List.filter_eq_nil_iff]
      simp
    cases hf : s2.categorias.find? (fun k => decide (some k.id = parseInt (.str id))) with
    | none =>
      have hno : ∀ k ∈ s2.categorias, k.id ≠ c := by
        intro k hk
        have := (find_none_iff _ _).mp hf k hk
        simpa [hc] using this
      refine ⟨?_, ?_, ?_⟩
      · simp [eliminarCategoria, hid2, hf, hno]
        exact hno
      · rintro ⟨k, hk, hkc⟩
        exact absurd hkc (hno k hk)
      · rintro ⟨k, hk, hkc⟩
        exact absurd hkc (hno k hk)
    | some k =>
      obtain ⟨l1, l2, hl, h1, hk, he⟩ := find_descomponer _ _ _ hf
      have hkc : k.id = c := by simpa [hc] using hk
      have hex : ∃ k ∈ s2.categorias, k.id = c := ⟨k, by simp [hl], hkc⟩
      by_cases ht : ∃ t ∈ s2.tareas, t.categoriaId = .num c
      · have hpos := hlen.mpr ht
        refine ⟨?_, ?_, ?_⟩
        · simp [eliminarCategoria, hid2, hf, hpos]
          exact ⟨k, by simp [hl], hkc⟩
        · intro _
          simp [eliminarCategoria, hid2, hf, hpos]
          exact ht
        · intro _ hno
          obtain ⟨t, htm, htc⟩ := ht
          exact absurd htc (hno t htm)
      · have hpos : ¬ ((s2.tareas.filter fun t =>
            decide (some t.categoriaId = (parseInt (.str id)).map JVal.num)).length > 0) :=
          fun h => ht (hlen.mp h)
        refine ⟨?_, ?_, ?_⟩
        · simp [eliminarCategoria, hid2, hf, hpos]
          exact ⟨k, by simp [hl], hkc⟩
        · intro _
          simp [eliminarCategoria, hid2, hf, hpos]
          exact fun t htm htc => ht ⟨t, htm, htc⟩
        · intro _ _
          refine ⟨l1, k, l2, hl, ?_, hkc, ?_⟩
          · intro x hx
            simpa [hc] using h1 x hx
          · simp [eliminarCategoria, hid2, hf, hpos, he]
  obtain ⟨g1, g2, g3⟩ := general s
  refine ⟨g1, g2, g3, ?_, by decide⟩
  intro e he
  refine ⟨by rw [he]; rfl, ?_⟩
  unfold eliminarCategoria at he
  simp only [hid2, Bool.false_eq_true, if_false] at he
  split at he
  · cases he
    rfl
  · split at he
    · cases he
      rfl
    · cases he

/-- Witness of C11 on the seed store.  `DELETE /categorias/9` (no category 9) stops at the
`NotFoundError` statement and `DELETE /categorias/1` (tasks 1 and 3 are in category 1) at the
409 statement; both raise the same `TypeError` and are answered with status 500. -/
theorem eliminarCategoria_resultados_witness :
    isInt 1 none "9" = true ∧ parseInt (.str "9") = some 9 ∧
    isInt 1 none "1" = true ∧ parseInt (.str "1") = some 1 ∧
    eliminarCategoria almacenInicial "9" = .error (.notFound "Categoría") ∧
    eliminarCategoria almacenInicial "1" =
      .error (.app "No se puede eliminar la categoría porque tiene tareas asociadas" 409) ∧
    evaluarNew (.notFound "Categoría") = .error errorSinRes ∧
    evaluarNew (.app "No se puede eliminar la categoría porque tiene tareas asociadas" 409) =
      .error errorSinRes ∧
    responderError errorSinRes =
      .ok { status := 500, error := "Error interno del servidor" } :=
  ⟨by decide, by decide, by decide, by decide,
   (eliminarCategoria_resultados almacenInicial "9" 9 (by decide) (by decide)).1.mpr
     (by decide),
   ((eliminarCategoria_resultados almacenInicial "1" 1 (by decide) (by decide)).2.1
     (by decide)).mpr (by decide),
   ((eliminarCategoria_resultados almacenInicial "9" 9 (by decide) (by decide)).2.2.2.1
     _ rfl).2,
   ((eliminarCategoria_resultados almacenInicial "1" 1 (by decide) (by decide)).2.2.2.1
     _ rfl).2,
   (eliminarCategoria_resultados almacenInicial "9" 9 (by decide) (by decide)).2.2.2.2⟩

/-- C12. The lookup `encontrarTarea(id, usuarioId)` does not tell NotFound from Forbidden.
It stops at `throw new NotFoundError("Tarea")` exactly when no task has the id `parseInt(id)`,
and at `throw new AppError(..., 403)` when the first task with that id has another owner than
the given user (a user id, so not 0: the check is skipped for a falsy `usuarioId`); in every
other case it returns that task, and it changes nothing.  Whichever of the two statements is
reached, what it raises is the same `TypeError` of reading `res.status` of `undefined`, which
the error middleware answers with status 500 and no details. -/
theorem encontrarTarea_resultados (tareas : List Tarea) (id : JVal) (usuarioId : Option Int) :
    (encontrarTarea tareas id usuarioId = .error (.notFound "Tarea") ↔
      ∀ t ∈ tareas, some t.id ≠ parseInt id) ∧
    (∀ t u, tareas.find? (fun t => decide (some t.id = parseInt id)) = some t →
      usuarioId = some u → u ≠ 0 → t.usuarioId ≠ u →
      encontrarTarea tareas id usuarioId =
        .error (.app "No tienes permisos para acceder a esta tarea" 403)) ∧
    (∀ t, tareas.find? (fun t => decide (some t.id = parseInt id)) = some t →
      (usuarioId = none ∨ usuarioId = some t.usuarioId) →
      encontrarTarea tareas id usuarioId = .ok t) ∧
    (∀ t, encontrarTarea tareas id usuarioId = .ok t →
      t ∈ tareas ∧ some t.id = parseInt id) ∧
    (∀ e, encontrarTarea tareas id usuarioId = .error e → evaluarNew e = .error errorSinRes) ∧
    responderError errorSinRes =
      .ok { status := 500, error := "Error interno del servidor" } := by
  refine ⟨?_, ?_, ?_, ?_, ?_, by decide⟩
  · unfold encontrarTarea
    cases hf : tareas.find? (fun t => decide (some t.id = parseInt id)) with
    | none =>
      have := (find_none_iff _ _).mp hf
      simpa using this
    | some t =>
      obtain ⟨l1, l2, hl, _, ht, _⟩ := find_descomponer _ _ _ hf
      have hne : ¬ ∀ t ∈ tareas, some t.id ≠ parseInt id := by
        intro hall
        exact hall t (by simp [hl]) (by simpa using ht)
      constructor
      · intro h
        cases usuarioId with
        | none => cases h
        | some u =>
          simp only at h
          split at h <;> cases h
      · intro h
        exact absurd h hne
  · intro t u hf hu hu0 hne
    subst hu
    simp [encontrarTarea, hf, hu0, hne]
  · intro t hf hu
    rcases hu with hu | hu
    · subst hu
      simp [encontrarTarea, hf]
    · subst hu
      simp [encontrarTarea, hf]
  · intro t h
    unfold encontrarTarea at h
    cases hf : tareas.find? (fun t => decide (some t.id = parseInt id)) with
    | none => simp [hf] at h
    | some t2 =>
      obtain ⟨l1, l2, hl, _, ht, _⟩ := find_descomponer _ _ _ hf
      have heq : t2 = t := by
        cases usuarioId with
        | none => simpa [hf] using h
        | some u =>
          simp only [hf] at h
          split at h
          · cases h
          · injection h
      subst heq
      exact ⟨by simp [hl], by simpa using ht⟩
  · intro e h
    unfold encontrarTarea at h
    split at h
    · cases h
      rfl
    · split at h
      · split at h
        · cases h
          rfl
        · cases h
      · cases h

/-- Witness of C12 on the seed tasks, for user 1: task 3 belongs to user 2, so the lookup of
id 3 stops at the 403 statement, and the lookup of id 9, which no task has, at the
`NotFoundError` statement; both raise the same `TypeError` and are answered with status
500. -/
theorem encontrarTarea_resultados_witness :
    encontrarTarea almacenInicial.tareas (.str "3") (some 1) =
      .error (.app "No tienes permisos para acceder a esta tarea" 403) ∧
    encontrarTarea almacenInicial.tareas (.str "9") (some 1) = .error (.notFound "Tarea") ∧
    evaluarNew (.app "No tienes permisos para acceder a esta tarea" 403) =
      .error errorSinRes ∧
    evaluarNew (.notFound "Tarea") = .error errorSinRes ∧
    responderError errorSinRes =
      .ok { status := 500, error := "Error interno del servidor" } :=
  ⟨(encontrarTarea_resultados almacenInicial.tareas (.str "3") (some 1)).2.1
      (almacenInicial.tareas.get ⟨2, by decide⟩) 1 (by decide) rfl (by decide) (by decide),
   (encontrarTarea_resultados almacenInicial.tareas (.str "9") (some 1)).1.mpr (by decide),
   (encontrarTarea_resultados almacenInicial.tareas (.str "3") (some 1)).2.2.2.2.1 _ rfl,
   (encontrarTarea_resultados almacenInicial.tareas (.str "9") (some 1)).2.2.2.2.1 _ rfl,
   (encontrarTarea_resultados almacenInicial.tareas (.str "9") (some 1)).2.2.2.2.2⟩

/-- C13. The failure of `DELETE /tareas/:id` is not NotFound.  For an id that denotes the
integer `k`, the route succeeds exactly when some task has id `k` and belongs to the caller;
it then sends back the first such task and the new task list is the old one without that
task, every other task in place and in order, the rest of the state as it was.  When no task
has id `k` and belongs to the caller (the id is unknown, or the task is another user's) the
handler stops at `throw new NotFoundError("Tarea")` and the state stays as it was; what the
statement raises is the `TypeError` of reading `res.status` of `undefined`, which the error
middleware answers with status 500 and no details. -/
theorem eliminarTarea_resultados (s : Store) (userId : Int) (id : String) (k : Int)
    (hid : isInt 1 none id = true) (hk : parseInt (.str id) = some k) :
    ((∃ r, eliminarTarea s userId id = .ok r) ↔
      ∃ t ∈ s.tareas, t.id = k ∧ t.usuarioId = userId) ∧
    (∀ r, eliminarTarea s userId id = .ok r →
      ∃ l1 l2, s.tareas = l1 ++ r.2 :: l2 ∧
        (∀ x ∈ l1, ¬ (x.id = k ∧ x.usuarioId = userId)) ∧
        r.2.id = k ∧ r.2.usuarioId = userId ∧ r.1 = { s with tareas := l1 ++ l2 }) ∧
    ((∀ t ∈ s.tareas, ¬ (t.id = k ∧ t.usuarioId = userId)) →
      eliminarTarea s userId id = .error (.notFound "Tarea") ∧
      estadoTras s (eliminarTarea s userId id) = s) ∧
    evaluarNew (.notFound "Tarea") = .error errorSinRes ∧
    responderError errorSinRes =
      .ok { status := 500, error := "Error interno del servidor" } := by
  have hid2 : (!isInt 1 none id) = false := by simp [hid]
  cases hf : s.tareas.find?
      (fun t => decide (some t.id = parseInt (.str id)) && decide (t.usuarioId = userId)) with
  | none =>
    have hno : ∀ t ∈ s.tareas, ¬ (t.id = k ∧ t.usuarioId = userId) := by
      intro t ht
      have := (find_none_iff _ _).mp hf t ht
      simpa [hk] using this
    have hres : eliminarTarea s userId id = .error (.notFound "Tarea") := by
      simp [eliminarTarea, hid2, hf]
    refine ⟨?_, ?_, ?_, rfl, by decide⟩
    · constructor
      · rintro ⟨r, hr⟩
        rw [hres] at hr
        cases hr
      · rintro ⟨t, ht, h1, h2⟩
        exact absurd ⟨h1, h2⟩ (hno t ht)
    · intro r hr
      rw [hres] at hr
      cases hr
    · intro _
      exact ⟨hres, by rw [hres]; rfl⟩
  | some t =>
    obtain ⟨l1, l2, hl, h1, ht, he⟩ := find_descomponer _ _ _ hf
    have ht2 : t.id = k ∧ t.usuarioId = userId := by simpa [hk] using ht
    have hres : eliminarTarea s userId id = .ok ({ s with tareas := l1 ++ l2 }, t) := by
      simp [eliminarTarea, hid2, hf, he]
    refine ⟨?_, ?_, ?_, rfl, by decide⟩
    · constructor
      · intro _
        exact ⟨t, by simp [hl], ht2⟩
      · intro _
        exact ⟨_, hres⟩
    · intro r hr
      rw [hres] at hr
      injection hr with hr
      subst hr
      refine ⟨l1, l2, hl, ?_, ht2.1, ht2.2, rfl⟩
      intro x hx
      simpa [hk] using h1 x hx
    · intro hno
      exact absurd ht2 (hno t (by simp [hl]))

/-- Witness of C13 on the seed store: task 3 belongs to user 2, so for user 1 the route
`DELETE /tareas/3` stops at the `NotFoundError` statement, which raises the `TypeError` that
is answered with status 500; the state stays as it was. -/
theorem eliminarTarea_resultados_witness :
    isInt 1 none "3" = true ∧ parseInt (.str "3") = some 3 ∧
    (eliminarTarea almacenInicial 1 "3" = .error (.notFound "Tarea") ∧
      estadoTras almacenInicial (eliminarTarea almacenInicial 1 "3") = almacenInicial) ∧
    evaluarNew (.notFound "Tarea") = .error errorSinRes ∧
    responderError errorSinRes =
      .ok { status := 500, error := "Error interno del servidor" } :=
  ⟨by decide, by decide,
   (eliminarTarea_resultados almacenInicial 1 "3" 3 (by decide) (by decide)).2.2.1
     (by decide),
   (eliminarTarea_resultados almacenInicial 1 "3" 3 (by decide) (by decide)).2.2.2⟩

/-! ## Create task (C14) -/

theorem paginar_primera_completa (xs : List Tarea) (l : Int) (h : (xs.length : Int) ≤ l) :
    paginar xs (some 1) (some l) = xs := by
  have hp : paginar xs (some 1) (some l) = slice xs 0 l := by
    simp [paginar]
  rw [hp, slice_nonneg xs 0 l (le_refl _) (by omega)]
  simp only [Int.toNat_zero, List.drop_zero, sub_zero]
  apply List.take_of_length_le
  omega

/-- C14. Postcondition of `POST /tareas` for a payload with only `titulo` and `categoriaId`
that passes the validators, sent by user `u`: the task sent back has the value of
`siguienteIdTarea` before the call as id, `completada` false, `prioridad` `"media"`, an empty
`descripcion`, owner `u` and the given `categoriaId`; it is appended to the task list, the
counter grows by one and nothing else changes.  Afterwards no list of another user contains
it, and a list of `u` with `completada=false` and no other filter matches it and shows it on
the first page when the page size is at least the total. -/
theorem crearTarea_postcondicion (s : Store) (ahora : String) (u : Int) (titulo cat : JVal)
    (hv : validarCrearTarea s.categorias
      { titulo := some titulo, categoriaId := some cat } = []) :
    ∃ r, crearTarea s ahora u { titulo := some titulo, categoriaId := some cat } = .ok r ∧
      r.2.id = s.siguienteIdTarea ∧ r.2.completada = .bool false ∧ r.2.prioridad = "media" ∧
      r.2.descripcion = "" ∧ r.2.usuarioId = u ∧ r.2.categoriaId = cat ∧
      r.1 = { s with
              tareas := s.tareas ++ [r.2], siguienteIdTarea := s.siguienteIdTarea + 1 } ∧
      (∀ (env : Entorno) (v : Int) (c : Consulta) (resp : Respuesta), v ≠ u →
        listarTareas env r.1 v c = .ok resp → r.2 ∉ resp.tareas) ∧
      (∀ (env : Entorno) (c : Consulta) (resp : Respuesta),
        c.completada = some "false" → c.prioridad = none → c.usuario_id = none →
        c.categoria_id = none → c.q = none → listarTareas env r.1 u c = .ok resp →
        r.2 ∈ resultadosDe env r.1.tareas u c ∧
        (c.pagina = none → ∀ l, resp.limite = some l → (resp.total : Int) ≤ l →
          r.2 ∈ resp.tareas)) := by
  have hres : crearTarea s ahora u { titulo := some titulo, categoriaId := some cat } =
      .ok ({ s with
              tareas := s.tareas ++
                [{ id := s.siguienteIdTarea, titulo := textoRecortado (some titulo),
                   descripcion := "", completada := .bool false, prioridad := "media",
                   usuarioId := u, categoriaId := cat, fechaCreacion := some ahora }]
              siguienteIdTarea := s.siguienteIdTarea + 1 },
           { id := s.siguienteIdTarea, titulo := textoRecortado (some titulo),
             descripcion := "", completada := .bool false, prioridad := "media",
             usuarioId := u, categoriaId := cat, fechaCreacion := some ahora }) := by
    simp [crearTarea, hv, textoDe, textoRecortado]
  refine ⟨_, hres, rfl, rfl, rfl, rfl, rfl, rfl, rfl, ?_, ?_⟩
  · intro env v c resp hvu hl ht
    obtain ⟨_, hr⟩ := listarTareas_ok _ _ _ _ _ hl
    subst hr
    have := (mem_resultadosDe env _ v c _ (mem_slice _ _ _ _ ht)).2
    exact hvu this.symm
  · intro env c resp hc hp hu hcat hq hl
    obtain ⟨hval, hr⟩ := listarTareas_ok _ _ _ _ _ hl
    have hmem : ∀ t : Tarea, t.usuarioId = u → t.completada = .bool false →
        t ∈ s.tareas ++ [t] → t ∈ resultadosDe env (s.tareas ++ [t]) u c := by
      intro t htu htc htm
      unfold resultadosDe
      rw [(perm_ordenarResultados env c.ordenar _).mem_iff, hq]
      show t ∈ filtrarTareas _ u c
      rw [filtrarTareas_eq _ u c hval, List.mem_filter]
      refine ⟨htm, ?_⟩
      rw [cumpleFiltros_iff]
      refine ⟨htu, ?_, ?_, ?_, ?_⟩
      · intro w hw
        rw [hc] at hw
        injection hw with hw
        subst hw
        simpa using htc
      · intro p hp2
        rw [hp] at hp2
        cases hp2
      · intro w hw
        rw [hu] at hw
        cases hw
      · intro w hw
        rw [hcat] at hw
        cases hw
    have hin := hmem ⟨s.siguienteIdTarea, textoRecortado (some titulo), "", .bool false, "media",
      u, cat, some ahora, none⟩ rfl rfl (by simp)
    refine ⟨hin, ?_⟩
    intro hpag l hlim htot
    subst hr
    have hlim2 : parseIntConDefecto c.limite 10 = some l := hlim
    show _ ∈ paginar _ (parseIntConDefecto c.pagina 1) (parseIntConDefecto c.limite 10)
    rw [hpag, hlim2]
    have h1 : parseIntConDefecto none 1 = some 1 := rfl
    rw [h1, paginar_primera_completa _ l htot]
    exact hin

/-- Witness of C14 on the seed store: user 2 creates `{titulo: "Buy milk", categoriaId: 1}`
and gets task 4, pending, with priority `media`. -/
theorem crearTarea_postcondicion_witness :
    validarCrearTarea almacenInicial.categorias
      { titulo := some (.str "Buy milk"), categoriaId := some (.num 1) } = [] ∧
    ∃ r, crearTarea almacenInicial ahoraEjemplo 2
        { titulo := some (.str "Buy milk"), categoriaId := some (.num 1) } = .ok r ∧
      r.2.id = 4 ∧ r.2.completada = .bool false ∧ r.2.prioridad = "media" ∧
      r.2.usuarioId = 2 := by
  refine ⟨by decide, ?_⟩
  obtain ⟨r, h1, h2, h3, h4, _, h6, _⟩ :=
    crearTarea_postcondicion almacenInicial ahoraEjemplo 2 (.str "Buy milk") (.num 1)
      (by decide)
  exact ⟨r, h1, h2, h3, h4, h6⟩

/-! ## Identifiers (C15) -/

theorem asignarCampo_fijos (t : Tarea) (campo : String) (valor : JVal) :
    (asignarCampo t campo valor).id = t.id ∧
    (asignarCampo t campo valor).usuarioId = t.usuarioId ∧
    (asignarCampo t campo valor).fechaCreacion = t.fechaCreacion := by
  unfold asignarCampo
  split
  · split <;> exact ⟨rfl, rfl, rfl⟩
  · split
    · split <;> exact ⟨rfl, rfl, rfl⟩
    · split
      · split <;> exact ⟨rfl, rfl, rfl⟩
      · split
        · exact ⟨rfl, rfl, rfl⟩
        · split <;> exact ⟨rfl, rfl, rfl⟩

theorem foldl_asignarCampo_fijos (body : List (String × JVal)) (t : Tarea) :
    (body.foldl (fun t e => asignarCampo t e.1 e.2) t).id = t.id ∧
    (body.foldl (fun t e => asignarCampo t e.1 e.2) t).usuarioId = t.usuarioId ∧
    (body.foldl (fun t e => asignarCampo t e.1 e.2) t).fechaCreacion = t.fechaCreacion := by
  induction body generalizing t with
  | nil => exact ⟨rfl, rfl, rfl⟩
  | cons e resto ih =>
    obtain ⟨h1, h2, h3⟩ := ih (asignarCampo t e.1 e.2)
    obtain ⟨g1, g2, g3⟩ := asignarCampo_fijos t e.1 e.2
    exact ⟨h1.trans g1, h2.trans g2, h3.trans g3⟩

theorem modificarPrimero_descomponer (p : Tarea → Bool) (f : Tarea → Tarea) (l : List Tarea)
    (a : Tarea) (h : l.find? p = some a) :
    ∃ l1 l2, l = l1 ++ a :: l2 ∧ (∀ x ∈ l1, p x = false) ∧ p a = true ∧
      modificarPrimero p f l = l1 ++ f a :: l2 := by
  induction l with
  | nil => simp at h
  | cons b l ih =>
    by_cases hb : p b = true
    · have hab : b = a := by simpa [List.find?_cons, hb] using h
      subst hab
      exact ⟨[], l, rfl, by simp, hb, by simp [modificarPrimero, hb]⟩
    · have hbf : p b = false := by simpa using hb
      have h2 : l.find? p = some a := by simpa [List.find?_cons, hbf] using h
      obtain ⟨l1, l2, hl, h1, ha, he⟩ := ih h2
      refine ⟨b :: l1, l2, by simp [hl], ?_, ha, by simp [modificarPrimero, hbf, he]⟩
      intro x hx
      rcases List.mem_cons.mp hx with rfl | hx
      · exact hbf
      · exact h1 x hx

theorem encontrarTarea_find (tareas : List Tarea) (id : JVal) (usuarioId : Option Int)
    (t : Tarea) (h : encontrarTarea tareas id usuarioId = .ok t) :
    tareas.find? (fun t => decide (some t.id = parseInt id)) = some t := by
  unfold encontrarTarea at h
  cases hf : tareas.find? (fun t => decide (some t.id = parseInt id)) with
  | none => simp [hf] at h
  | some t2 =>
    cases usuarioId with
    | none =>
      simp only [hf] at h
      injection h with h
      rw [h]
    | some u =>
      simp only [hf] at h
      split at h
      · cases h
      · injection h with h
        rw [h]

theorem IdsEnOrden_tareas (s : Store) (tareas : List Tarea) (h : IdsEnOrden s)
    (hm : (tareas.map fun t => t.id).Sublist (s.tareas.map fun t => t.id)) :
    IdsEnOrden { s with tareas := tareas } := by
  obtain ⟨h1, h2, h3, h4⟩ := h
  refine ⟨hm.nodup h1, ?_, h3, h4⟩
  intro t ht
  have : t.id ∈ s.tareas.map fun t => t.id := hm.subset (List.mem_map_of_mem _ ht)
  obtain ⟨t2, ht2, he⟩ := List.mem_map.mp this
  rw [← he]
  exact h2 t2 ht2

theorem IdsEnOrden_modificar (s : Store) (id : JVal) (usuarioId : Option Int)
    (tarea actualizada : Tarea) (h : IdsEnOrden s)
    (ht : encontrarTarea s.tareas id usuarioId = .ok tarea)
    (hi : actualizada.id = tarea.id) :
    IdsEnOrden { s with
      tareas := modificarPrimero (fun t => decide (some t.id = parseInt id))
        (fun _ => actualizada) s.tareas } := by
  apply IdsEnOrden_tareas s _ h
  obtain ⟨l1, l2, hl, _, _, hm⟩ :=
    modificarPrimero_descomponer _ (fun _ => actualizada) _ _ (encontrarTarea_find _ _ _ _ ht)
  rw [hm]
  show List.Sublist _ (List.map (fun t => t.id) s.tareas)
  rw [hl]
  simp [hi]

theorem reemplazarTarea_ok (s : Store) (ahora : String) (userId : Int) (id : String)
    (body : CuerpoTarea) (r : Store × Tarea)
    (h : reemplazarTarea s ahora userId id body = .ok r) :
    validarReemplazarTarea s.categorias id body = [] ∧
    ∃ tarea, encontrarTarea s.tareas (.str id) (some userId) = .ok tarea ∧
      r.2 = { tarea with
              titulo := textoRecortado body.titulo
              descripcion := textoRecortado body.descripcion
              prioridad := textoDe body.prioridad
              completada := body.completada.getD .null
              categoriaId := body.categoriaId.getD .null
              fechaActualizacion := some ahora } ∧
      r.1 = { s with
              tareas := modificarPrimero (fun t => decide (some t.id = parseInt (.str id)))
                (fun _ => r.2) s.tareas } := by
  unfold reemplazarTarea at h
  split at h
  · cases h
  · rename_i hv
    cases ht : encontrarTarea s.tareas (.str id) (some userId) with
    | error e => simp [ht] at h
    | ok tarea =>
      simp only [ht] at h
      injection h with h
      subst h
      exact ⟨by simpa using hv, tarea, rfl, rfl, rfl⟩

theorem actualizarParcial_ok (s : Store) (ahora : String) (userId : Int) (id : String)
    (body : List (String × JVal)) (r : Store × Tarea)
    (h : actualizarParcial s ahora userId id body = .ok r) :
    isInt 1 none id = true ∧ body ≠ [] ∧ validarCampos s.categorias body [] = .ok [] ∧
    ∃ tarea, encontrarTarea s.tareas (.str id) (some userId) = .ok tarea ∧
      r.2 = { body.foldl (fun t e => asignarCampo t e.1 e.2) tarea with
              fechaActualizacion := some ahora } ∧
      r.1 = { s with
              tareas := modificarPrimero (fun t => decide (some t.id = parseInt (.str id)))
                (fun _ => r.2) s.tareas } := by
  unfold actualizarParcial at h
  split at h
  · cases h
  · rename_i hid
    cases ht : encontrarTarea s.tareas (.str id) (some userId) with
    | error e => simp [ht] at h
    | ok tarea =>
      simp only [ht] at h
      split at h
      · cases h
      · rename_i hlen
        cases hval : validarCampos s.categorias body [] with
        | error e => simp [hval] at h
        | ok errors =>
          simp only [hval] at h
          split at h
          · cases h
          · rename_i herr
            injection h with h
            subst h
            refine ⟨by simpa using hid, ?_, ?_, tarea, rfl, rfl, rfl⟩
            · intro hb
              exact hlen (by simp [hb])
            · have : errors = [] := by
                cases errors with
                | nil => rfl
                | cons a l => simp at herr
              rw [this]

theorem aplicar_conserva (s : Store) (op : Operacion) (h : IdsEnOrden s) :
    IdsEnOrden (aplicar s op) ∧
    s.siguienteIdTarea ≤ (aplicar s op).siguienteIdTarea ∧
    s.siguienteIdCategoria ≤ (aplicar s op).siguienteIdCategoria := by
  cases op with
  | crearTarea ahora userId body =>
    simp only [aplicar]
    cases hr : crearTarea s ahora userId body with
    | error e => exact ⟨h, le_refl _, le_refl _⟩
    | ok r =>
      obtain ⟨_, hr1, hid, _⟩ := crearTarea_ok s ahora userId body r hr
      obtain ⟨h1, h2, h3, h4⟩ := h
      have hs : estadoTras s (Except.ok r : Except Err (Store × Tarea)) = r.1 := rfl
      rw [hs, hr1]
      refine ⟨⟨?_, ?_, h3, h4⟩, ?_, le_refl _⟩
      · show (List.map (fun t => t.id) (s.tareas ++ [r.2])).Nodup
        rw [List.map_append, List.nodup_append]
        refine ⟨h1, by simp, ?_⟩
        intro a ha hb
        simp only [List.map_cons, List.map_nil, List.mem_singleton] at hb
        obtain ⟨t, ht, hta⟩ := List.mem_map.mp ha
        have := h2 t ht
        rw [hta, hb, hid] at this
        exact lt_irrefl _ this
      · intro t ht
        show t.id < s.siguienteIdTarea + 1
        rcases List.mem_append.mp ht with ht | ht
        · have := h2 t ht
          omega
        · simp only [List.mem_singleton] at ht
          rw [ht, hid]
          omega
      · show s.siguienteIdTarea ≤ s.siguienteIdTarea + 1
        omega
  | reemplazarTarea ahora userId id body =>
    simp only [aplicar]
    cases hr : reemplazarTarea s ahora userId id body with
    | error e => exact ⟨h, le_refl _, le_refl _⟩
    | ok r =>
      obtain ⟨_, tarea, ht, hr2, hr1⟩ := reemplazarTarea_ok s ahora userId id body r hr
      have hs : estadoTras s (Except.ok r : Except Err (Store × Tarea)) = r.1 := rfl
      rw [hs, hr1]
      exact ⟨IdsEnOrden_modificar s _ _ tarea r.2 h ht (by rw [hr2]), le_refl _, le_refl _⟩
  | actualizarParcial ahora userId id body =>
    simp only [aplicar]
    cases hr : actualizarParcial s ahora userId id body with
    | error e => exact ⟨h, le_refl _, le_refl _⟩
    | ok r =>
      obtain ⟨_, _, _, tarea, ht, hr2, hr1⟩ := actualizarParcial_ok s ahora userId id body r hr
      have hs : estadoTras s (Except.ok r : Except Err (Store × Tarea)) = r.1 := rfl
      rw [hs, hr1]
      refine ⟨IdsEnOrden_modificar s _ _ tarea r.2 h ht ?_, le_refl _, le_refl _⟩
      rw [hr2]
      exact (foldl_asignarCampo_fijos body tarea).1
  | eliminarTarea userId id =>
    simp only [aplicar]
    cases hr : eliminarTarea s userId id with
    | error e => exact ⟨h, le_refl _, le_refl _⟩
    | ok r =>
      have hs : estadoTras s (Except.ok r : Except Err (Store × Tarea)) = r.1 := rfl
      rw [hs]
      unfold eliminarTarea at hr
      split at hr
      · cases hr
      · split at hr
        · cases hr
        · injection hr with hr
          subst hr
          exact ⟨IdsEnOrden_tareas s _ h ((List.eraseP_sublist _).map _), le_refl _, le_refl _⟩
  | crearCategoria nombre =>
    simp only [aplicar]
    cases hr : crearCategoria s nombre with
    | error e => exact ⟨h, le_refl _, le_refl _⟩
    | ok r =>
      have hs : estadoTras s (Except.ok r : Except Err (Store × Categoria)) = r.1 := rfl
      rw [hs]
      unfold crearCategoria at hr
      split at hr
      · cases hr
      · injection hr with hr
        subst hr
        obtain ⟨h1, h2, h3, h4⟩ := h
        refine ⟨⟨h1, h2, ?_, ?_⟩, le_refl _, ?_⟩
        · show (List.map (fun c => c.id)
            (s.categorias ++ [{ id := s.siguienteIdCategoria,
                                nombre := textoRecortado nombre }])).Nodup
          rw [List.map_append, List.nodup_append]
          refine ⟨h3, by simp, ?_⟩
          intro a ha hb
          simp only [List.map_cons, List.map_nil, List.mem_singleton] at hb
          obtain ⟨c, hc, hca⟩ := List.mem_map.mp ha
          have := h4 c hc
          rw [hca, hb] at this
          exact lt_irrefl _ this
        · intro c hc
          show c.id < s.siguienteIdCategoria + 1
          rcases List.mem_append.mp hc with hc | hc
          · have := h4 c hc
            omega
          · simp only [List.mem_singleton] at hc
            rw [hc]
            show s.siguienteIdCategoria < s.siguienteIdCategoria + 1
            omega
        · show s.siguienteIdCategoria ≤ s.siguienteIdCategoria + 1
          omega
  | eliminarCategoria id =>
    simp only [aplicar]
    cases hr : eliminarCategoria s id with
    | error e => exact ⟨h, le_refl _, le_refl _⟩
    | ok r =>
      have hs : estadoTras s (Except.ok r : Except Err (Store × Categoria)) = r.1 := rfl
      rw [hs]
      unfold eliminarCategoria at hr
      split at hr
      · cases hr
      · split at hr
        · cases hr
        · split at hr
          · cases hr
          · injection hr with hr
            subst hr
            obtain ⟨h1, h2, h3, h4⟩ := h
            refine ⟨⟨h1, h2, ?_, ?_⟩, le_refl _, le_refl _⟩
            · exact ((List.eraseP_sublist _).map _).nodup h3
            · intro c hc
              exact h4 c ((List.eraseP_sublist _).subset hc)

theorem ejecutar_conserva (s : Store) (ops : List Operacion) (h : IdsEnOrden s) :
    IdsEnOrden (ejecutar s ops) ∧
    s.siguienteIdTarea ≤ (ejecutar s ops).siguienteIdTarea ∧
    s.siguienteIdCategoria ≤ (ejecutar s ops).siguienteIdCategoria := by
  induction ops generalizing s with
  | nil => exact ⟨h, le_refl _, le_refl _⟩
  | cons op resto ih =>
    obtain ⟨h1, h2, h3⟩ := aplicar_conserva s op h
    obtain ⟨g1, g2, g3⟩ := ih (aplicar s op) h1
    exact ⟨g1, le_trans h2 g2, le_trans h3 g3⟩

theorem IdsEnOrden_inicial : IdsEnOrden almacenInicial := by
  refine ⟨by decide, by decide, by decide, by decide⟩

theorem ejecutar_append (s : Store) (ops1 ops2 : List Operacion) :
    ejecutar s (ops1 ++ ops2) = ejecutar (ejecutar s ops1) ops2 := by
  simp [ejecutar, List.foldl_append]

/-- C15. Identifiers are unique and never reused: in the state reached from the seed by any
sequence of requests (create, replace, partial update and delete task, create and delete
category, answered or failed), task ids are pairwise distinct and below `siguienteIdTarea`,
category ids are pairwise distinct and below `siguienteIdCategoria`; no later request
lowers a counter; and a task or category created at any later point gets an id above the id
of every task or category of that state, deleted meanwhile or not. -/
theorem ids_unicos_sin_reuso (ops : List Operacion) :
    (((ejecutar almacenInicial ops).tareas.map fun t => t.id).Nodup ∧
     (∀ t ∈ (ejecutar almacenInicial ops).tareas,
        t.id < (ejecutar almacenInicial ops).siguienteIdTarea) ∧
     ((ejecutar almacenInicial ops).categorias.map fun c => c.id).Nodup ∧
     (∀ c ∈ (ejecutar almacenInicial ops).categorias,
        c.id < (ejecutar almacenInicial ops).siguienteIdCategoria)) ∧
    (∀ ops2 : List Operacion,
      (ejecutar almacenInicial ops).siguienteIdTarea ≤
        (ejecutar almacenInicial (ops ++ ops2)).siguienteIdTarea ∧
      (ejecutar almacenInicial ops).siguienteIdCategoria ≤
        (ejecutar almacenInicial (ops ++ ops2)).siguienteIdCategoria) ∧
    (∀ (ops2 : List Operacion) (ahora : String) (userId : Int) (body : CuerpoTarea)
        (r : Store × Tarea),
      crearTarea (ejecutar almacenInicial (ops ++ ops2)) ahora userId body = .ok r →
      ∀ t ∈ (ejecutar almacenInicial ops).tareas, t.id < r.2.id) ∧
    (∀ (ops2 : List Operacion) (nombre : Option JVal) (r : Store × Categoria),
      crearCategoria (ejecutar almacenInicial (ops ++ ops2)) nombre = .ok r →
      ∀ c ∈ (ejecutar almacenInicial ops).categorias, c.id < r.2.id) := by
  obtain ⟨hinv, _, _⟩ := ejecutar_conserva almacenInicial ops IdsEnOrden_inicial
  have hmono : ∀ ops2 : List Operacion,
      (ejecutar almacenInicial ops).siguienteIdTarea ≤
        (ejecutar almacenInicial (ops ++ ops2)).siguienteIdTarea ∧
      (ejecutar almacenInicial ops).siguienteIdCategoria ≤
        (ejecutar almacenInicial (ops ++ ops2)).siguienteIdCategoria := by
    intro ops2
    rw [ejecutar_append]
    exact (ejecutar_conserva _ ops2 hinv).2
  refine ⟨hinv, hmono, ?_, ?_⟩
  · intro ops2 ahora userId body r hr t ht
    obtain ⟨_, _, hid, _⟩ := crearTarea_ok _ ahora userId body r hr
    have h1 := hinv.2.1 t ht
    have h2 := (hmono ops2).1
    rw [hid]
    omega
  · intro ops2 nombre r hr c hc
    have h1 := hinv.2.2.2 c hc
    have h2 := (hmono ops2).2
    unfold crearCategoria at hr
    split at hr
    · cases hr
    · injection hr with hr
      subst hr
      show c.id < (ejecutar almacenInicial (ops ++ ops2)).siguienteIdCategoria
      omega

/-- Witness of C15 from the seed store: after task 3 is deleted by its owner, the next task
created gets id 4, not 3, and the counter stands at 5. -/
theorem ids_unicos_sin_reuso_witness :
    ((ejecutar almacenInicial
        [.eliminarTarea 2 "3",
         .crearTarea ahoraEjemplo 2
           { titulo := some (.str "Buy milk"), categoriaId := some (.num 1) }]).tareas.map
      fun t => t.id) = [1, 2, 4] ∧
    (((ejecutar almacenInicial
        [.eliminarTarea 2 "3",
         .crearTarea ahoraEjemplo 2
           { titulo := some (.str "Buy milk"), categoriaId := some (.num 1) }]).tareas.map
      fun t => t.id).Nodup) :=
  ⟨by decide,
   (ids_unicos_sin_reuso
     [.eliminarTarea 2 "3",
      .crearTarea ahoraEjemplo 2
        { titulo := some (.str "Buy milk"), categoriaId := some (.num 1) }]).1.1⟩

/-! ## Replace task (C18) -/

theorem tituloValido_texto (v : Option JVal) (h : tituloValido v = true) :
    ∃ texto, v = some (.str texto) := by
  unfold tituloValido at h
  split at h
  · exact ⟨_, rfl⟩
  · cases h

theorem prioridadValida_texto (v : Option JVal) (h : prioridadValida false v = true) :
    ∃ texto, v = some (.str texto) := by
  unfold prioridadValida at h
  split at h
  · cases h
  · rename_i w
    simp only [decide_eq_true_eq] at h
    rcases h with h | h | h <;> exact ⟨_, by rw [h]⟩

theorem completadaValida_presente (v : Option JVal) (h : completadaValida false v = true) :
    ∃ b, v = some (.bool b) := by
  unfold completadaValida at h
  split at h
  · cases h
  · exact ⟨_, rfl⟩
  · cases h

theorem esEnteroPositivo_presente (v : Option JVal) (h : esEnteroPositivo v = true) :
    ∃ n, v = some (.num n) ∧ 1 ≤ n := by
  unfold esEnteroPositivo at h
  split at h
  · exact ⟨_, rfl, by simpa using h⟩
  · cases h

theorem exigir_nil (valido : Bool) (mensaje : String) (h : exigir valido mensaje = []) :
    valido = true := by
  unfold exigir at h
  split at h
  · assumption
  · cases h

/-- C18. Frame of `PUT /tareas/:id`: when the route answers, the target is the first task
with the id, its `titulo` and `descripcion` are the payload texts trimmed (`""` when
`descripcion` is omitted), its `prioridad`, `completada` and `categoriaId` are the payload
values, its `id`, `usuarioId` and `fechaCreacion` are as before, and every other task, the
order and length of the task list and the rest of the state are unchanged.  When the route
throws the state stays as it was, and the route does throw when no task has the id and when
the first task with the id has another owner than the caller (a user id, so not 0). -/
theorem reemplazarTarea_marco (s : Store) (ahora : String) (userId : Int) (id : String)
    (body : CuerpoTarea) :
    (∀ r, reemplazarTarea s ahora userId id body = .ok r →
      ∃ l1 t l2 titulo prioridad completada categoriaId,
        s.tareas = l1 ++ t :: l2 ∧ (∀ x ∈ l1, some x.id ≠ parseInt (.str id)) ∧
        r.1 = { s with tareas := l1 ++ r.2 :: l2 } ∧
        body.titulo = some (.str titulo) ∧ r.2.titulo = jsTrim titulo ∧
        (body.descripcion = none → r.2.descripcion = "") ∧
        (∀ d, body.descripcion = some (.str d) → r.2.descripcion = jsTrim d) ∧
        body.prioridad = some (.str prioridad) ∧ r.2.prioridad = prioridad ∧
        body.completada = some completada ∧ r.2.completada = completada ∧
        body.categoriaId = some categoriaId ∧ r.2.categoriaId = categoriaId ∧
        r.2.id = t.id ∧ r.2.usuarioId = t.usuarioId ∧ r.2.fechaCreacion = t.fechaCreacion ∧
        r.2.fechaActualizacion = some ahora) ∧
    (∀ e, reemplazarTarea s ahora userId id body = .error e →
      estadoTras s (reemplazarTarea s ahora userId id body) = s) ∧
    ((∀ t ∈ s.tareas, some t.id ≠ parseInt (.str id)) →
      ∃ e, reemplazarTarea s ahora userId id body = .error e) ∧
    (∀ t, s.tareas.find? (fun t => decide (some t.id = parseInt (.str id))) = some t →
      userId ≠ 0 → t.usuarioId ≠ userId →
      ∃ e, reemplazarTarea s ahora userId id body = .error e) := by
  refine ⟨?_, ?_, ?_, ?_⟩
  · intro r hr
    obtain ⟨hv, tarea, ht, hr2, hr1⟩ := reemplazarTarea_ok s ahora userId id body r hr
    obtain ⟨l1, l2, hl, h1, _, hm⟩ :=
      modificarPrimero_descomponer _ (fun _ => r.2) _ _ (encontrarTarea_find _ _ _ _ ht)
    simp only [validarReemplazarTarea, List.append_eq_nil] at hv
    obtain ⟨⟨⟨⟨⟨⟨_, hti⟩, _⟩, hpr⟩, hco⟩, hca⟩, _⟩ := hv
    obtain ⟨titulo, htit⟩ := tituloValido_texto _ (exigir_nil _ _ hti)
    obtain ⟨prioridad, hpri⟩ := prioridadValida_texto _ (exigir_nil _ _ hpr)
    obtain ⟨b, hcom⟩ := completadaValida_presente _ (exigir_nil _ _ hco)
    obtain ⟨n, hcat, _⟩ := esEnteroPositivo_presente _ (exigir_nil _ _ hca)
    refine ⟨l1, tarea, l2, titulo, prioridad, .bool b, .num n, hl, ?_, ?_, htit, ?_, ?_, ?_,
      hpri, ?_, hcom, ?_, hcat, ?_, ?_, ?_, ?_, ?_⟩
    · intro x hx
      simpa using h1 x hx
    · rw [hr1, hm]
    · rw [hr2, htit]
      rfl
    · intro hd
      rw [hr2, hd]
      rfl
    · intro d hd
      rw [hr2, hd]
      rfl
    · rw [hr2, hpri]
      rfl
    · rw [hr2, hcom]
      rfl
    · rw [hr2, hcat]
      rfl
    · rw [hr2]
    · rw [hr2]
    · rw [hr2]
    · rw [hr2]
  · intro e he
    rw [he]
    rfl
  · intro hno
    have hf : encontrarTarea s.tareas (.str id) (some userId) = .error (.notFound "Tarea") := by
      unfold encontrarTarea
      rw [(find_none_iff _ _).mpr (fun x hx => by simpa using hno x hx)]
    by_cases hv : validarReemplazarTarea s.categorias id body = []
    · exact ⟨.notFound "Tarea", by simp [reemplazarTarea, hv, hf]⟩
    · exact ⟨.validation "Datos inválidos" (validarReemplazarTarea s.categorias id body),
        by simp [reemplazarTarea, hv]⟩
  · intro t hf hu hne
    have hf2 : encontrarTarea s.tareas (.str id) (some userId) =
        .error (.app "No tienes permisos para acceder a esta tarea" 403) := by
      simp [encontrarTarea, hf, hu, hne]
    by_cases hv : validarReemplazarTarea s.categorias id body = []
    · exact ⟨.app "No tienes permisos para acceder a esta tarea" 403,
        by simp [reemplazarTarea, hv, hf2]⟩
    · exact ⟨.validation "Datos inválidos" (validarReemplazarTarea s.categorias id body),
        by simp [reemplazarTarea, hv]⟩

/-- Witness of C18 on the seed store: user 1 replaces task 1; the task sent back keeps its
id and owner and has the new title, trimmed. -/
theorem reemplazarTarea_marco_witness :
    ∃ r, reemplazarTarea almacenInicial ahoraEjemplo 1 "1"
        { titulo := some (.str "  Nuevo titulo  "), prioridad := some (.str "baja"),
          completada := some (.bool true), categoriaId := some (.num 2) } = .ok r ∧
      ∃ l1 t l2 titulo prioridad completada categoriaId,
        almacenInicial.tareas = l1 ++ t :: l2 ∧
        r.1 = { almacenInicial with tareas := l1 ++ r.2 :: l2 } ∧
        some (JVal.str titulo) = some (.str "  Nuevo titulo  ") ∧ r.2.titulo = jsTrim titulo ∧
        some (JVal.str prioridad) = some (.str "baja") ∧ r.2.prioridad = prioridad ∧
        some completada = some (JVal.bool true) ∧ r.2.completada = completada ∧
        some categoriaId = some (JVal.num 2) ∧ r.2.categoriaId = categoriaId ∧
        r.2.id = t.id ∧ r.2.usuarioId = t.usuarioId := by
  obtain ⟨l1, t, l2, ti, pr, co, ca, h1, _, h3, h4, h5, _, _, h8, h9, h10, h11, h12, h13,
    h14, h15, _⟩ :=
    (reemplazarTarea_marco almacenInicial ahoraEjemplo 1 "1"
      { titulo := some (.str "  Nuevo titulo  "), prioridad := some (.str "baja"),
        completada := some (.bool true), categoriaId := some (.num 2) }).1 _ rfl
  exact ⟨_, rfl, l1, t, l2, ti, pr, co, ca, h1, h3, h4.symm, h5, h8.symm, h9, h10.symm, h11,
    h12.symm, h13, h14, h15⟩

/-- Counterexample to C18 as stated, on the seed store.  User 1 replaces task 1 with the
title `"  Nuevo titulo  "`: the route answers and the stored title is `"Nuevo titulo"`, not
the payload value. -/
theorem reemplazarTarea_recorta_titulo :
    ∃ r, reemplazarTarea almacenInicial ahoraEjemplo 1 "1"
        { titulo := some (.str "  Nuevo titulo  "), prioridad := some (.str "baja"),
          completada := some (.bool true), categoriaId := some (.num 2) } = .ok r ∧
      r.2.titulo = "Nuevo titulo" ∧ r.2.titulo ≠ "  Nuevo titulo  " :=
  ⟨_, rfl, by decide, by decide⟩

/-! ## Partial update: frame (C19) and atomicity (C22) -/

theorem asignarCampo_otros (t : Tarea) (campo : String) (valor : JVal) :
    (campo ≠ "titulo" → (asignarCampo t campo valor).titulo = t.titulo) ∧
    (campo ≠ "descripcion" → (asignarCampo t campo valor).descripcion = t.descripcion) ∧
    (campo ≠ "prioridad" → (asignarCampo t campo valor).prioridad = t.prioridad) ∧
    (campo ≠ "completada" → (asignarCampo t campo valor).completada = t.completada) ∧
    (campo ≠ "categoriaId" → (asignarCampo t campo valor).categoriaId = t.categoriaId) ∧
    (asignarCampo t campo valor).fechaActualizacion = t.fechaActualizacion := by
  unfold asignarCampo
  split
  · rename_i h
    split <;> exact ⟨fun hn => absurd h hn, fun _ => rfl, fun _ => rfl, fun _ => rfl,
      fun _ => rfl, rfl⟩
  · split
    · rename_i h
      split <;> exact ⟨fun _ => rfl, fun hn => absurd h hn, fun _ => rfl, fun _ => rfl,
        fun _ => rfl, rfl⟩
    · split
      · rename_i h
        split <;> exact ⟨fun _ => rfl, fun _ => rfl, fun hn => absurd h hn, fun _ => rfl,
          fun _ => rfl, rfl⟩
      · split
        · rename_i h
          exact ⟨fun _ => rfl, fun _ => rfl, fun _ => rfl, fun hn => absurd h hn,
            fun _ => rfl, rfl⟩
        · split
          · rename_i h
            exact ⟨fun _ => rfl, fun _ => rfl, fun _ => rfl, fun _ => rfl,
              fun hn => absurd h hn, rfl⟩
          · exact ⟨fun _ => rfl, fun _ => rfl, fun _ => rfl, fun _ => rfl, fun _ => rfl, rfl⟩

theorem foldl_asignarCampo_ausente (body : List (String × JVal)) (t : Tarea) :
    ("titulo" ∉ body.map Prod.fst →
      (body.foldl (fun t e => asignarCampo t e.1 e.2) t).titulo = t.titulo) ∧
    ("descripcion" ∉ body.map Prod.fst →
      (body.foldl (fun t e => asignarCampo t e.1 e.2) t).descripcion = t.descripcion) ∧
    ("prioridad" ∉ body.map Prod.fst →
      (body.foldl (fun t e => asignarCampo t e.1 e.2) t).prioridad = t.prioridad) ∧
    ("completada" ∉ body.map Prod.fst →
      (body.foldl (fun t e => asignarCampo t e.1 e.2) t).completada = t.completada) ∧
    ("categoriaId" ∉ body.map Prod.fst →
      (body.foldl (fun t e => asignarCampo t e.1 e.2) t).categoriaId = t.categoriaId) := by
  induction body generalizing t with
  | nil => exact ⟨fun _ => rfl, fun _ => rfl, fun _ => rfl, fun _ => rfl, fun _ => rfl⟩
  | cons e resto ih =>
    obtain ⟨h1, h2, h3, h4, h5⟩ := ih (asignarCampo t e.1 e.2)
    obtain ⟨g1, g2, g3, g4, g5, _⟩ := asignarCampo_otros t e.1 e.2
    simp only [List.map_cons, List.mem_cons, not_or, List.foldl_cons]
    exact ⟨fun h => (h1 h.2).trans (g1 (Ne.symm h.1)), fun h => (h2 h.2).trans (g2 (Ne.symm h.1)),
      fun h => (h3 h.2).trans (g3 (Ne.symm h.1)), fun h => (h4 h.2).trans (g4 (Ne.symm h.1)),
      fun h => (h5 h.2).trans (g5 (Ne.symm h.1))⟩

theorem foldl_asignarCampo_presente (body : List (String × JVal)) (t : Tarea)
    (hn : (body.map Prod.fst).Nodup) :
    (∀ x, ("titulo", JVal.str x) ∈ body →
      (body.foldl (fun t e => asignarCampo t e.1 e.2) t).titulo = jsTrim x) ∧
    (∀ x, ("descripcion", JVal.str x) ∈ body →
      (body.foldl (fun t e => asignarCampo t e.1 e.2) t).descripcion = jsTrim x) ∧
    (∀ x, ("prioridad", JVal.str x) ∈ body →
      (body.foldl (fun t e => asignarCampo t e.1 e.2) t).prioridad = x) ∧
    (∀ v, ("completada", v) ∈ body →
      (body.foldl (fun t e => asignarCampo t e.1 e.2) t).completada = v) ∧
    (∀ v, ("categoriaId", v) ∈ body →
      (body.foldl (fun t e => asignarCampo t e.1 e.2) t).categoriaId = v) := by
  induction body generalizing t with
  | nil => simp
  | cons e resto ih =>
    rw [List.map_cons, List.nodup_cons] at hn
    obtain ⟨h1, h2, h3, h4, h5⟩ := ih (asignarCampo t e.1 e.2) hn.2
    obtain ⟨a1, a2, a3, a4, a5⟩ := foldl_asignarCampo_ausente resto (asignarCampo t e.1 e.2)
    have hd1 : ("descripcion" : String) ≠ "titulo" := by decide
    have hd2 : ("prioridad" : String) ≠ "titulo" := by decide
    have hd3 : ("prioridad" : String) ≠ "descripcion" := by decide
    have hd4 : ("completada" : String) ≠ "titulo" := by decide
    have hd5 : ("completada" : String) ≠ "descripcion" := by decide
    have hd6 : ("completada" : String) ≠ "prioridad" := by decide
    have hd7 : ("categoriaId" : String) ≠ "titulo" := by decide
    have hd8 : ("categoriaId" : String) ≠ "descripcion" := by decide
    have hd9 : ("categoriaId" : String) ≠ "prioridad" := by decide
    have hd10 : ("categoriaId" : String) ≠ "completada" := by decide
    simp only [List.foldl_cons, List.mem_cons]
    refine ⟨?_, ?_, ?_, ?_, ?_⟩
    · rintro x (hx | hx)
      · subst hx
        rw [a1 hn.1]
        simp [asignarCampo]
      · exact h1 x hx
    · rintro x (hx | hx)
      · subst hx
        rw [a2 hn.1]
        simp [asignarCampo, hd1]
      · exact h2 x hx
    · rintro x (hx | hx)
      · subst hx
        rw [a3 hn.1]
        simp [asignarCampo, hd2, hd3]
      · exact h3 x hx
    · rintro v (hx | hx)
      · subst hx
        rw [a4 hn.1]
        simp [asignarCampo, hd4, hd5, hd6]
      · exact h4 v hx
    · rintro v (hx | hx)
      · subst hx
        rw [a5 hn.1]
        simp [asignarCampo, hd7, hd8, hd9, hd10]
      · exact h5 v hx

theorem validarCampos_ok_nil (categorias : List Categoria) (body : List (String × JVal))
    (h : validarCampos categorias body [] = .ok []) :
    ∀ e ∈ body,
      errorDeCampo categorias e = none ∧ categoriaInexistente categorias e = false := by
  have hall : ∀ e ∈ body, categoriaInexistente categorias e = false := by
    intro e he
    by_contra hc
    have ht : categoriaInexistente categorias e = true := by simpa using hc
    rw [validarCampos_con_inexistente categorias body [] ⟨e, he, ht⟩] at h
    cases h
  rw [validarCampos_sin_inexistente categorias body [] hall] at h
  injection h with h
  rw [List.nil_append, List.filterMap_eq_nil_iff] at h
  exact fun e he => ⟨h e he, hall e he⟩

theorem errorDeCampo_none (categorias : List Categoria) (e : String × JVal)
    (h : errorDeCampo categorias e = none) :
    e.1 ∈ camposPermitidos ∧
    (e.1 = "titulo" → ∃ x, e.2 = .str x ∧ 3 ≤ jsLength (jsTrim x)) ∧
    (e.1 = "descripcion" → ∃ x, e.2 = .str x ∧ jsLength x ≤ 500) ∧
    (e.1 = "prioridad" → e.2 = .str "baja" ∨ e.2 = .str "media" ∨ e.2 = .str "alta") ∧
    (e.1 = "completada" → ∃ b, e.2 = .bool b) := by
  unfold errorDeCampo at h
  split at h
  · cases h
  · rename_i hp
    have hperm : e.1 ∈ camposPermitidos := by simpa using hp
    have hd1 : ("descripcion" : String) ≠ "titulo" := by decide
    have hd2 : ("prioridad" : String) ≠ "titulo" := by decide
    have hd3 : ("prioridad" : String) ≠ "descripcion" := by decide
    have hd4 : ("completada" : String) ≠ "titulo" := by decide
    have hd5 : ("completada" : String) ≠ "descripcion" := by decide
    have hd6 : ("completada" : String) ≠ "prioridad" := by decide
    split at h
    · rename_i ht
      refine ⟨hperm, ?_, fun hc => absurd (ht.symm.trans hc) hd1.symm,
        fun hc => absurd (ht.symm.trans hc) hd2.symm,
        fun hc => absurd (ht.symm.trans hc) hd4.symm⟩
      intro _
      split at h
      · rename_i x hx
        split at h
        · cases h
        · rename_i hlen
          exact ⟨x, hx, by omega⟩
      · cases h
    · rename_i ht
      split at h
      · rename_i hdsc
        refine ⟨hperm, fun hc => absurd hc ht, ?_,
          fun hc => absurd (hdsc.symm.trans hc) hd3.symm,
          fun hc => absurd (hdsc.symm.trans hc) hd5.symm⟩
        intro _
        split at h
        · rename_i x hx
          split at h
          · cases h
          · rename_i hlen
            exact ⟨x, hx, by omega⟩
        · cases h
      · rename_i hdsc
        split at h
        · rename_i hpri
          refine ⟨hperm, fun hc => absurd hc ht, fun hc => absurd hc hdsc, ?_,
            fun hc => absurd (hpri.symm.trans hc) hd6.symm⟩
          intro _
          split at h
          · assumption
          · cases h
        · rename_i hpri
          split at h
          · rename_i hcom
            refine ⟨hperm, fun hc => absurd hc ht, fun hc => absurd hc hdsc,
              fun hc => absurd hc hpri, ?_⟩
            intro _
            split at h
            · exact ⟨_, by assumption⟩
            · cases h
          · rename_i hcom
            exact ⟨hperm, fun hc => absurd hc ht, fun hc => absurd hc hdsc,
              fun hc => absurd hc hpri, fun hc => absurd hc hcom⟩

/-- C19. Frame of `PATCH /tareas/:id`: whatever the payload, the `id`, `usuarioId` and
`fechaCreacion` of every task are the same after the call as before.  When the route
answers, every supplied key is one of `titulo`, `descripcion`, `prioridad`, `completada`,
`categoriaId`; the target is the first task with the id and every other task stays in place;
a field of the target whose key is not supplied keeps its value, a supplied field takes the
payload value, `titulo` and `descripcion` trimmed; and `fechaActualizacion` is set. -/
theorem actualizarParcial_marco (s : Store) (ahora : String) (userId : Int) (id : String)
    (body : List (String × JVal)) :
    ((estadoTras s (actualizarParcial s ahora userId id body)).tareas.map
        (fun t => (t.id, t.usuarioId, t.fechaCreacion)) =
      s.tareas.map fun t => (t.id, t.usuarioId, t.fechaCreacion)) ∧
    (∀ r, actualizarParcial s ahora userId id body = .ok r →
      ∃ l1 t l2, s.tareas = l1 ++ t :: l2 ∧ (∀ x ∈ l1, some x.id ≠ parseInt (.str id)) ∧
        r.1 = { s with tareas := l1 ++ r.2 :: l2 } ∧
        r.2.fechaActualizacion = some ahora ∧
        (∀ e ∈ body, e.1 ∈ camposPermitidos) ∧
        ("titulo" ∉ body.map Prod.fst → r.2.titulo = t.titulo) ∧
        ("descripcion" ∉ body.map Prod.fst → r.2.descripcion = t.descripcion) ∧
        ("prioridad" ∉ body.map Prod.fst → r.2.prioridad = t.prioridad) ∧
        ("completada" ∉ body.map Prod.fst → r.2.completada = t.completada) ∧
        ("categoriaId" ∉ body.map Prod.fst → r.2.categoriaId = t.categoriaId) ∧
        ((body.map Prod.fst).Nodup →
          (∀ v, ("titulo", v) ∈ body → ∃ x, v = .str x ∧ r.2.titulo = jsTrim x) ∧
          (∀ v, ("descripcion", v) ∈ body →
            ∃ x, v = .str x ∧ r.2.descripcion = jsTrim x) ∧
          (∀ v, ("prioridad", v) ∈ body → v = .str r.2.prioridad) ∧
          (∀ v, ("completada", v) ∈ body → r.2.completada = v) ∧
          (∀ v, ("categoriaId", v) ∈ body → r.2.categoriaId = v))) := by
  have hexito : ∀ r, actualizarParcial s ahora userId id body = .ok r →
      ∃ l1 t l2, s.tareas = l1 ++ t :: l2 ∧ (∀ x ∈ l1, some x.id ≠ parseInt (.str id)) ∧
        r.1 = { s with tareas := l1 ++ r.2 :: l2 } ∧
        r.2 = { body.foldl (fun t e => asignarCampo t e.1 e.2) t with
                fechaActualizacion := some ahora } ∧
        validarCampos s.categorias body [] = .ok [] := by
    intro r hr
    obtain ⟨_, _, hval, tarea, ht, hr2, hr1⟩ := actualizarParcial_ok s ahora userId id body r hr
    obtain ⟨l1, l2, hl, h1, _, hm⟩ :=
      modificarPrimero_descomponer _ (fun _ => r.2) _ _ (encontrarTarea_find _ _ _ _ ht)
    exact ⟨l1, tarea, l2, hl, fun x hx => by simpa using h1 x hx, by rw [hr1, hm], hr2, hval⟩
  constructor
  · cases hr : actualizarParcial s ahora userId id body with
    | error e => rfl
    | ok r =>
      obtain ⟨l1, t, l2, hl, _, hr1, hr2, _⟩ := hexito r hr
      obtain ⟨f1, f2, f3⟩ := foldl_asignarCampo_fijos body t
      have hs : estadoTras s (Except.ok r : Except Err (Store × Tarea)) = r.1 := rfl
      rw [hs, hr1, hl]
      have e1 : r.2.id = t.id := by rw [hr2]; exact f1
      have e2 : r.2.usuarioId = t.usuarioId := by rw [hr2]; exact f2
      have e3 : r.2.fechaCreacion = t.fechaCreacion := by rw [hr2]; exact f3
      simp [e1, e2, e3]
  · intro r hr
    obtain ⟨l1, t, l2, hl, h1, hr1, hr2, hval⟩ := hexito r hr
    have hcampos := validarCampos_ok_nil s.categorias body hval
    obtain ⟨a1, a2, a3, a4, a5⟩ := foldl_asignarCampo_ausente body t
    refine ⟨l1, t, l2, hl, h1, hr1, by rw [hr2], ?_, ?_, ?_, ?_, ?_, ?_, ?_⟩
    · exact fun e he => (errorDeCampo_none _ e (hcampos e he).1).1
    · intro h
      rw [hr2]
      exact a1 h
    · intro h
      rw [hr2]
      exact a2 h
    · intro h
      rw [hr2]
      exact a3 h
    · intro h
      rw [hr2]
      exact a4 h
    · intro h
      rw [hr2]
      exact a5 h
    · intro hn
      obtain ⟨p1, p2, p3, p4, p5⟩ := foldl_asignarCampo_presente body t hn
      refine ⟨?_, ?_, ?_, ?_, ?_⟩
      · intro v hv
        obtain ⟨x, hx, _⟩ := (errorDeCampo_none _ _ (hcampos _ hv).1).2.1 rfl
        simp only at hx
        subst hx
        exact ⟨x, rfl, by rw [hr2]; exact p1 x hv⟩
      · intro v hv
        obtain ⟨x, hx, _⟩ := (errorDeCampo_none _ _ (hcampos _ hv).1).2.2.1 rfl
        simp only at hx
        subst hx
        exact ⟨x, rfl, by rw [hr2]; exact p2 x hv⟩
      · intro v hv
        have hx := (errorDeCampo_none _ _ (hcampos _ hv).1).2.2.2.1 rfl
        simp only at hx
        rcases hx with hx | hx | hx <;> subst hx
        · rw [hr2]
          exact congrArg JVal.str (p3 _ hv).symm
        · rw [hr2]
          exact congrArg JVal.str (p3 _ hv).symm
        · rw [hr2]
          exact congrArg JVal.str (p3 _ hv).symm
      · intro v hv
        rw [hr2]
        exact p4 v hv
      · intro v hv
        rw [hr2]
        exact p5 v hv

/-- Witness of C19 on the seed store: user 1 sends `{titulo: " Nuevo ", completada: true}`
for task 1; the stored title is the payload text trimmed, `completada` is the payload value
and the description, which was not supplied, is the old one. -/
theorem actualizarParcial_marco_witness :
    ∃ r, actualizarParcial almacenInicial ahoraEjemplo 1 "1"
        [("titulo", .str "  Nuevo  "), ("completada", .bool true)] = .ok r ∧
      r.2.titulo = "Nuevo" ∧
      ∃ l1 t l2, almacenInicial.tareas = l1 ++ t :: l2 ∧
        r.1 = { almacenInicial with tareas := l1 ++ r.2 :: l2 } ∧
        r.2.completada = .bool true ∧ r.2.descripcion = t.descripcion := by
  obtain ⟨l1, t, l2, h1, _, h3, _, _, _, h7, _, _, _, h11⟩ :=
    (actualizarParcial_marco almacenInicial ahoraEjemplo 1 "1"
      [("titulo", .str "  Nuevo  "), ("completada", .bool true)]).2 _ rfl
  exact ⟨_, rfl, by decide, l1, t, l2, h1, h3,
    (h11 (by decide)).2.2.2.1 _ (by decide), h7 (by decide)⟩

/-- C22. Atomicity of `PATCH /tareas/:id` on failure: whenever the route throws, the state
after the call is the state before it.  It throws for an empty payload, for an id no task
has, for a task of another user, and as soon as one supplied key is not permitted or has an
invalid value; in that last case no field of the payload, valid or not, is applied. -/
theorem actualizarParcial_atomico (s : Store) (ahora : String) (userId : Int) (id : String)
    (body : List (String × JVal)) :
    (∀ e, actualizarParcial s ahora userId id body = .error e →
      estadoTras s (actualizarParcial s ahora userId id body) = s) ∧
    (body = [] → ∃ e, actualizarParcial s ahora userId id body = .error e) ∧
    ((∀ t ∈ s.tareas, some t.id ≠ parseInt (.str id)) →
      ∃ e, actualizarParcial s ahora userId id body = .error e) ∧
    (∀ t, s.tareas.find? (fun t => decide (some t.id = parseInt (.str id))) = some t →
      userId ≠ 0 → t.usuarioId ≠ userId →
      ∃ e, actualizarParcial s ahora userId id body = .error e) ∧
    ((∃ entrada ∈ body, errorDeCampo s.categorias entrada ≠ none) →
      (∃ e, actualizarParcial s ahora userId id body = .error e) ∧
      estadoTras s (actualizarParcial s ahora userId id body) = s) := by
  have hfalla : ∀ e, actualizarParcial s ahora userId id body = .error e →
      estadoTras s (actualizarParcial s ahora userId id body) = s := by
    intro e he
    rw [he]
    rfl
  have hno_ok : (∀ r, actualizarParcial s ahora userId id body ≠ .ok r) →
      ∃ e, actualizarParcial s ahora userId id body = .error e := by
    intro h
    cases hr : actualizarParcial s ahora userId id body with
    | error e => exact ⟨e, rfl⟩
    | ok r => exact absurd hr (h r)
  refine ⟨hfalla, ?_, ?_, ?_, ?_⟩
  · intro hb
    apply hno_ok
    intro r hr
    exact (actualizarParcial_ok s ahora userId id body r hr).2.1 hb
  · intro hno
    apply hno_ok
    intro r hr
    obtain ⟨_, _, _, tarea, ht, _⟩ := actualizarParcial_ok s ahora userId id body r hr
    obtain ⟨l1, l2, hl, _, hp, _⟩ := find_descomponer _ _ _ (encontrarTarea_find _ _ _ _ ht)
    exact hno tarea (by simp [hl]) (by simpa using hp)
  · intro t hf hu hne
    apply hno_ok
    intro r hr
    obtain ⟨_, _, _, tarea, ht, _⟩ := actualizarParcial_ok s ahora userId id body r hr
    simp [encontrarTarea, hf, hu, hne] at ht
  · rintro ⟨entrada, hmem, herr⟩
    have hex : ∃ e, actualizarParcial s ahora userId id body = .error e := by
      apply hno_ok
      intro r hr
      obtain ⟨_, _, hval, _⟩ := actualizarParcial_ok s ahora userId id body r hr
      exact herr (validarCampos_ok_nil s.categorias body hval entrada hmem).1
    obtain ⟨e, he⟩ := hex
    exact ⟨⟨e, he⟩, hfalla e he⟩

/-- Witness of C22 on the seed store: `{completada: true, titulo: "ab"}` sent by user 1 for
task 1 has a valid `completada` and an invalid `titulo`; the route throws and the state,
task 1 included, is the seed state. -/
theorem actualizarParcial_atomico_witness :
    (∃ entrada ∈ [("completada", JVal.bool true), ("titulo", JVal.str "ab")],
      errorDeCampo almacenInicial.categorias entrada ≠ none) ∧
    estadoTras almacenInicial
      (actualizarParcial almacenInicial ahoraEjemplo 1 "1"
        [("completada", .bool true), ("titulo", .str "ab")]) = almacenInicial :=
  ⟨by decide,
   ((actualizarParcial_atomico almacenInicial ahoraEjemplo 1 "1"
      [("completada", .bool true), ("titulo", .str "ab")]).2.2.2.2 (by decide)).2⟩

/-! ## Blank search (C20) and the `usuario_id` filter (C21) -/

theorem buscar_sin_terminos (env : Entorno) (q : String) (xs : List Tarea)
    (h : terminos env q = []) : buscar env (some q) xs = xs := by
  unfold buscar
  simp [h]

/-- C20. A blank search is a no-op: when `q` leaves no non-empty term after splitting,
trimming and lower-casing, the route gives the same result as the same request without `q`.
A `q` of white space only, and `q = " OR "`, leave no term (lower-casing the empty string
gives the empty string). -/
theorem busqueda_en_blanco (env : Entorno) (s : Store) (userId : Int) (c : Consulta)
    (q : String) (h : terminos env q = []) :
    listarTareas env s userId { c with q := some q } =
      listarTareas env s userId { c with q := none } ∧
    (env.toLowerCase "" = "" → terminos env "   " = [] ∧ terminos env " OR " = []) := by
  constructor
  · have hv : validarConsulta { c with q := some q } = validarConsulta { c with q := none } :=
      rfl
    have hr : resultadosDe env s.tareas userId { c with q := some q } =
        resultadosDe env s.tareas userId { c with q := none } := by
      unfold resultadosDe
      show ordenarResultados env c.ordenar (buscar env (some q) _) =
        ordenarResultados env c.ordenar (buscar env none _)
      rw [buscar_sin_terminos env q _ h]
      rfl
    unfold listarTareas manejarListado
    rw [hv, hr]
  · intro he
    have h1 : separarOR "   " = ["   "] := by decide
    have h2 : separarOR " OR " = ["", ""] := by decide
    have h3 : jsTrim "   " = "" := by decide
    have h4 : jsTrim "" = "" := by decide
    have h5 : jsLength "" = 0 := by decide
    constructor
    · simp [terminos, h1, h3, he, h5]
    · simp [terminos, h2, h4, he, h5]

/-- Witness of C20 on the seed store: for user 1 the request with `q = " OR "` gives the
result of the request without `q`. -/
theorem busqueda_en_blanco_witness :
    terminos entornoAscii " OR " = [] ∧
    listarTareas entornoAscii almacenInicial 1 { q := some " OR " } =
      listarTareas entornoAscii almacenInicial 1 { q := none } :=
  ⟨by decide, (busqueda_en_blanco entornoAscii almacenInicial 1 {} " OR " (by decide)).1⟩

theorem filtrarTareas_usuario (tareas : List Tarea) (userId : Int) (c : Consulta) (v : String)
    (hv : validarConsulta c = []) (hu : c.usuario_id = some v) :
    (parseInt (.str v) = some userId →
      filtrarTareas tareas userId c = filtrarTareas tareas userId { c with usuario_id := none }) ∧
    (parseInt (.str v) ≠ some userId → filtrarTareas tareas userId c = []) := by
  have hv2 : validarConsulta { c with usuario_id := none } = [] := by
    unfold validarConsulta at hv ⊢
    simp only [List.append_eq_nil] at hv ⊢
    obtain ⟨⟨⟨⟨⟨h1, h2⟩, _⟩, h4⟩, h5⟩, h6⟩ := hv
    exact ⟨⟨⟨⟨⟨h1, h2⟩, rfl⟩, h4⟩, h5⟩, h6⟩
  rw [filtrarTareas_eq tareas userId c hv, filtrarTareas_eq tareas userId _ hv2]
  constructor
  · intro hp
    apply List.filter_congr
    intro t _
    rw [Bool.eq_iff_iff, cumpleFiltros_iff, cumpleFiltros_iff]
    simp only [hu]
    constructor
    · rintro ⟨h1, h2, h3, _, h5⟩
      exact ⟨h1, h2, h3, (fun w hw => by cases hw), h5⟩
    · rintro ⟨h1, h2, h3, _, h5⟩
      refine ⟨h1, h2, h3, ?_, h5⟩
      intro w hw
      injection hw with hw
      subst hw
      rw [hp, h1]
  · intro hp
    rw [List.filter_eq_nil_iff]
    intro t _
    rw [cumpleFiltros_iff]
    rintro ⟨h1, _, _, h4, _⟩
    have := h4 v hu
    rw [h1] at this
    exact hp this.symm

/-- C21. The `usuario_id` filter is redundant with the owner filter: for a request that
passes the validators, when `usuario_id` denotes the authenticated user the result is the one
of the same request without `usuario_id`, and when it denotes another number the page is
empty, `total` is 0 and `paginasTotal` is 0. -/
theorem filtro_usuario_redundante (env : Entorno) (s : Store) (userId : Int) (c : Consulta)
    (v : String) (r : Respuesta) (hu : c.usuario_id = some v)
    (h : listarTareas env s userId c = .ok r) :
    (parseInt (.str v) = some userId →
      listarTareas env s userId { c with usuario_id := none } = .ok r) ∧
    (parseInt (.str v) ≠ some userId →
      r.tareas = [] ∧ r.total = 0 ∧ r.paginasTotal = some 0) := by
  obtain ⟨hv, hr⟩ := listarTareas_ok env s userId c r h
  obtain ⟨f1, f2⟩ := filtrarTareas_usuario s.tareas userId c v hv hu
  have hv2 : validarConsulta { c with usuario_id := none } = [] := by
    unfold validarConsulta at hv ⊢
    simp only [List.append_eq_nil] at hv ⊢
    obtain ⟨⟨⟨⟨⟨h1, h2⟩, _⟩, h4⟩, h5⟩, h6⟩ := hv
    exact ⟨⟨⟨⟨⟨h1, h2⟩, rfl⟩, h4⟩, h5⟩, h6⟩
  constructor
  · intro hp
    have hres : resultadosDe env s.tareas userId { c with usuario_id := none } =
        resultadosDe env s.tareas userId c := by
      unfold resultadosDe
      rw [f1 hp]
    have hm : manejarListado env s userId { c with usuario_id := none } =
        manejarListado env s userId c := by
      unfold manejarListado
      rw [hres]
    simp only [listarTareas, hv2, ne_eq, not_true_eq_false, if_false, hm, hr]
  · intro hp
    have hres : resultadosDe env s.tareas userId c = [] := by
      unfold resultadosDe
      rw [f2 hp]
      have hb : buscar env c.q [] = [] := List.eq_nil_of_sublist_nil (buscar_sublist env c.q [])
      rw [hb, ordenarResultados_nil]
    have hlim : ∃ l : Int, parseIntConDefecto c.limite 10 = some l ∧ 1 ≤ l := by
      have hv3 := hv
      unfold validarConsulta at hv3
      simp only [List.append_eq_nil] at hv3
      obtain ⟨l, hl, hl1, _⟩ := parseIntConDefecto_valido c.limite 10 1 (some 100) _
        (by decide) (fun m hm => by cases hm; decide) hv3.1.2
      exact ⟨l, hl, hl1⟩
    obtain ⟨l, hl, hl1⟩ := hlim
    subst hr
    refine ⟨?_, ?_, ?_⟩
    · show paginar (resultadosDe env s.tareas userId c) _ _ = []
      rw [hres, paginar_nil]
    · show (resultadosDe env s.tareas userId c).length = 0
      rw [hres]
      rfl
    · show techoDivision (resultadosDe env s.tareas userId c).length
        (parseIntConDefecto c.limite 10) = some 0
      rw [hres, hl]
      have hl0 : l ≠ 0 := by omega
      simp [techoDivision, hl0]

/-- Witness of C21 on the seed store: user 1 asking with `usuario_id=2` gets an empty page
with total 0 and no pages. -/
theorem filtro_usuario_redundante_witness :
    listarTareas entornoAscii almacenInicial 1 { usuario_id := some "2" } =
      .ok { tareas := [], total := 0, pagina := some 1, limite := some 10,
            paginasTotal := some 0 } ∧
    parseInt (.str "2") ≠ some 1 ∧
    (([] : List Tarea) = [] ∧ (0 : Nat) = 0 ∧ (some 0 : Option Int) = some 0) :=
  ⟨by decide, by decide,
   (filtro_usuario_redundante entornoAscii almacenInicial 1 { usuario_id := some "2" } "2"
     { tareas := [], total := 0, pagina := some 1, limite := some 10, paginasTotal := some 0 }
     rfl (by decide)).2 (by decide)⟩

/-! ## Per-caller statistics (C16) -/

theorem redondearPar_cota (a b : Nat) (hb : 0 < b) :
    (2 * (b : ℤ) * (redondearPar a b : ℤ) - 2 * (a : ℤ) ≤ b) ∧
    (2 * (a : ℤ) - 2 * (b : ℤ) * (redondearPar a b : ℤ) ≤ b) := by
  have hdm : b * (a / b) + a % b = a := Nat.div_add_mod a b
  have hr : a % b < b := Nat.mod_lt a hb
  unfold redondearPar
  generalize a / b = q at *
  generalize a % b = r at *
  have hdm' : (a : ℤ) = (b : ℤ) * (q : ℤ) + (r : ℤ) := by exact_mod_cast hdm.symm
  have hr' : (r : ℤ) < b := by exact_mod_cast hr
  split
  · rename_i h1
    have h1' : 2 * (r : ℤ) < b := by exact_mod_cast h1
    constructor <;> linarith
  · rename_i h1
    have h1' : (b : ℤ) ≤ 2 * (r : ℤ) := by exact_mod_cast not_lt.mp h1
    split
    · push_cast
      constructor <;> linarith
    · rename_i h2
      have h2' : 2 * (r : ℤ) ≤ b := by exact_mod_cast not_lt.mp h2
      split
      · constructor <;> linarith
      · push_cast
        constructor <;> linarith

theorem centesimas_cercana (c t : Nat) (ht : 0 < t) (hT : t < 2 ^ 32) :
    (2 * (t : ℤ) * (centesimas c t : ℤ) - 20000 * (c : ℤ) ≤ t) ∧
    (20000 * (c : ℤ) - 2 * (t : ℤ) * (centesimas c t : ℤ) ≤ t) := by
  unfold centesimas
  split
  · rename_i hc
    subst hc
    have : (0 : ℤ) ≤ t := by positivity
    constructor <;> simp
  · simp only
    generalize hk : 52 + desplazamiento t c t = k
    generalize hm : redondearPar (c * 2 ^ k) t = m
    generalize he : (if 100 * m < 2 ^ 59 then 6 else 7) = e
    generalize hm2 : redondearPar (100 * m) (2 ^ e) = m2
    generalize hn : (200 * m2 * 2 ^ e + 2 ^ k) / 2 ^ (k + 1) = n
    have hk52 : 52 ≤ k := by omega
    have hK : (2 : ℤ) ^ 52 ≤ (2 : ℤ) ^ k := pow_le_pow_right₀ (by norm_num) hk52
    have hE : (2 : ℤ) ^ e ≤ 128 ∧ (0 : ℤ) < (2 : ℤ) ^ e := by
      split at he <;> subst he <;> norm_num
    obtain ⟨h1a, h1b⟩ := redondearPar_cota (c * 2 ^ k) t ht
    rw [hm] at h1a h1b
    obtain ⟨h2a, h2b⟩ := redondearPar_cota (100 * m) (2 ^ e) (by positivity)
    rw [hm2] at h2a h2b
    push_cast at h1a h1b h2a h2b
    have hpos : 0 < 2 ^ (k + 1) := by positivity
    have h3a : 2 ^ (k + 1) * n ≤ 200 * m2 * 2 ^ e + 2 ^ k := by
      rw [← hn]
      exact Nat.mul_div_le _ _
    have h3b : 200 * m2 * 2 ^ e + 2 ^ k < 2 ^ (k + 1) * (n + 1) := by
      rw [← hn]
      exact Nat.lt_mul_div_succ _ hpos
    have h3a' :
        2 * (2 : ℤ) ^ k * (n : ℤ) ≤ 200 * (m2 : ℤ) * (2 : ℤ) ^ e + (2 : ℤ) ^ k := by
      have := h3a
      rw [pow_succ] at this
      have h' : ((2 ^ k * 2 * n : Nat) : ℤ) ≤ ((200 * m2 * 2 ^ e + 2 ^ k : Nat) : ℤ) := by
        exact_mod_cast this
      push_cast at h'
      linarith
    have h3b' : 200 * (m2 : ℤ) * (2 : ℤ) ^ e + (2 : ℤ) ^ k <
        2 * (2 : ℤ) ^ k * ((n : ℤ) + 1) := by
      have := h3b
      rw [pow_succ] at this
      have h' : ((200 * m2 * 2 ^ e + 2 ^ k : Nat) : ℤ) < ((2 ^ k * 2 * (n + 1) : Nat) : ℤ) := by
        exact_mod_cast this
      push_cast at h'
      linarith
    have hT' : (t : ℤ) < 2 ^ 32 := by exact_mod_cast hT
    have ht' : (0 : ℤ) < t := by exact_mod_cast ht
    have hm0 : (0 : ℤ) ≤ m := by positivity
    have hm20 : (0 : ℤ) ≤ m2 := by positivity
    have hn0 : (0 : ℤ) ≤ n := by positivity
    -- products with `t`
    have p1 := mul_le_mul_of_nonneg_left h3a' ht'.le
    have p2 := mul_le_mul_of_nonneg_left h3b'.le ht'.le
    have p3 := mul_le_mul_of_nonneg_left h2a ht'.le
    have p4 := mul_le_mul_of_nonneg_left h2b ht'.le
    have p5 := mul_le_mul_of_nonneg_left hE.1 ht'.le
    have p6 : (t : ℤ) * 22800 < (2 : ℤ) ^ k := by
      have : (t : ℤ) * 22800 < (2 : ℤ) ^ 52 := by norm_num; linarith
      linarith
    constructor
    · by_contra hcon
      have hcon' : (t : ℤ) + 1 ≤ 2 * (t : ℤ) * (n : ℤ) - 20000 * (c : ℤ) := by
        have := not_le.mp hcon
        omega
      have q := mul_le_mul_of_nonneg_right hcon' (le_of_lt (lt_of_lt_of_le (by norm_num) hK))
      linarith [p1, p3, p5, h1a, q, p6]
    · by_contra hcon
      have hcon' : (t : ℤ) + 1 ≤ 20000 * (c : ℤ) - 2 * (t : ℤ) * (n : ℤ) := by
        have := not_le.mp hcon
        omega
      have q := mul_le_mul_of_nonneg_right hcon' (le_of_lt (lt_of_lt_of_le (by norm_num) hK))
      linarith [p2, p4, p5, h1b, q, p6]

theorem porcentajeRedondeado_cero (c : Nat) : porcentajeRedondeado c 0 = 0 := by
  simp [porcentajeRedondeado]

theorem porcentajeRedondeado_cercano (c t : Nat) (ht : 0 < t) (hT : t < 2 ^ 32) :
    ∃ n : Nat, porcentajeRedondeado c t = (n : ℚ) / 100 ∧
      |(n : ℚ) / 100 - 100 * (c : ℚ) / (t : ℚ)| ≤ 1 / 200 := by
  refine ⟨centesimas c t, by simp [porcentajeRedondeado, ht], ?_⟩
  obtain ⟨h1, h2⟩ := centesimas_cercana c t ht hT
  have htq : (0 : ℚ) < (t : ℚ) := by exact_mod_cast ht
  have h1q : 2 * (t : ℚ) * (centesimas c t : ℚ) - 20000 * (c : ℚ) ≤ (t : ℚ) := by
    exact_mod_cast h1
  have h2q : 20000 * (c : ℚ) - 2 * (t : ℚ) * (centesimas c t : ℚ) ≤ (t : ℚ) := by
    exact_mod_cast h2
  have hdif : (centesimas c t : ℚ) / 100 - 100 * (c : ℚ) / (t : ℚ) =
      (2 * (t : ℚ) * (centesimas c t : ℚ) - 20000 * (c : ℚ)) / (200 * (t : ℚ)) := by
    field_simp
    ring
  rw [hdif, abs_le]
  have hden : (0 : ℚ) < 200 * (t : ℚ) := by positivity
  constructor
  · rw [le_div_iff₀ hden]
    linarith
  · rw [div_le_iff₀ hden]
    linarith

theorem filter_partir (l : List Tarea) (p q : Tarea → Bool) :
    (l.filter p).length =
      (l.filter fun t => p t && q t).length + (l.filter fun t => p t && !q t).length := by
  induction l with
  | nil => rfl
  | cons a l ih =>
    cases hp : p a <;> cases hq : q a <;> simp [List.filter_cons, hp, hq, ih] <;> omega

/-- C16. Statistics of the caller: `totalTareas` is the number of the caller's tasks,
`completadas` the number of those whose `completada` is truthy (for boolean values: is
`true`), `pendientes` is `totalTareas - completadas`, and `porcentajeCompletadas` is 0 when
`totalTareas` is 0 and otherwise a number of hundredths at distance at most 0.005 from
`100 * completadas / totalTareas` (the task list has fewer than `2^32` entries, as every
array has).  With 3 tasks of which 1 is completed the result is 1, 2 and 33.33. -/
theorem estadisticas_del_usuario (s : Store) (userId : Int) :
    (tareasCompletadas s userId).totalTareas =
      (s.tareas.filter fun t => decide (t.usuarioId = userId)).length ∧
    (tareasCompletadas s userId).completadas =
      (s.tareas.filter fun t =>
        decide (t.usuarioId = userId) && esVerdaderoJ t.completada).length ∧
    ((∀ t ∈ s.tareas, ∃ b, t.completada = .bool b) →
      (tareasCompletadas s userId).completadas =
        (s.tareas.filter fun t =>
          decide (t.usuarioId = userId) && decide (t.completada = .bool true)).length) ∧
    (tareasCompletadas s userId).pendientes =
      (tareasCompletadas s userId).totalTareas - (tareasCompletadas s userId).completadas ∧
    (tareasCompletadas s userId).completadas ≤ (tareasCompletadas s userId).totalTareas ∧
    ((tareasCompletadas s userId).totalTareas = 0 →
      (tareasCompletadas s userId).porcentajeCompletadas = 0) ∧
    (0 < (tareasCompletadas s userId).totalTareas →
      (tareasCompletadas s userId).totalTareas < 2 ^ 32 →
      ∃ n : Nat, (tareasCompletadas s userId).porcentajeCompletadas = (n : ℚ) / 100 ∧
        |(n : ℚ) / 100 - 100 * ((tareasCompletadas s userId).completadas : ℚ) /
          ((tareasCompletadas s userId).totalTareas : ℚ)| ≤ 1 / 200) ∧
    ((tareasCompletadas s userId).totalTareas = 3 →
      (tareasCompletadas s userId).completadas = 1 →
      (tareasCompletadas s userId).pendientes = 2 ∧
      (tareasCompletadas s userId).porcentajeCompletadas = 3333 / 100) := by
  have hcomp : (tareasCompletadas s userId).completadas =
      (s.tareas.filter fun t =>
        decide (t.usuarioId = userId) && esVerdaderoJ t.completada).length := by
    show ((s.tareas.filter _).filter _).length = _
    rw [List.filter_filter]
    congr 1
    apply List.filter_congr
    intro t _
    exact Bool.and_comm _ _
  have hle : (tareasCompletadas s userId).completadas ≤
      (tareasCompletadas s userId).totalTareas := by
    show ((s.tareas.filter _).filter _).length ≤ (s.tareas.filter _).length
    exact List.length_filter_le _ _
  refine ⟨rfl, hcomp, ?_, rfl, hle, ?_, ?_, ?_⟩
  · intro hb
    rw [hcomp]
    congr 1
    apply List.filter_congr
    intro t ht
    obtain ⟨b, hbt⟩ := hb t ht
    rw [hbt]
    cases b <;> simp [esVerdaderoJ]
  · intro h0
    show porcentajeRedondeado _ (tareasCompletadas s userId).totalTareas = 0
    rw [h0]
    exact porcentajeRedondeado_cero _
  · intro hpos hlt
    exact porcentajeRedondeado_cercano _ _ hpos hlt
  · intro h3 h1
    constructor
    · show (tareasCompletadas s userId).totalTareas -
        (tareasCompletadas s userId).completadas = 2
      rw [h3, h1]
    · show porcentajeRedondeado (tareasCompletadas s userId).completadas
        (tareasCompletadas s userId).totalTareas = 3333 / 100
      rw [h3, h1]
      have hc : centesimas 1 3 = 3333 := by decide
      simp [porcentajeRedondeado, hc]

/-- Witness of C16: in the seed store with one more pending task of user 1, user 1 has 3
tasks of which 1 is completed, so 2 are pending and the percentage is 33.33. -/
theorem estadisticas_del_usuario_witness :
    (tareasCompletadas
      (ejecutar almacenInicial
        [.crearTarea ahoraEjemplo 1
          { titulo := some (.str "Buy milk"), categoriaId := some (.num 1) }]) 1).pendientes
      = 2 ∧
    (tareasCompletadas
      (ejecutar almacenInicial
        [.crearTarea ahoraEjemplo 1
          { titulo := some (.str "Buy milk"), categoriaId := some (.num 1) }])
      1).porcentajeCompletadas = 3333 / 100 :=
  (estadisticas_del_usuario
    (ejecutar almacenInicial
      [.crearTarea ahoraEjemplo 1
        { titulo := some (.str "Buy milk"), categoriaId := some (.num 1) }]) 1).2.2.2.2.2.2.2
    (by decide) (by decide)

/-! ## Global productivity (C17) -/

theorem insertarClave_perm {α : Type} (k : Int) (v : α) (o : List (Int × α)) :
    (insertarClave k v o).Perm ((k, v) :: o) := by
  induction o with
  | nil => exact List.Perm.refl _
  | cons e resto ih =>
    unfold insertarClave
    split
    · exact List.Perm.refl _
    · exact ((List.Perm.cons e ih).trans (List.Perm.swap _ _ _))

theorem ponerClave_claves {α : Type} (k : Int) (v : α) (o : List (Int × α))
    (hn : (o.map fun e => e.1).Nodup) :
    ((ponerClave k v o).map fun e => e.1).Nodup ∧
    (∀ j, j ∈ (ponerClave k v o).map (fun e => e.1) ↔ j = k ∨ j ∈ o.map fun e => e.1) ∧
    (∀ e ∈ ponerClave k v o, e = (k, v) ∨ e ∈ o) := by
  unfold ponerClave
  split
  · rename_i hany
    have hk : k ∈ o.map fun e => e.1 := by
      obtain ⟨e, he, hek⟩ := List.any_eq_true.mp hany
      exact List.mem_map.mpr ⟨e, he, by simpa using hek⟩
    have hmap : ((o.map fun e => if e.1 = k then (k, v) else e).map fun e => e.1) =
        o.map fun e => e.1 := by
      rw [List.map_map]
      apply List.map_congr_left
      intro e _
      by_cases h : e.1 = k <;> simp [h]
    rw [hmap]
    refine ⟨hn, ?_, ?_⟩
    · intro j
      constructor
      · exact fun h => Or.inr h
      · rintro (h | h)
        · rw [h]
          exact hk
        · exact h
    · intro e he
      obtain ⟨e0, he0, rfl⟩ := List.mem_map.mp he
      by_cases h : e0.1 = k
      · left
        simp [h]
      · right
        simpa [h] using he0
  · rename_i hany
    have hk : k ∉ o.map fun e => e.1 := by
      intro hk
      obtain ⟨e, he, hek⟩ := List.mem_map.mp hk
      exact hany (List.any_eq_true.mpr ⟨e, he, by simpa using hek⟩)
    have hp := insertarClave_perm k v o
    have hpm := hp.map fun e => e.1
    refine ⟨(hpm.nodup_iff).mpr (List.nodup_cons.mpr ⟨hk, hn⟩), ?_, ?_⟩
    · intro j
      rw [hpm.mem_iff]
      simp
    · intro e he
      have := hp.mem_iff.mp he
      simpa using this

theorem productividadInicial_aux (usuarios : List Usuario) (o : List (Int × Productividad))
    (hn : (o.map fun e => e.1).Nodup)
    (hz : ∀ e ∈ o, e.2.totalTareas = 0 ∧ e.2.completadas = 0 ∧ e.2.pendientes = 0 ∧
      e.2.porcentajeCompletadas = 0) :
    ((usuarios.foldl
        (fun productividad u =>
          ponerClave u.id
            { nombre := u.nombre, totalTareas := 0, completadas := 0, pendientes := 0,
              porcentajeCompletadas := 0 }
            productividad) o).map fun e => e.1).Nodup ∧
    (∀ j, j ∈ (usuarios.foldl
        (fun productividad u =>
          ponerClave u.id
            { nombre := u.nombre, totalTareas := 0, completadas := 0, pendientes := 0,
              porcentajeCompletadas := 0 }
            productividad) o).map (fun e => e.1) ↔
      (j ∈ o.map fun e => e.1) ∨ ∃ u ∈ usuarios, u.id = j) ∧
    (∀ e ∈ usuarios.foldl
        (fun productividad u =>
          ponerClave u.id
            { nombre := u.nombre, totalTareas := 0, completadas := 0, pendientes := 0,
              porcentajeCompletadas := 0 }
            productividad) o,
      e.2.totalTareas = 0 ∧ e.2.completadas = 0 ∧ e.2.pendientes = 0 ∧
        e.2.porcentajeCompletadas = 0) := by
  induction usuarios generalizing o with
  | nil => exact ⟨hn, by simp, hz⟩
  | cons u resto ih =>
    obtain ⟨h1, h2, h3⟩ := ponerClave_claves u.id
      ({ nombre := u.nombre, totalTareas := 0, completadas := 0, pendientes := 0,
         porcentajeCompletadas := 0 } : Productividad) o hn
    have hz2 : ∀ e ∈ ponerClave u.id
        ({ nombre := u.nombre, totalTareas := 0, completadas := 0, pendientes := 0,
           porcentajeCompletadas := 0 } : Productividad) o,
        e.2.totalTareas = 0 ∧ e.2.completadas = 0 ∧ e.2.pendientes = 0 ∧
          e.2.porcentajeCompletadas = 0 := by
      intro e he
      rcases h3 e he with h | h
      · rw [h]
        exact ⟨rfl, rfl, rfl, rfl⟩
      · exact hz e h
    obtain ⟨g1, g2, g3⟩ := ih _ h1 hz2
    refine ⟨g1, ?_, g3⟩
    intro j
    rw [List.foldl_cons, g2 j, h2 j]
    constructor
    · rintro ((h | h) | ⟨w, hw, hwj⟩)
      · exact Or.inr ⟨u, by simp, h.symm⟩
      · exact Or.inl h
      · exact Or.inr ⟨w, List.mem_cons_of_mem _ hw, hwj⟩
    · rintro (h | ⟨w, hw, hwj⟩)
      · exact Or.inl (Or.inr h)
      · rcases List.mem_cons.mp hw with rfl | hw
        · exact Or.inl (Or.inl hwj.symm)
        · exact Or.inr ⟨w, hw, hwj⟩

theorem contar_tareas (tareas : List Tarea) (o : List (Int × Productividad)) :
    ((tareas.foldl contarTarea o).map fun e => e.1) = (o.map fun e => e.1) ∧
    ∀ e2 ∈ tareas.foldl contarTarea o, ∃ e ∈ o, e2.1 = e.1 ∧
      e2.2.totalTareas = e.2.totalTareas +
        (tareas.filter fun t => decide (t.usuarioId = e.1)).length ∧
      e2.2.completadas = e.2.completadas +
        (tareas.filter fun t =>
          decide (t.usuarioId = e.1) && esVerdaderoJ t.completada).length ∧
      e2.2.pendientes = e.2.pendientes +
        (tareas.filter fun t =>
          decide (t.usuarioId = e.1) && !esVerdaderoJ t.completada).length ∧
      e2.2.porcentajeCompletadas = e.2.porcentajeCompletadas := by
  induction tareas generalizing o with
  | nil =>
    refine ⟨rfl, ?_⟩
    intro e2 he2
    exact ⟨e2, he2, rfl, by simp, by simp, by simp, rfl⟩
  | cons t resto ih =>
    obtain ⟨h1, h2⟩ := ih (contarTarea o t)
    have hk : ((contarTarea o t).map fun e => e.1) = o.map fun e => e.1 := by
      unfold contarTarea
      rw [List.map_map]
      apply List.map_congr_left
      intro e _
      by_cases h : e.1 = t.usuarioId <;> simp [h]
    refine ⟨by rw [List.foldl_cons, h1, hk], ?_⟩
    intro e2 he2
    obtain ⟨e1, he1, g0, g1, g2, g3, g4⟩ := h2 e2 he2
    unfold contarTarea at he1
    obtain ⟨e, he, hee⟩ := List.mem_map.mp he1
    refine ⟨e, he, ?_⟩
    by_cases hu : e.1 = t.usuarioId
    · have hu' : t.usuarioId = e.1 := hu.symm
      cases hv : esVerdaderoJ t.completada
      · simp only [hu, if_true, hv, Bool.false_eq_true, if_false] at hee
        subst hee
        simp only at g0 g1 g2 g3 g4
        refine ⟨by rw [g0, hu], ?_, ?_, ?_, g4⟩
        · rw [g1]
          simp [List.filter_cons, hu]
          omega
        · rw [g2]
          simp [List.filter_cons, hu, hv]
        · rw [g3]
          simp [List.filter_cons, hu, hv]
          omega
      · simp only [hu, if_true, hv] at hee
        subst hee
        simp only at g0 g1 g2 g3 g4
        refine ⟨by rw [g0, hu], ?_, ?_, ?_, g4⟩
        · rw [g1]
          simp [List.filter_cons, hu]
          omega
        · rw [g2]
          simp [List.filter_cons, hu, hv]
          omega
        · rw [g3]
          simp [List.filter_cons, hu, hv]
    · have hu' : ¬ t.usuarioId = e.1 := fun h => hu h.symm
      simp only [hu, if_false] at hee
      subst hee
      refine ⟨g0, ?_, ?_, ?_, g4⟩
      · rw [g1]
        simp [List.filter_cons, hu']
      · rw [g2]
        simp [List.filter_cons, hu']
      · rw [g3]
        simp [List.filter_cons, hu']

/-- C17. Global productivity: a caller other than user 1 does not get Forbidden.  For such
a caller the handler stops at `throw new AppError(..., 403)`, and what the statement raises
is the `TypeError` of reading `res.status` of `undefined`, which the error middleware answers
with status 500 and no details.  For user 1 the answer lists the values of an object that has
exactly one entry per user id of the store, users without tasks included, and the
`totalTareas`, `completadas`, `pendientes` and `porcentajeCompletadas` of the entry of a user
are the four numbers the per-caller statistics give for that user on the same store. -/
theorem productividad_global (s : Store) (userId : Int) :
    (userId ≠ 1 →
      productividadPorUsuario s userId =
        .error (.app
          "Acceso denegado. Solo administradores pueden ver la productividad global." 403)) ∧
    evaluarNew (.app
        "Acceso denegado. Solo administradores pueden ver la productividad global." 403) =
      .error errorSinRes ∧
    responderError errorSinRes =
      .ok { status := 500, error := "Error interno del servidor" } ∧
    productividadPorUsuario s 1 = .ok ((tablaProductividad s).map fun e => e.2) ∧
    ((tablaProductividad s).map fun e => e.1).Nodup ∧
    (∀ k, k ∈ (tablaProductividad s).map (fun e => e.1) ↔ ∃ u ∈ s.usuarios, u.id = k) ∧
    (∀ e ∈ tablaProductividad s,
      e.2.totalTareas = (tareasCompletadas s e.1).totalTareas ∧
      e.2.completadas = (tareasCompletadas s e.1).completadas ∧
      e.2.pendientes = (tareasCompletadas s e.1).pendientes ∧
      e.2.porcentajeCompletadas = (tareasCompletadas s e.1).porcentajeCompletadas) := by
  obtain ⟨i1, i2, i3⟩ := productividadInicial_aux s.usuarios [] (by simp) (by simp)
  obtain ⟨c1, c2⟩ := contar_tareas s.tareas (productividadInicial s.usuarios)
  have hkeys : ((tablaProductividad s).map fun e => e.1) =
      (productividadInicial s.usuarios).map fun e => e.1 := by
    unfold tablaProductividad
    rw [List.map_map, ← c1]
    rfl
  refine ⟨?_, rfl, by decide, ?_, ?_, ?_, ?_⟩
  · intro h
    simp [productividadPorUsuario, h]
  · simp [productividadPorUsuario]
  · rw [hkeys]
    exact i1
  · intro k
    rw [hkeys]
    have := i2 k
    simpa using this
  · intro e he
    unfold tablaProductividad at he
    obtain ⟨e2, he2, rfl⟩ := List.mem_map.mp he
    obtain ⟨e0, he0, g0, g1, g2, g3, g4⟩ := c2 e2 he2
    obtain ⟨z1, z2, z3, z4⟩ := i3 e0 he0
    rw [z1, Nat.zero_add] at g1
    rw [z2, Nat.zero_add] at g2
    rw [z3, Nat.zero_add] at g3
    rw [z4] at g4
    have htot : (tareasCompletadas s e2.1).totalTareas = e2.2.totalTareas := by
      rw [g1, g0]
      rfl
    have hcom : (tareasCompletadas s e2.1).completadas = e2.2.completadas := by
      rw [g2, g0]
      show ((s.tareas.filter _).filter _).length = _
      rw [List.filter_filter]
      congr 1
      apply List.filter_congr
      intro t _
      exact Bool.and_comm _ _
    have hpen : (tareasCompletadas s e2.1).pendientes = e2.2.pendientes := by
      show (tareasCompletadas s e2.1).totalTareas - (tareasCompletadas s e2.1).completadas = _
      rw [htot, hcom, g1, g2, g3]
      have := filter_partir s.tareas (fun t => decide (t.usuarioId = e0.1))
        (fun t => esVerdaderoJ t.completada)
      omega
    have hpct : (ponerPorcentaje e2.2).porcentajeCompletadas =
        porcentajeRedondeado e2.2.completadas e2.2.totalTareas := by
      unfold ponerPorcentaje
      split
      · rfl
      · rename_i h0
        have h0' : e2.2.totalTareas = 0 := by omega
        rw [g4, h0', porcentajeRedondeado_cero]
    have hfix : (ponerPorcentaje e2.2).totalTareas = e2.2.totalTareas ∧
        (ponerPorcentaje e2.2).completadas = e2.2.completadas ∧
        (ponerPorcentaje e2.2).pendientes = e2.2.pendientes := by
      unfold ponerPorcentaje
      split <;> exact ⟨rfl, rfl, rfl⟩
    refine ⟨?_, ?_, ?_, ?_⟩
    · show (ponerPorcentaje e2.2).totalTareas = _
      rw [hfix.1, htot]
    · show (ponerPorcentaje e2.2).completadas = _
      rw [hfix.2.1, hcom]
    · show (ponerPorcentaje e2.2).pendientes = _
      rw [hfix.2.2, hpen]
    · show (ponerPorcentaje e2.2).porcentajeCompletadas =
        porcentajeRedondeado (tareasCompletadas s e2.1).completadas
          (tareasCompletadas s e2.1).totalTareas
      rw [hpct, hcom, htot]

/-- Witness of C17 on the seed store: for user 2 the handler stops at the 403 statement,
which raises the `TypeError` that is answered with status 500. -/
theorem productividad_global_witness :
    (2 : Int) ≠ 1 ∧
    productividadPorUsuario almacenInicial 2 =
      .error (.app
        "Acceso denegado. Solo administradores pueden ver la productividad global." 403) ∧
    evaluarNew (.app
        "Acceso denegado. Solo administradores pueden ver la productividad global." 403) =
      .error errorSinRes ∧
    responderError errorSinRes =
      .ok { status := 500, error := "Error interno del servidor" } :=
  ⟨by decide, (productividad_global almacenInicial 2).1 (by decide),
   (productividad_global almacenInicial 2).2.1, (productividad_global almacenInicial 2).2.2.1⟩

end ApiRest
